import Mathlib

/-!
SAPIENT client: framed TCP transport and connection policies.

Shallow embedding of `src/sapientpb/sapient_tcp.cpp` (class `SapientTcpClientImpl`)
and of the periodic status worker of `src/sapientpb/sapient_init.c`.

The client is embedded sequentially (one thread of control).  Everything the
operating system or another module decides is read from an explicit script:

* `World.clock` / `World.ticks` : the readings of `steady_clock::now()`, in nanoseconds;
* `World.connects`              : the outcomes of the successive `connect_with_timeout` attempts;
* the `List SendRes` argument   : the outcomes of the successive `send(2)` calls;
* `World.registration`, `World.status` : what the message builders return;
* `Sock.evs`                    : the outcomes of the `select`/`recv` pairs of the receiver.

`World.wire` is a ghost log of the bytes each TCP connection has accepted.
-/

namespace Sapient

/-! ## Frame codec -/

/-- One octet, stored as a natural number (`uint8_t`). -/
abbrev Byte := Nat

/-- The limit `32u * 1024u * 1024u` of `receive_once`. -/
def MAX_FRAME : Nat := 32 * 1024 * 1024

/-- The array `len_buf` of `send_pb_impl`: `body_len = (uint32_t)len`, least significant
octet first. -/
def len_buf (len : Nat) : List Byte :=
  let body_len := len % 2 ^ 32
  [body_len &&& 0xFF, (body_len >>> 8) &&& 0xFF, (body_len >>> 16) &&& 0xFF,
   (body_len >>> 24) &&& 0xFF]

/-- The `body_len` computed by `receive_once` from the four octets of the prefix
(each octet is a `uint8_t`, the result a `uint32_t`). -/
def decode_len (b0 b1 b2 b3 : Byte) : Nat :=
  ((b0 % 256) ||| ((b1 % 256) <<< 8) ||| ((b2 % 256) <<< 16) ||| ((b3 % 256) <<< 24)) % 2 ^ 32

/-- The bytes of one frame: length prefix followed by the body. -/
def frame (body : List Byte) : List Byte := len_buf body.length ++ body

/-! ## Environment -/

/-- Outcome of one `send(2)` call. -/
inductive SendRes where
  /-- The call returned `min k remaining`; `k = 0` is a call that returned `0`. -/
  | ok (k : Nat)
  /-- The call returned `-1` with `errno` one of `EPIPE`, `ECONNRESET`, `ENOTCONN`. -/
  | connErr
  /-- The call returned `-1` with any other `errno`. -/
  | otherErr
  deriving DecidableEq, Repr

/-- Outcome of one `connect_with_timeout` attempt. -/
inductive ConnRes where
  /-- Host or port invalid: `-1` is returned before `socket()` is called. -/
  | badConfig
  /-- `socket`, `inet_pton`, `connect`, `select` or `SO_ERROR` failed: `sockfd` ends as `-1`. -/
  | fail
  /-- The connection is established.  `reg` scripts the `::send` calls that
  `reconnect_with_backoff` makes on the fresh socket when it writes a Registration. -/
  | ok (reg : List SendRes)
  deriving DecidableEq, Repr

/-- The fields of `SapientTcpClientImpl` the connection policies read and write. -/
structure Client where
  sockfd : Int
  running : Bool
  is_connected : Bool
  disconnect_time : Int
  disconnect_time_valid : Bool
  registration_sent_time : Int
  registration_ack_received : Bool
  waiting_for_registration_ack : Bool
  deriving DecidableEq, Repr

/-- Everything outside the client object. -/
structure World where
  /-- Number of `steady_clock::now()` calls made so far. -/
  ticks : Nat
  /-- Reading, in nanoseconds, returned by the call number `i`. -/
  clock : Nat → Int
  /-- Outcomes of the coming connection attempts; when none is left the
  receive thread is being stopped (`running` becomes false). -/
  connects : List ConnRes
  /-- Number of `is_socket_alive` probes made so far, and their results. -/
  peeks : Nat
  alive : Nat → Bool
  /-- Number of builder calls made so far. -/
  builds : Nat
  /-- Result of `sapient_build_registration` at builder call `i` (`none`: it returned `-1`). -/
  registration : Nat → Option (List Byte)
  /-- Result of `sapient_build_status_report` at builder call `i` (`none`: it returned `-1`). -/
  status : Nat → Option (List Byte)
  /-- Bytes accepted by each TCP connection, the current connection first. -/
  wire : List (List Byte)

/-- What a sending operation leaves behind. -/
structure Outcome where
  ret : Int
  c : Client
  w : World
  /-- The part of the send script not yet consumed. -/
  sends : List SendRes

/-- Reading of `std::chrono::steady_clock::now()`. -/
def now (w : World) : Int × World :=
  (w.clock w.ticks, { w with ticks := w.ticks + 1 })

/-- The kernel accepts `bs` on the current connection. -/
def World.write (w : World) (bs : List Byte) : World :=
  match w.wire with
  | [] => { w with wire := [bs] }
  | h :: t => { w with wire := (h ++ bs) :: t }

/-- Bytes accepted so far by the current connection. -/
def World.written (w : World) : List Byte := w.wire.headD []

/-- Call of `sapient_build_registration`. -/
def build_registration (w : World) : Option (List Byte) × World :=
  (w.registration w.builds, { w with builds := w.builds + 1 })

/-- Call of `sapient_build_status_report`. -/
def build_status_report (w : World) : Option (List Byte) × World :=
  (w.status w.builds, { w with builds := w.builds + 1 })

/-- `duration_cast<seconds>(now - since).count()`: truncating division of the nanosecond count. -/
def elapsed_seconds (t since : Int) : Int := (t - since).tdiv 1000000000

/-- Conversion `(int)` of a 64-bit count to a 32-bit `int`. -/
def toInt32 (x : Int) : Int := (x + 2 ^ 31) % 2 ^ 32 - 2 ^ 31

/-! ## Connection management -/

/-- The statement `if (!disconnect_time_valid_) { disconnect_time_ = now(); disconnect_time_valid_ = true; }`,
which `close_socket`, the send-failure path of `send_all_impl` and the receive thread each contain. -/
def record_disconnect_time (c : Client) (w : World) : Client × World :=
  if !c.disconnect_time_valid then
    ({ c with disconnect_time := (now w).1, disconnect_time_valid := true }, (now w).2)
  else (c, w)

/-- `SapientTcpClientImpl::close_socket`. -/
def close_socket (c : Client) (w : World) : Client × World :=
  let c1 := if c.sockfd ≥ 0 then { c with sockfd := -1 } else c
  record_disconnect_time { c1 with is_connected := false } w

/-- `SapientTcpClientImpl::connect_with_timeout`; the new descriptor is numbered by the
connections opened so far. -/
def connect_with_timeout (c : Client) (w : World) (r : ConnRes) : Int × Client × World :=
  match r with
  | .badConfig => (-1, c, w)
  | .fail => (-1, { c with sockfd := -1 }, w)
  | .ok _ => (0, { c with sockfd := Int.ofNat w.wire.length, is_connected := true },
              { w with wire := [] :: w.wire })

/-- The two inline `while (sent < ...)` loops of `reconnect_with_backoff`: sends `data`
until it is all accepted (`true`) or a `::send` returns `n <= 0` (`false`, `break`). -/
def raw_send : World → List Byte → List SendRes → Bool × World × List SendRes
  | w, [], s => (true, w, s)
  | w, _ :: _, [] => (false, w, [])
  | w, d :: ds, ev :: rest =>
    match ev with
    | .ok k =>
      let n := min k (d :: ds).length
      if n = 0 then (false, w, rest)
      else raw_send (w.write ((d :: ds).take n)) ((d :: ds).drop n) rest
    | _ => (false, w, rest)

/-- The decision `need_send_registration` of `reconnect_with_backoff`. -/
def need_send_registration (force : Bool) (c : Client) (w : World) : Bool × World :=
  if !force && c.disconnect_time_valid then
    (decide (elapsed_seconds (now w).1 c.disconnect_time ≥ 120), (now w).2)
  else if !c.disconnect_time_valid then (true, w)
  else (force, w)

/-- The Registration write of `reconnect_with_backoff` (prefix loop, then body loop). -/
def write_registration (w : World) (reg : List SendRes) : World :=
  match (build_registration w).1 with
  | none => (build_registration w).2
  | some body =>
    let p := raw_send (build_registration w).2 (len_buf body.length) reg
    if p.1 then (raw_send p.2.1 body p.2.2).2.1 else p.2.1

/-- The script of the Registration write attached to a connection attempt. -/
def ConnRes.regScript : ConnRes → List SendRes
  | .ok reg => reg
  | _ => []

/-- The `while (running)` loop of `reconnect_with_backoff`. -/
def reconnect_loop (force : Bool) : Client → World → List ConnRes → Int × Client × World
  | c, w, [] =>
    if c.running then (-1, { c with running := false }, { w with connects := [] })
    else (-1, c, { w with connects := [] })
  | c, w, r :: rest =>
    if c.running then
      let a := connect_with_timeout c { w with connects := rest } r
      if a.1 = 0 then
        let c2 := { a.2.1 with is_connected := true }
        let need := need_send_registration force c2 a.2.2
        (0, c2, if need.1 then write_registration need.2 r.regScript else need.2)
      else reconnect_loop force a.2.1 a.2.2 rest
    else (-1, c, { w with connects := r :: rest })

/-- `SapientTcpClientImpl::reconnect_with_backoff`. -/
def reconnect_with_backoff (force_send_registration : Bool) (c : Client) (w : World) :
    Int × Client × World :=
  reconnect_loop force_send_registration (close_socket c w).1 (close_socket c w).2
    (close_socket c w).2.connects

/-- `SapientTcpClientImpl::is_socket_alive`. -/
def is_socket_alive (c : Client) (w : World) : Bool × World :=
  if c.sockfd < 0 then (false, w)
  else (w.alive w.peeks, { w with peeks := w.peeks + 1 })

/-! ## Sending -/

/-- The `while (remaining > 0)` loop of `send_all_impl`.  A `send` on a closed
descriptor fails with `EBADF`; an exhausted script is a failure that is not a
connection error. -/
def send_loop : Client → World → List Byte → List SendRes → Outcome
  | c, w, [], s => ⟨0, c, w, s⟩
  | c, w, _ :: _, [] => ⟨-1, c, w, []⟩
  | c, w, d :: ds, ev :: rest =>
    match (if c.sockfd < 0 then SendRes.otherErr else ev) with
    | .ok k =>
      let n := min k (d :: ds).length
      if n = 0 then ⟨-1, c, w, rest⟩
      else send_loop c (w.write ((d :: ds).take n)) ((d :: ds).drop n) rest
    | .connErr =>
      let m := record_disconnect_time { c with is_connected := false } w
      let rc := reconnect_with_backoff false m.1 m.2
      if rc.1 = 0 then send_loop rc.2.1 rc.2.2 (d :: ds) rest
      else ⟨-1, rc.2.1, rc.2.2, rest⟩
    | .otherErr => ⟨-1, c, w, rest⟩

/-- `SapientTcpClientImpl::send_all_impl` (the `already_locked` flag only selects whether
`reconnect_mutex` is taken). -/
def send_all_impl (c : Client) (w : World) (data : List Byte) (sends : List SendRes) :
    Outcome :=
  if c.sockfd < 0 || !c.is_connected then
    let probe := if c.sockfd ≥ 0 then is_socket_alive c w else (false, w)
    if probe.1 then send_loop { c with is_connected := true } probe.2 data sends
    else
      let rc := reconnect_with_backoff false c probe.2
      if rc.1 ≠ 0 then ⟨-1, rc.2.1, rc.2.2, sends⟩
      else send_loop rc.2.1 rc.2.2 data sends
  else send_loop c w data sends

/-- `SapientTcpClientImpl::send_pb_impl`. -/
def send_pb_impl (c : Client) (w : World) (data : List Byte) (sends : List SendRes) :
    Outcome :=
  let o := send_all_impl c w (len_buf data.length) sends
  if o.ret ≠ 0 then { o with ret := -1 }
  else send_all_impl o.c o.w data o.sends

/-- `SapientTcpClientImpl::send_register`. -/
def send_register (c : Client) (w : World) (sends : List SendRes) : Outcome :=
  match (build_registration w).1 with
  | none => ⟨-1, c, (build_registration w).2, sends⟩
  | some body =>
    let t := now (build_registration w).2
    let c1 := { c with registration_sent_time := t.1, registration_ack_received := false,
                       waiting_for_registration_ack := true }
    send_pb_impl c1 t.2 body sends

/-- `SapientTcpClientImpl::send_status_report`. -/
def send_status_report (c : Client) (w : World) (sends : List SendRes) : Outcome :=
  match (build_status_report w).1 with
  | none => ⟨-1, c, (build_status_report w).2, sends⟩
  | some body => send_pb_impl c (build_status_report w).2 body sends

/-- `SapientTcpClientImpl::get_disconnect_elapsed_seconds`. -/
def get_disconnect_elapsed_seconds (c : Client) (w : World) : Int × World :=
  if !c.disconnect_time_valid then (-1, w)
  else (toInt32 (elapsed_seconds (now w).1 c.disconnect_time), (now w).2)

/-- `SapientTcpClientImpl::clear_disconnect_time`. -/
def clear_disconnect_time (c : Client) : Client := { c with disconnect_time_valid := false }

/-- `SapientTcpClientImpl::mark_registration_ack_received`. -/
def mark_registration_ack_received (c : Client) (w : World) : Client × World :=
  if c.waiting_for_registration_ack then
    ({ c with registration_ack_received := true, waiting_for_registration_ack := false },
      (now w).2)
  else (c, w)

/-! ## Receiving -/

/-- Outcome of one `select` + `recv` round of `recv_fully`. -/
inductive RecvEv where
  /-- `select` returned `0`. -/
  | timeout
  /-- `select` returned a negative value. -/
  | selErr
  /-- `select` reported the socket readable and `recv` returned
  `min k (min (need - got) available)`; a result of `0` is a closed or failed connection. -/
  | data (k : Nat)
  deriving DecidableEq, Repr

/-- The receiving end of the connection: the bytes not yet read and the script of the
coming `select`/`recv` rounds (an empty script: nothing arrives any more, `select` times out). -/
structure Sock where
  inbuf : List Byte
  evs : List RecvEv
  deriving DecidableEq, Repr

/-- The lambda `recv_fully` of `receive_once`, started with `got` bytes already read:
result code, bytes read, socket left. -/
def recv_fully (need : Nat) : List RecvEv → List Byte → List Byte → Int × List Byte × Sock
  | [], got, inbuf =>
    if got.length < need then (0, got, ⟨inbuf, []⟩)
    else (Int.ofNat got.length, got, ⟨inbuf, []⟩)
  | ev :: rest, got, inbuf =>
    if got.length < need then
      match ev with
      | .timeout => (0, got, ⟨inbuf, rest⟩)
      | .selErr => (-1, got, ⟨inbuf, rest⟩)
      | .data k =>
        let n := min k (min (need - got.length) inbuf.length)
        if n = 0 then (-1, got, ⟨inbuf, rest⟩)
        else recv_fully need rest (got ++ inbuf.take n) (inbuf.drop n)
    else (Int.ofNat got.length, got, ⟨inbuf, ev :: rest⟩)

/-- What one `receive_once` call did. -/
structure Received where
  ret : Int
  /-- The body handed to `on_msg`, when it was called. -/
  delivered : Option (List Byte)
  /-- The bytes copied to the caller's buffer. -/
  copied : List Byte
  sock : Sock
  deriving DecidableEq, Repr

/-- `SapientTcpClientImpl::receive_once`; `on_msg` tells whether a callback is set,
`buf` whether the caller passed a buffer, `buf_len` its size. -/
def receive_once (c : Client) (on_msg : Bool) (buf : Bool) (buf_len : Nat) (s : Sock) :
    Received :=
  if c.sockfd < 0 then ⟨-1, none, [], s⟩
  else
    match recv_fully 4 s.evs [] s.inbuf with
    | (hn, hdr, s1) =>
      if hn ≤ 0 then ⟨hn, none, [], s1⟩
      else
        let body_len := decode_len (hdr.getD 0 0) (hdr.getD 1 0) (hdr.getD 2 0) (hdr.getD 3 0)
        if body_len = 0 ∨ body_len > MAX_FRAME then ⟨-1, none, [], s1⟩
        else
          match recv_fully body_len s1.evs [] s1.inbuf with
          | (bn, body, s2) =>
            if bn ≤ 0 then ⟨bn, none, [], s2⟩
            else
              let copy_len := min buf_len body_len
              ⟨Int.ofNat copy_len, if on_msg then some body else none,
                if buf ∧ copy_len > 0 then body.take copy_len else [], s2⟩

/-! ## Receive worker -/

/-- `SapientTcpClientImpl::start_receive_thread`, up to the creation of the thread. -/
def start_receive_thread (c : Client) : Int × Client :=
  if c.running then (0, c)
  else if c.sockfd < 0 then (-1, c)
  else (0, { c with running := true })

/-- `SapientTcpClientImpl::stop_receive_thread`. -/
def stop_receive_thread (c : Client) : Client :=
  if !c.running then c else { c with running := false }

/-- The registration-ack check at the head of each iteration of the receive thread
(`start_receive_thread`): whether the iteration ends here (`continue`), the new
`consecutive_errors`, client and world. -/
def check_registration_ack_timeout (consecutive_errors : Nat) (c : Client) (w : World) :
    Bool × Nat × Client × World :=
  if c.waiting_for_registration_ack then
    if elapsed_seconds (now w).1 c.registration_sent_time ≥ 30 then
      let c1 := { c with waiting_for_registration_ack := false, is_connected := false }
      let rc := reconnect_with_backoff true c1 (now w).2
      (true, if rc.1 = 0 then 0 else consecutive_errors, rc.2.1, rc.2.2)
    else (false, consecutive_errors, c, (now w).2)
  else (false, consecutive_errors, c, w)

/-- The part of the receive thread that follows `receive_once` returning `ret`:
new `consecutive_errors`, client and world. -/
def on_receive_result (ret : Int) (consecutive_errors : Nat) (c : Client) (w : World) :
    Nat × Client × World :=
  if ret < 0 then
    let ce := consecutive_errors + 1
    if ce ≥ 3 then
      let m := record_disconnect_time { c with is_connected := false } w
      let rc := reconnect_with_backoff false m.1 m.2
      (if rc.1 = 0 then 0 else ce, rc.2.1, rc.2.2)
    else (ce, c, w)
  else (0, c, w)

/-! ## Status worker (`sapient_init.c`) -/

/-- `STATUS_REPORT_DISCONNECT_THRESHOLD`. -/
def STATUS_REPORT_DISCONNECT_THRESHOLD : Int := 120

/-- What one wake of the status worker did. -/
structure Wake where
  /-- The value `disconnect_elapsed` read at the start of the wake. -/
  elapsed : Int
  /-- The value returned by `sapient_tcp_client_send_status_report`, when it was called. -/
  send_ret : Option Int
  c : Client
  w : World
  sends : List SendRes

/-- The body of the `while` loop of `sapient_status_report_thread`, with a client present. -/
def status_report_wake (c : Client) (w : World) (sends : List SendRes) : Wake :=
  let disconnect_elapsed := (get_disconnect_elapsed_seconds c w).1
  let w1 := (get_disconnect_elapsed_seconds c w).2
  if disconnect_elapsed ≥ 0 ∧ disconnect_elapsed < STATUS_REPORT_DISCONNECT_THRESHOLD then
    ⟨disconnect_elapsed, none, c, w1, sends⟩
  else
    let o := send_status_report c w1 sends
    let c2 := if disconnect_elapsed ≥ STATUS_REPORT_DISCONNECT_THRESHOLD then
        clear_disconnect_time o.c
      else o.c
    ⟨disconnect_elapsed, some o.ret, c2, o.w, o.sends⟩

/-! ## Well-behaved scripts -/

/-- A `send` call that accepts at least one byte. -/
def SendRes.accepts : SendRes → Bool
  | .ok k => decide (0 < k)
  | _ => false

/-- A `select`/`recv` round that delivers at least one byte when one is available. -/
def RecvEv.delivers : RecvEv → Bool
  | .data k => decide (0 < k)
  | _ => false

/-- The connection attempt succeeded. -/
def ConnRes.isOk : ConnRes → Bool
  | .ok _ => true
  | _ => false

/-! ## Client operations as data -/

/-- The operations of the client other than `clear_disconnect_time`, with the
scripts they consume. -/
inductive ClientOp where
  | close
  | connect (r : ConnRes)
  | reconnect (force : Bool)
  | sendAll (data : List Byte) (sends : List SendRes)
  | sendPb (data : List Byte) (sends : List SendRes)
  | sendRegister (sends : List SendRes)
  | sendStatusReport (sends : List SendRes)
  | getDisconnectElapsed
  | markAck
  | ackCheck (consecutive_errors : Nat)
  | receiveResult (ret : Int) (consecutive_errors : Nat)
  | startReceive
  | stopReceive

/-- Effect of one operation on the client and the world. -/
def ClientOp.run : ClientOp → Client → World → Client × World
  | .close, c, w => Sapient.close_socket c w
  | .connect r, c, w => (Sapient.connect_with_timeout c w r).2
  | .reconnect force, c, w => (Sapient.reconnect_with_backoff force c w).2
  | .sendAll data sends, c, w =>
    ((Sapient.send_all_impl c w data sends).c, (Sapient.send_all_impl c w data sends).w)
  | .sendPb data sends, c, w =>
    ((Sapient.send_pb_impl c w data sends).c, (Sapient.send_pb_impl c w data sends).w)
  | .sendRegister sends, c, w =>
    ((Sapient.send_register c w sends).c, (Sapient.send_register c w sends).w)
  | .sendStatusReport sends, c, w =>
    ((Sapient.send_status_report c w sends).c, (Sapient.send_status_report c w sends).w)
  | .getDisconnectElapsed, c, w => (c, (Sapient.get_disconnect_elapsed_seconds c w).2)
  | .markAck, c, w => Sapient.mark_registration_ack_received c w
  | .ackCheck ce, c, w => (Sapient.check_registration_ack_timeout ce c w).2.2
  | .receiveResult ret ce, c, w => (Sapient.on_receive_result ret ce c w).2
  | .startReceive, c, w => ((Sapient.start_receive_thread c).2, w)
  | .stopReceive, c, w => (Sapient.stop_receive_thread c, w)

/-- Effect of a sequence of operations. -/
def ClientOp.runAll : List ClientOp → Client → World → Client × World
  | [], c, w => (c, w)
  | op :: ops, c, w => ClientOp.runAll ops (op.run c w).1 (op.run c w).2

/-- The operation is a `send_register` call. -/
def ClientOp.isSendRegister : ClientOp → Bool
  | .sendRegister _ => true
  | _ => false

/-- Relation between the client before (`c`) and after (`c1`) a transport operation:
a recorded disconnect instant stays recorded and unchanged, and the registration
watchdog fields are untouched. -/
def Client.kept (c c1 : Client) : Prop :=
  (c.disconnect_time_valid = true →
    c1.disconnect_time_valid = true ∧ c1.disconnect_time = c.disconnect_time) ∧
  c1.registration_sent_time = c.registration_sent_time ∧
  c1.registration_ack_received = c.registration_ack_received ∧
  c1.waiting_for_registration_ack = c.waiting_for_registration_ack

/-! ## Initial states used in the examples -/

/-- A client as the constructor leaves it. -/
def Client.init : Client :=
  { sockfd := -1, running := false, is_connected := false, disconnect_time := 0,
    disconnect_time_valid := false, registration_sent_time := 0,
    registration_ack_received := false, waiting_for_registration_ack := false }

/-- A client with an established connection and a running receive thread. -/
def Client.online : Client :=
  { Client.init with sockfd := 0, running := true, is_connected := true }

/-- A world whose clock advances `step` nanoseconds per reading, with one open
connection, a Registration of body `reg` and a StatusReport of body `st`. -/
def World.sample (step : Int) (connects : List ConnRes) (reg st : Option (List Byte)) : World :=
  { ticks := 0, clock := fun i => step * i, connects := connects, peeks := 0,
    alive := fun _ => false, builds := 0, registration := fun _ => reg, status := fun _ => st,
    wire := [[]] }

/-! ## Status change detection (`sky_status_reportpb.cpp`)

Floating-point fields are embedded as exact rationals. -/

/-- The struct `StatusSnapshot`. -/
structure StatusSnapshot where
  sysStatus : Nat
  faultCount : Nat
  maxFaultLevel : Nat
  longitude : ℚ
  latitude : ℚ
  altitude : ℚ
  heading : ℚ
  pitching : ℚ
  rolling : ℚ
  trackEnabled : Bool
  otmMode : Bool
  filterLevel : Nat
  weatherClutterFilter : Bool
  temperature : ℚ
  deriving DecidableEq

/-- The constant `POSITION_EPSILON`. -/
def POSITION_EPSILON : ℚ := 1 / 100000

/-- The constant `ANGLE_EPSILON`. -/
def ANGLE_EPSILON : ℚ := 1 / 10

/-- The constant `TEMP_EPSILON`. -/
def TEMP_EPSILON : ℚ := 5

/-- The operator `StatusSnapshot::operator==`. -/
def StatusSnapshot.eq (a other : StatusSnapshot) : Bool :=
  decide (a.sysStatus = other.sysStatus) &&
  decide (a.faultCount = other.faultCount) &&
  decide (a.maxFaultLevel = other.maxFaultLevel) &&
  decide (|a.longitude - other.longitude| < POSITION_EPSILON) &&
  decide (|a.latitude - other.latitude| < POSITION_EPSILON) &&
  decide (|a.altitude - other.altitude| < POSITION_EPSILON) &&
  decide (|a.heading - other.heading| < ANGLE_EPSILON) &&
  decide (|a.pitching - other.pitching| < ANGLE_EPSILON) &&
  decide (|a.rolling - other.rolling| < ANGLE_EPSILON) &&
  decide (a.trackEnabled = other.trackEnabled) &&
  decide (a.otmMode = other.otmMode) &&
  decide (a.filterLevel = other.filterLevel) &&
  decide (a.weatherClutterFilter = other.weatherClutterFilter) &&
  decide (|a.temperature - other.temperature| < TEMP_EPSILON)

/-- The initial value of the static `last_snapshot`. -/
def last_snapshot_init : StatusSnapshot :=
  { sysStatus := 0xFFFFFFFF, faultCount := 0xFFFFFFFF, maxFaultLevel := 0xFF,
    longitude := 999, latitude := 999, altitude := 999,
    heading := 999, pitching := 999, rolling := 999,
    trackEnabled := false, otmMode := false,
    filterLevel := 0xFFFFFFFF, weatherClutterFilter := false,
    temperature := -999 }

/-- The field `info` of a StatusReport. -/
inductive Info where
  | INFO_NEW
  | INFO_UNCHANGED
  deriving DecidableEq, Repr

/-- The `info` decision of `sapient_build_status_report`: the value set in the report
and the new `last_snapshot`. -/
def status_info (last_snapshot current : StatusSnapshot) : Info × StatusSnapshot :=
  if current.eq last_snapshot then (Info.INFO_UNCHANGED, last_snapshot)
  else (Info.INFO_NEW, current)

/-- The snapshots differ in some field: any difference in a discrete field, a difference
of at least the epsilon in a measured field. -/
def StatusSnapshot.differs (a b : StatusSnapshot) : Prop :=
  a.sysStatus ≠ b.sysStatus ∨ a.faultCount ≠ b.faultCount ∨
  a.maxFaultLevel ≠ b.maxFaultLevel ∨
  POSITION_EPSILON ≤ |a.longitude - b.longitude| ∨
  POSITION_EPSILON ≤ |a.latitude - b.latitude| ∨
  POSITION_EPSILON ≤ |a.altitude - b.altitude| ∨
  ANGLE_EPSILON ≤ |a.heading - b.heading| ∨
  ANGLE_EPSILON ≤ |a.pitching - b.pitching| ∨
  ANGLE_EPSILON ≤ |a.rolling - b.rolling| ∨
  a.trackEnabled ≠ b.trackEnabled ∨ a.otmMode ≠ b.otmMode ∨
  a.filterLevel ≠ b.filterLevel ∨
  a.weatherClutterFilter ≠ b.weatherClutterFilter ∨
  TEMP_EPSILON ≤ |a.temperature - b.temperature|

/-! ## Object ids of detection reports (`sky_detection_reportpb.cpp`) -/

/-- The static `track_id_to_objectid` and the number of `generate_ulid` calls made so far. -/
structure ObjectIds where
  track_id_to_objectid : List (Nat × String)
  ulids : Nat
  deriving DecidableEq, Repr

/-- The identifiers a detection report carries. -/
structure DetectionIds where
  track_id : Nat
  report_id : String
  object_id : String
  deriving DecidableEq, Repr

/-- The call `track_id_to_objectid.find(id)`. -/
def map_find (m : List (Nat × String)) (id : Nat) : Option String :=
  match m with
  | [] => none
  | (k, v) :: rest => if k = id then some v else map_find rest id

/-- The assignment `track_id_to_objectid[id] = v`. -/
def map_assign (m : List (Nat × String)) (id : Nat) (v : String) : List (Nat × String) :=
  match m with
  | [] => [(id, v)]
  | (k, old) :: rest => if k = id then (k, v) :: rest else (k, old) :: map_assign rest id v

/-- The `report_id` and `object_id` part of `sapient_build_detection_report_from_track_item`;
`ulid i` is what the call number `i` of `generate_ulid` writes. -/
def detection_ids (ulid : Nat → String) (st : ObjectIds) (id : Nat) :
    DetectionIds × ObjectIds :=
  match map_find st.track_id_to_objectid id with
  | some object_id => (⟨id, ulid st.ulids, object_id⟩, { st with ulids := st.ulids + 1 })
  | none =>
    (⟨id, ulid st.ulids, ulid (st.ulids + 1)⟩,
      { track_id_to_objectid := map_assign st.track_id_to_objectid id (ulid (st.ulids + 1)),
        ulids := st.ulids + 2 })

/-- A sequence of builds, one for each track id of the list. -/
def detection_ids_all (ulid : Nat → String) : ObjectIds → List Nat → List DetectionIds × ObjectIds
  | st, [] => ([], st)
  | st, id :: ids =>
    ((detection_ids ulid st id).1 :: (detection_ids_all ulid (detection_ids ulid st id).2 ids).1,
      (detection_ids_all ulid (detection_ids ulid st id).2 ids).2)

/-! ## Node id (`sapient_nodeid.cpp`) -/

/-- One hexadecimal digit as `std::hex` prints it. -/
def hex_digit (n : Nat) : Char :=
  if n % 16 < 10 then Char.ofNat (48 + n % 16) else Char.ofNat (87 + n % 16)

/-- The output of `std::setw(2)` with fill `0` for one `uint8_t`. -/
def hex2 (b : Nat) : List Char := [hex_digit (b % 256 / 16), hex_digit (b % 256 % 16)]

/-- The function `uuid_bytes_to_string`: the loop over `i = 0 .. 15`. -/
def uuid_bytes_to_string (uuid_bytes : List Nat) : List Char :=
  (List.range 16).flatMap fun i =>
    (if i = 4 ∨ i = 6 ∨ i = 8 ∨ i = 10 then ['-'] else []) ++ hex2 (uuid_bytes.getD i 0)

/-- The function `generateUUIDv4`; `rnd i` is the value number `i` drawn from `dis(gen)`. -/
def generateUUIDv4 (rnd : Nat → Nat) : List Char :=
  let uuid_bytes := (List.range 16).map fun i => rnd i % 256
  let b6 := uuid_bytes.set 6 (((uuid_bytes.getD 6 0) &&& 0x0F) ||| 0x40)
  let b8 := b6.set 8 (((b6.getD 8 0) &&& 0x3F) ||| 0x80)
  uuid_bytes_to_string b8

/-- Outcome of `writeNodeIDToFile`. -/
inductive WriteRes where
  /-- The directory cannot be ensured or the file cannot be opened: nothing is written. -/
  | notOpened
  /-- The file was truncated but the stream is not `good()` after the write. -/
  | writeFailed
  /-- The string and a newline were written. -/
  | written
  deriving DecidableEq, Repr

/-- The function `writeNodeIDToFile` on the content of the node-id file (`none`: no file). -/
def writeNodeIDToFile (file : Option (List Char)) (node_id : List Char) (r : WriteRes) :
    Bool × Option (List Char) :=
  match r with
  | .notOpened => (false, file)
  | .writeFailed => (false, some [])
  | .written => (true, some (node_id ++ ['\n']))

/-- The function `readNodeIDFromFile`: the first line, when it has the shape of a UUID. -/
def readNodeIDFromFile (file : Option (List Char)) : List Char :=
  match file with
  | none => []
  | some content =>
    let node_id := content.takeWhile (· ≠ '\n')
    if node_id.length = 36 ∧ node_id.getD 8 ' ' = '-' ∧ node_id.getD 13 ' ' = '-' ∧
        node_id.getD 18 ' ' = '-' ∧ node_id.getD 23 ' ' = '-' then node_id
    else []

/-- The process-wide cache of `generateNodeID` and the node-id file. -/
structure NodeIdState where
  cached_node_id : List Char
  cache_initialized : Bool
  file : Option (List Char)
  deriving DecidableEq, Repr

/-- The function `generateNodeID`. -/
def generateNodeID (rnd : Nat → Nat) (r : WriteRes) (st : NodeIdState) :
    List Char × NodeIdState :=
  if st.cache_initialized ∧ st.cached_node_id ≠ [] then (st.cached_node_id, st)
  else if readNodeIDFromFile st.file ≠ [] then
    (readNodeIDFromFile st.file,
      { st with cached_node_id := readNodeIDFromFile st.file, cache_initialized := true })
  else
    (generateUUIDv4 rnd,
      { cached_node_id := generateUUIDv4 rnd, cache_initialized := true,
        file := (writeNodeIDToFile st.file (generateUUIDv4 rnd) r).2 })

/-! ## Detection report fields (`sapient_build_detection_report_from_track_item`)

The values of `float` and `double` variables are rationals.  Comparisons, negation and the
selection of a value are exact; the additions of the azimuth normalization are rounded to
`double`; the library function `sqrt` is a parameter. -/

/-- The message `ENUVelocity` as the builder fills it. -/
structure ENUVelocity where
  east_rate : ℚ
  north_rate : ℚ
  up_rate : ℚ
  east_rate_error : ℚ
  north_rate_error : ℚ
  up_rate_error : ℚ
  deriving DecidableEq

/-- The constant `MIN_VELOCITY`. -/
def MIN_VELOCITY : ℚ := -100

/-- The constant `MAX_VELOCITY`. -/
def MAX_VELOCITY : ℚ := 100

/-- The constant `MIN_SPEED`. -/
def MIN_SPEED : ℚ := 1 / 1000

/-- The range check `if (x < MIN_VELOCITY) x = MIN_VELOCITY; else if (x > MAX_VELOCITY) x = MAX_VELOCITY;`. -/
def limit_velocity (x : ℚ) : ℚ :=
  if x < MIN_VELOCITY then MIN_VELOCITY else if x > MAX_VELOCITY then MAX_VELOCITY else x

/-- The statement `if (fabs(x) < 0.0001) x = MIN_SPEED;`. -/
def avoid_zero (x : ℚ) : ℚ := if |x| < 1 / 10000 then MIN_SPEED else x

/-- The ENU velocity block of the builder: `none` when the field is not set. -/
def enu_velocity (sqrt : ℚ → ℚ) (vx vy vz vx_variance : ℚ) : Option ENUVelocity :=
  if vx ≠ 0 ∨ vy ≠ 0 ∨ vz ≠ 0 then
    let east_rate := avoid_zero (limit_velocity (-vy))
    let north_rate := avoid_zero (limit_velocity vx)
    let up_rate := limit_velocity vz
    let v_error := if sqrt vx_variance < 1 / 2 then 1 / 2 else sqrt vx_variance
    some ⟨east_rate, north_rate, up_rate, v_error, v_error, v_error⟩
  else none

/-- Rounding to the nearest integer, ties to the even one. -/
def round_ties_even (q : ℚ) : ℤ :=
  if q - ⌊q⌋ < 1 / 2 then ⌊q⌋
  else if 1 / 2 < q - ⌊q⌋ then ⌊q⌋ + 1
  else if ⌊q⌋ % 2 = 0 then ⌊q⌋ else ⌊q⌋ + 1

/-- Rounding of an exact result to `double` (IEEE 754 binary64, round to nearest, ties to
even): 53 significant bits, spacing never below `2^-1074`.  Overflow is not modelled. -/
def round_to_double (x : ℚ) : ℚ :=
  if x = 0 then 0
  else round_ties_even (x / 2 ^ (max (Int.log 2 |x|) (-1022) - 52))
    * 2 ^ (max (Int.log 2 |x|) (-1022) - 52)

/-- The operator `+` on `double`. -/
def double_add (a b : ℚ) : ℚ := round_to_double (a + b)

/-- The operator `-` on `double`. -/
def double_sub (a b : ℚ) : ℚ := round_to_double (a - b)

/-- The loop `while (a < 0.0) a += 360.0;` run for at most `fuel` iterations. -/
def raise_to_nonneg : Nat → ℚ → Option ℚ
  | 0, a => if a < 0 then none else some a
  | fuel + 1, a => if a < 0 then raise_to_nonneg fuel (double_add a 360) else some a

/-- The loop `while (a >= 360.0) a -= 360.0;` run for at most `fuel` iterations. -/
def lower_below_360 : Nat → ℚ → Option ℚ
  | 0, a => if a ≥ 360 then none else some a
  | fuel + 1, a => if a ≥ 360 then lower_below_360 fuel (double_sub a 360) else some a

/-- The azimuth of the RangeBearing block: `none` when a loop needs more than `fuel`
iterations, `some none` when the azimuth is not set, `some (some a)` when `a` is set. -/
def range_bearing_azimuth (fuel : Nat) (azimuth radar_heading : ℚ) : Option (Option ℚ) :=
  if azimuth ≥ -60 ∧ azimuth ≤ 60 then
    match raise_to_nonneg fuel (double_add azimuth radar_heading) with
    | none => none
    | some a =>
      match lower_below_360 fuel a with
      | none => none
      | some b => some (some b)
  else some none

/-- A sub-class entry of a classification. -/
structure SubClass where
  type : String
  level : Nat
  confidence : ℚ
  deriving DecidableEq

/-- A classification entry of a detection report. -/
structure Classification where
  type : String
  confidence : ℚ
  sub_class : List SubClass
  deriving DecidableEq

/-- The value `class_confidence`: `classifyProb / 100.0f` limited to `[0, 1]`. -/
def class_confidence (classifyProb : ℚ) : ℚ :=
  let c := classifyProb / 100
  let c1 := if c > 1 then 1 else c
  if c1 < 0 then 0 else c1

/-- The classification block of the builder (the `switch` on `track_item->classification`):
the entries added to the report. -/
def classification_entries (classification : Int) (classifyProb : ℚ) : List Classification :=
  let conf := class_confidence classifyProb
  if classification = 0 then [⟨"Unknown", conf, []⟩]
  else if classification = 1 then [⟨"Air vehicle", conf, [⟨"UAV rotary wing", 1, conf⟩]⟩]
  else if classification = 2 then [⟨"Human", conf, []⟩]
  else if classification = 3 then [⟨"Land vehicle", conf, []⟩]
  else if classification = 4 then [⟨"Animal", conf, [⟨"Bird", 1, conf⟩]⟩]
  else [⟨"Other", conf, []⟩]
/-! ## Task handler (`sky_task_handler.cpp`) -/

/-- The enum `TaskActionType`. -/
inductive TaskActionType where
  | TASK_ACTION_NONE
  | TASK_ACTION_SEND_REGISTRATION
  | TASK_ACTION_SEND_STATUS
  deriving DecidableEq, Repr

/-- The fields of a parsed `Task` the handler reads; `none` is an absent field, and
`command = some none` a command without a request. -/
structure Task where
  task_id : Option String
  control : Option Nat
  command : Option (Option String)
  region_size : Nat
  deriving DecidableEq, Repr

/-- The message `TaskAck` as `sapient_build_task_ack` fills it. -/
structure TaskAck where
  task_id : Option String
  accepted : Bool
  reason : List String
  deriving DecidableEq, Repr

/-- The function `std::tolower` in the "C" locale. -/
def tolower (c : Char) : Char :=
  if c.toNat ≥ 65 ∧ c.toNat ≤ 90 then Char.ofNat (c.toNat + 32) else c

/-- The call `std::equal(a.begin(), a.end(), b.begin(), ...)` of `iequals`, for strings
of equal size. -/
def equal_tolower : List Char → List Char → Bool
  | [], _ => true
  | _ :: _, [] => false
  | ca :: a, cb :: b => decide (tolower ca = tolower cb) && equal_tolower a b

/-- The function `iequals`. -/
def iequals (a b : String) : Bool :=
  decide (a.data.length = b.data.length) && equal_tolower a.data b.data

/-- The function `handle_task_internal`: accepted, reason, action. -/
def handle_task_internal (task : Task) : Bool × String × TaskActionType :=
  match task.command with
  | some (some request) =>
    if iequals request "Registration" || iequals request "Request Registration" then
      (true, "Task accepted, will send Registration report",
        TaskActionType.TASK_ACTION_SEND_REGISTRATION)
    else if iequals request "Status" || iequals request "Request Status" then
      (true, "Task accepted, will send Status report", TaskActionType.TASK_ACTION_SEND_STATUS)
    else
      (true, "Task accepted, unknown request type: " ++ request,
        TaskActionType.TASK_ACTION_NONE)
  | _ => (true, "Task accepted for processing", TaskActionType.TASK_ACTION_NONE)

/-- The function `sapient_set_current_task_id` on the static `s_current_task_id`. -/
def sapient_set_current_task_id (task_id : String) : String :=
  if task_id = "" ∨ task_id = "0" then "" else task_id

/-- The function `sapient_build_task_ack`; `built` tells whether the wrapper serializes
and converts to JSON.  Returns the result code and the TaskAck of the serialized wrapper. -/
def sapient_build_task_ack (task_id_in : String) (accepted : Bool) (reason_in : String)
    (built : Bool) : Int × Option TaskAck :=
  if built then
    (0, some ⟨if task_id_in ≠ "" then some task_id_in else none, accepted,
      if reason_in ≠ "" then [reason_in] else []⟩)
  else (-1, none)

/-- What `sapient_handle_task` returns and leaves behind. -/
structure Handled where
  ret : Int
  ack : Option TaskAck
  out_action : TaskActionType
  current_task_id : String
  deriving DecidableEq, Repr

/-- The function `sapient_handle_task`; `parsed` is the result of `ParseFromArray`
(`none`: the bytes do not parse), `current_task_id` the active task id before the call
and `out_action` the caller's variable. -/
def sapient_handle_task (parsed : Option Task) (built : Bool) (out_action : TaskActionType)
    (current_task_id : String) : Handled :=
  match parsed with
  | none => ⟨-1, none, out_action, current_task_id⟩
  | some task =>
    let r := handle_task_internal task
    let task_id := task.task_id.getD ""
    let cur := if r.1 ∧ task_id ≠ "" then sapient_set_current_task_id task_id
      else current_task_id
    let b := sapient_build_task_ack task_id r.1 r.2.1 built
    if b.1 ≠ 0 then ⟨-1, none, r.2.2, cur⟩ else ⟨0, b.2, r.2.2, cur⟩

/-! ## Message dispatch (`sapient_parse_and_handle_message`) -/

/-- The content variant of a parsed wrapper. -/
inductive Content where
  | task (t : Task)
  | statusReport
  | detectionReport
  | registrationAck
  | alert
  | other
  deriving DecidableEq, Repr

/-- A body handed to `send_pb`. -/
inductive Sent where
  | taskAck (a : TaskAck)
  /-- A StatusReport, with the `active_task_id` read when it was built (empty: not set). -/
  | statusReport (active_task_id : String)
  | registration
  deriving DecidableEq, Repr

/-- The state the dispatcher works on: the active task id, the bodies handed to
`send_pb` so far in order, and the number of `mark_registration_ack_received` calls. -/
structure Node where
  current_task_id : String
  sent : List Sent
  acks_marked : Nat
  deriving DecidableEq, Repr

/-- What the builders do during one dispatch. -/
structure Builders where
  /-- The call `task.SerializeToString` succeeds. -/
  task_serializes : Bool
  /-- The call `sapient_build_task_ack` succeeds. -/
  ack_builds : Bool
  /-- The call `sapient_build_status_report` succeeds. -/
  status_builds : Bool
  /-- The call `sapient_build_registration` succeeds. -/
  registration_builds : Bool
  deriving DecidableEq, Repr

/-- The calls `send_status_report` of the dispatcher: the report is built with the active
task id and handed to `send_pb`. -/
def dispatch_status_report (b : Builders) (n : Node) : Node :=
  if b.status_builds then { n with sent := n.sent ++ [Sent.statusReport n.current_task_id] }
  else n

/-- The call `sapient_tcp_client_send_register` of the dispatcher. -/
def dispatch_register (b : Builders) (n : Node) : Node :=
  if b.registration_builds then { n with sent := n.sent ++ [Sent.registration] } else n

/-- The function `sapient_parse_and_handle_message`; `msg` is the result of parsing the
wrapper (`none`: it does not parse), `client` tells whether a client is present.  The
Task that `sapient_handle_task` parses from the serialized Task is the Task itself. -/
def sapient_parse_and_handle_message (msg : Option Content) (client : Bool) (b : Builders)
    (n : Node) : Int × Node :=
  match msg with
  | none => (-1, n)
  | some (Content.task t) =>
    if !b.task_serializes then (-1, n)
    else
      let h := sapient_handle_task (some t) b.ack_builds TaskActionType.TASK_ACTION_NONE
        n.current_task_id
      let n1 := { n with current_task_id := h.current_task_id }
      if h.ret ≠ 0 then (-1, n1)
      else if client then
        let n2 := { n1 with sent := n1.sent ++ (h.ack.map Sent.taskAck).toList }
        match h.out_action with
        | .TASK_ACTION_SEND_REGISTRATION =>
          (0, { dispatch_register b n2 with current_task_id := "" })
        | .TASK_ACTION_SEND_STATUS =>
          (0, { dispatch_status_report b n2 with current_task_id := "" })
        | .TASK_ACTION_NONE => (0, n2)
      else (0, n1)
  | some Content.registrationAck =>
    if client then (0, dispatch_status_report b { n with acks_marked := n.acks_marked + 1 })
    else (0, n)
  | some _ => (0, n)

/-! ## Module life cycle (`sapient_init.c`, `sapient_service.cpp`) -/

/-- The enumerator `SAPIENT_OK`. -/
def SAPIENT_OK : Int := 0

/-- The enumerator `SAPIENT_ERR_NOT_CONFIGURED`. -/
def SAPIENT_ERR_NOT_CONFIGURED : Int := -1

/-- The enumerator `SAPIENT_ERR_CREATE_FAILED`. -/
def SAPIENT_ERR_CREATE_FAILED : Int := -2

/-- The enumerator `SAPIENT_ERR_CONNECT_FAILED`. -/
def SAPIENT_ERR_CONNECT_FAILED : Int := -3

/-- The enumerator `SAPIENT_ERR_THREAD_FAILED`. -/
def SAPIENT_ERR_THREAD_FAILED : Int := -4

/-- The struct `sapient_config_t`; `ip = none` is a null pointer. -/
structure SapientConfig where
  ip : Option String
  port : Int
  deriving DecidableEq, Repr

/-- The statics of `sapient_init.c`. -/
structure Module where
  g_sapient_client : Option Client
  g_reconnect_thread_running : Bool
  g_status_report_thread_running : Bool
  deriving DecidableEq, Repr

/-- What the surroundings do during one `sapient_init`. -/
structure InitEnv where
  /-- The result of `sapient_config_get()` (`none`: a null pointer). -/
  cfg : Option SapientConfig
  /-- Whether `inet_pton(AF_INET, ip, &addr)` returns 1. -/
  inet_pton : String → Bool
  /-- The outcome of the connection attempt number `retry`. -/
  connects : Nat → ConnRes
  /-- The outcomes of the `send` calls of the Registration. -/
  sends : List SendRes
  /-- Whether `pthread_create` of the status report thread succeeds. -/
  status_thread_created : Bool
  /-- Whether `pthread_create` of the reconnect thread succeeds. -/
  reconnect_thread_created : Bool

/-- The function `validate_ip`. -/
def validate_ip (inet_pton : String → Bool) (ip : Option String) : Bool :=
  match ip with
  | none => false
  | some s => if s.length = 0 then false else inet_pton s

/-- The function `validate_port`. -/
def validate_port (port : Int) : Bool := decide (port > 0 ∧ port ≤ 65535)

/-- The function `sapient_tcp_client_create`: `new` gives an object or throws. -/
def sapient_tcp_client_create : Option Client := some Client.init

/-- The function `start_status_report_thread`, up to the creation of the thread. -/
def start_status_report_thread (created : Bool) (m : Module) : Module :=
  if m.g_status_report_thread_running then m
  else { m with g_status_report_thread_running := created }

/-- The function `stop_status_report_thread`. -/
def stop_status_report_thread (m : Module) : Module :=
  if m.g_status_report_thread_running then { m with g_status_report_thread_running := false }
  else m

/-- What the connection attempts of `sapient_init` leave behind. -/
structure InitTry where
  initial_success : Bool
  c : Client
  w : World
  m : Module

/-- The loop `for (int retry = 0; retry < 3; retry++)` of `sapient_init`, with `left`
iterations to go. -/
def sapient_init_attempts (e : InitEnv) : Nat → Nat → Client → World → Module → InitTry
  | 0, _, c, w, m => ⟨false, c, w, m⟩
  | left + 1, retry, c, w, m =>
    if (connect_with_timeout c w (e.connects retry)).1 = 0 then
      let o := send_register (connect_with_timeout c w (e.connects retry)).2.1
        (connect_with_timeout c w (e.connects retry)).2.2 e.sends
      if (start_receive_thread o.c).1 ≠ 0 then ⟨false, (start_receive_thread o.c).2, o.w, m⟩
      else ⟨true, (start_receive_thread o.c).2, o.w,
        start_status_report_thread e.status_thread_created m⟩
    else
      sapient_init_attempts e left (retry + 1) (connect_with_timeout c w (e.connects retry)).2.1
        (connect_with_timeout c w (e.connects retry)).2.2 m

/-- The function `sapient_init`, up to the creation of the threads. -/
def sapient_init (e : InitEnv) (m : Module) (w : World) : Int × Module × World :=
  let sapient_ip := match e.cfg with
    | some cfg => if cfg.ip.isSome ∧ cfg.port > 0 then cfg.ip else none
    | none => none
  let sapient_port := match e.cfg with
    | some cfg => if cfg.ip.isSome ∧ cfg.port > 0 then cfg.port else 0
    | none => 0
  if sapient_ip = none ∨ sapient_port ≤ 0 then (SAPIENT_ERR_NOT_CONFIGURED, m, w)
  else if !validate_ip e.inet_pton sapient_ip then (SAPIENT_ERR_NOT_CONFIGURED, m, w)
  else if !validate_port sapient_port then (SAPIENT_ERR_NOT_CONFIGURED, m, w)
  else
    match sapient_tcp_client_create with
    | none => (SAPIENT_ERR_CREATE_FAILED, { m with g_sapient_client := none }, w)
    | some c =>
      let r := sapient_init_attempts e 3 0 c w m
      let m1 := { r.m with g_sapient_client := some r.c }
      (SAPIENT_OK,
        if !r.initial_success then
          { m1 with g_reconnect_thread_running := e.reconnect_thread_created }
        else m1,
        r.w)

/-- The function `sapient_tcp_client_destroy` on an existing client: the destructor stops
the receive thread and closes the socket. -/
def sapient_tcp_client_destroy (c : Client) (w : World) : Client × World :=
  close_socket (stop_receive_thread c) w

/-- The function `sapient_cleanup`. -/
def sapient_cleanup (m : Module) (w : World) : Module × World :=
  let m1 := stop_status_report_thread m
  let m2 := if m1.g_reconnect_thread_running then { m1 with g_reconnect_thread_running := false }
    else m1
  match m2.g_sapient_client with
  | some c =>
    ({ m2 with g_sapient_client := none },
      (sapient_tcp_client_destroy (stop_receive_thread c) w).2)
  | none => (m2, w)

/-- The process as `CSapientService` sees it: its member `m_impl` (`none`: no `Impl` yet,
`some b`: an `Impl` with `m_initialized = b`), the statics of `sapient_init.c`, the world,
and ghost counters of the calls made so far. -/
structure Process where
  m_impl : Option Bool
  module : Module
  world : World
  /-- Ghost: calls of `sapient_init`. -/
  init_calls : Nat
  /-- Ghost: calls of `sapient_init` that returned 0. -/
  init_ok : Nat
  /-- Ghost: calls of `sapient_cleanup`. -/
  cleanup_calls : Nat

/-- The method `CSapientService::Init`. -/
def CSapientService.Init (e : InitEnv) (p : Process) : Int × Process :=
  if p.m_impl = some true then (0, p)
  else
    let r := sapient_init e p.module p.world
    (r.1, { m_impl := some (decide (r.1 = 0)), module := r.2.1, world := r.2.2,
            init_calls := p.init_calls + 1,
            init_ok := if r.1 = 0 then p.init_ok + 1 else p.init_ok,
            cleanup_calls := p.cleanup_calls })

/-- The method `CSapientService::Cleanup`. -/
def CSapientService.Cleanup (p : Process) : Process :=
  if p.m_impl = some true then
    { m_impl := some false, module := (sapient_cleanup p.module p.world).1,
      world := (sapient_cleanup p.module p.world).2, init_calls := p.init_calls,
      init_ok := p.init_ok, cleanup_calls := p.cleanup_calls + 1 }
  else p

/-- The destructor of `CSapientService::Impl`, run when the static instance is destroyed. -/
def CSapientService.destroy (p : Process) : Process :=
  if p.m_impl = some true then
    { m_impl := none, module := (sapient_cleanup p.module p.world).1,
      world := (sapient_cleanup p.module p.world).2, init_calls := p.init_calls,
      init_ok := p.init_ok, cleanup_calls := p.cleanup_calls + 1 }
  else { p with m_impl := none }

/-- The calls a program makes on the service. -/
inductive ServiceOp where
  | init (e : InitEnv)
  | cleanup
  | destroy

/-- One call on the service. -/
def ServiceOp.run : ServiceOp → Process → Process
  | .init e, p => (CSapientService.Init e p).2
  | .cleanup, p => CSapientService.Cleanup p
  | .destroy, p => CSapientService.destroy p

/-- A sequence of calls on the service. -/
def ServiceOp.runAll : List ServiceOp → Process → Process
  | [], p => p
  | op :: ops, p => ServiceOp.runAll ops (op.run p)

/-- The process before the first call: no `Impl`, no client, no thread. -/
def Process.start (w : World) : Process :=
  { m_impl := none, module := ⟨none, false, false⟩, world := w, init_calls := 0, init_ok := 0,
    cleanup_calls := 0 }

/-- A configuration naming a DMM at 192.168.1.10:5000, a resolver accepting every
address, connection attempts given by `connects`, sends that accept everything. -/
def InitEnv.sample (connects : Nat → ConnRes) : InitEnv :=
  { cfg := some ⟨some "192.168.1.10", 5000⟩, inet_pton := fun _ => true, connects := connects,
    sends := List.replicate 8 (SendRes.ok 64), status_thread_created := true,
    reconnect_thread_created := true }

/-! ## ULID (`generate_ulid`, `sky_detection_reportpb.cpp`) -/

/-- The string `base32_chars`: the alphabet of Crockford's Base32. -/
def base32_chars : List Char := "0123456789ABCDEFGHJKMNPQRSTVWXYZ".toList

/-- The function `encode_base32_u64`: the characters `dest[0] .. dest[count - 1]` it writes
for the 64-bit `value`. -/
def encode_base32_u64 : Nat → Nat → List Char
  | _, 0 => []
  | value, count + 1 =>
    encode_base32_u64 (value / 32) count ++ [base32_chars.getD (value % 32) '0']

/-- The function `generate_ulid`: the 27 characters written to `ulid`.  `millis` is the
clock reading in milliseconds, `dist` the results of `dist(rng)` on this thread
(each in `0 .. 31`) and `drawn` the number of results used before the call. -/
def generate_ulid (millis : Nat) (dist : Nat → Fin 32) (drawn : Nat) : List Char :=
  encode_base32_u64 (millis % 2 ^ 64) 10
    ++ (List.range 16).map (fun i => base32_chars.getD (dist (drawn + i)).val '0')
    ++ [Char.ofNat 0]

/-- Value of a Crockford Base32 digit string, most significant digit first. -/
def decode_base32 (cs : List Char) : Nat :=
  cs.foldl (fun acc c => acc * 32 + base32_chars.indexOf c) 0

/-! ## StatusReport blocks (`sapient_build_status_report`)

The type `RadarState` is declared in `radar.pb.h`, which is not among the sources: the
structures below hold the fields the builder reads, with the types it uses them at. -/

/-- An element of `RadarState.fault`. -/
structure Fault where
  faultCode : Nat
  faultLevel : Nat
  deriving DecidableEq, Repr

/-- The member `RadarState.attitude`. -/
structure Attitude where
  has_heading : Bool
  heading : ℚ
  has_pitching : Bool
  pitching : ℚ

/-- The fields of `RadarState` read by the power, field-of-view and status blocks. -/
structure RadarState where
  has_status : Bool
  status : Nat
  has_electricity : Bool
  electricity : Nat
  faultCount : Nat
  fault : Nat → Fault
  has_attitude : Bool
  attitude : Attitude
  has_aziScanCenter : Bool
  aziScanCenter : ℚ
  has_aziScanScope : Bool
  aziScanScope : ℚ
  has_eleScanCenter : Bool
  eleScanCenter : ℚ
  has_eleScanScope : Bool
  eleScanScope : ℚ
  has_radarScanRadius : Bool
  radarScanRadius : ℚ

/-- The outputs of `parse_radar_status`. -/
structure RadarStatusBits where
  motion_state : Nat
  platform_type : Nat
  detection_mode : Nat
  power_type : Nat
  network_speed : Nat
  power_mode : Nat
  attitude_source : Nat
  deriving DecidableEq, Repr

/-- The function `parse_radar_status` on the 32-bit `status`. -/
def parse_radar_status (status : Nat) : RadarStatusBits :=
  { motion_state := ((status % 2 ^ 32) >>> 0) &&& 0x07,
    platform_type := ((status % 2 ^ 32) >>> 3) &&& 0x07,
    detection_mode := ((status % 2 ^ 32) >>> 6) &&& 0x07,
    power_type := ((status % 2 ^ 32) >>> 9) &&& 0x03,
    network_speed := ((status % 2 ^ 32) >>> 11) &&& 0x03,
    power_mode := ((status % 2 ^ 32) >>> 13) &&& 0x03,
    attitude_source := ((status % 2 ^ 32) >>> 15) &&& 0x03 }

/-- The enum `StatusReport_PowerSource`, as far as the builder uses it. -/
inductive PowerSource where
  | POWERSOURCE_UNSPECIFIED
  | POWERSOURCE_MAINS
  | POWERSOURCE_INTERNAL_BATTERY
  deriving DecidableEq, Repr

/-- The enum `StatusReport_PowerStatus`, as far as the builder uses it. -/
inductive PowerStatus where
  | POWERSTATUS_OK
  | POWERSTATUS_FAULT
  deriving DecidableEq, Repr

/-- The message `StatusReport.Power` as the builder fills it (`level = none`: not set). -/
structure Power where
  source : PowerSource
  status : PowerStatus
  level : Option Int
  deriving DecidableEq, Repr

/-- The first half of the power block of `sapient_build_status_report`: the source. -/
def power_source (rs : RadarState) : PowerSource :=
  if rs.has_status then
    if (parse_radar_status rs.status).power_type = 0x00 then PowerSource.POWERSOURCE_MAINS
    else if (parse_radar_status rs.status).power_type = 0x01 then
      PowerSource.POWERSOURCE_INTERNAL_BATTERY
    else PowerSource.POWERSOURCE_UNSPECIFIED
  else PowerSource.POWERSOURCE_MAINS

/-- The power block of `sapient_build_status_report`. -/
def power_block (rs : RadarState) : Power :=
  if rs.has_status ∧ (parse_radar_status rs.status).power_type = 0x01 ∧ rs.has_electricity then
    ⟨power_source rs,
      if rs.electricity > 20 then PowerStatus.POWERSTATUS_OK else PowerStatus.POWERSTATUS_FAULT,
      some (toInt32 rs.electricity)⟩
  else ⟨power_source rs, PowerStatus.POWERSTATUS_OK, none⟩

/-- The range-bearing cone of `field_of_view` as the builder fills it. -/
structure RangeBearingCone where
  azimuth : ℚ
  elevation : ℚ
  range : ℚ
  horizontal_extent : ℚ
  vertical_extent : ℚ

/-- The statement `if (a < 0.0) a += 360.0; else if (a >= 360.0) a -= 360.0;` of the
field-of-view block. -/
def fov_normalize (a : ℚ) : ℚ :=
  if a < 0 then double_add a 360 else if a ≥ 360 then double_sub a 360 else a

/-- The field-of-view block of `sapient_build_status_report`: `none` when the field is not
set. -/
def field_of_view (rs : RadarState) : Option RangeBearingCone :=
  if rs.has_aziScanCenter ∧ rs.has_aziScanScope ∧ rs.has_eleScanCenter ∧ rs.has_eleScanScope ∧
      rs.has_radarScanRadius then
    let platform_heading :=
      if rs.has_attitude ∧ rs.attitude.has_heading then rs.attitude.heading else 0
    let platform_pitching :=
      if rs.has_attitude ∧ rs.attitude.has_pitching then rs.attitude.pitching else 0
    some ⟨fov_normalize (double_add rs.aziScanCenter platform_heading),
      double_add rs.eleScanCenter platform_pitching, rs.radarScanRadius, rs.aziScanScope,
      rs.eleScanScope⟩
  else none

/-- The enum `StatusReport_StatusLevel`, as far as the builder uses it. -/
inductive StatusLevel where
  | STATUS_LEVEL_INFORMATION_STATUS
  | STATUS_LEVEL_WARNING_STATUS
  | STATUS_LEVEL_ERROR_STATUS
  deriving DecidableEq, Repr

/-- The enum `StatusReport_StatusType`, as far as the builder uses it. -/
inductive StatusType where
  | STATUS_TYPE_INTERNAL_FAULT
  | STATUS_TYPE_OTHER
  | STATUS_TYPE_CLUTTER
  | STATUS_TYPE_MOTION_SENSITIVITY
  | STATUS_TYPE_PLATFORM
  deriving DecidableEq, Repr

/-- The message `StatusReport.Status` as the lambda `add_status` fills it. -/
structure Status where
  status_level : StatusLevel
  status_type : StatusType
  status_value : String
  deriving DecidableEq, Repr

/-- The uppercase hexadecimal digits of `n`, at least `width` of them: the conversion
`%0<width>X` of `snprintf`. -/
def format_X (width n : Nat) : String :=
  String.mk (List.replicate (width - (Nat.toDigits 16 n).length) '0'
    ++ (Nat.toDigits 16 n).map Char.toUpper)

/-- The `switch` on `fault[i].faultLevel` of the fault loop. -/
def fault_level (faultLevel : Nat) : StatusLevel :=
  if faultLevel = 0x01 then StatusLevel.STATUS_LEVEL_WARNING_STATUS
  else if faultLevel = 0x02 then StatusLevel.STATUS_LEVEL_WARNING_STATUS
  else if faultLevel = 0x03 then StatusLevel.STATUS_LEVEL_ERROR_STATUS
  else StatusLevel.STATUS_LEVEL_INFORMATION_STATUS

/-- The entry the fault loop adds for `fault[i]`. -/
def fault_status (f : Fault) : Status :=
  ⟨fault_level f.faultLevel, StatusType.STATUS_TYPE_INTERNAL_FAULT,
    "Fault_Code=0x" ++ format_X 4 f.faultCode ++ ", Level=0x" ++ format_X 2 f.faultLevel⟩

/-- The fault loop `for (i = 0; i < faultCount && i < 64; i++)` under
`if (faultCount > 0)`. -/
def fault_entries (rs : RadarState) : List Status :=
  if rs.faultCount > 0 then
    (List.range (min rs.faultCount 64)).map (fun i => fault_status (rs.fault i))
  else []

/-- The platform and attitude-source entries. -/
def platform_entries (rs : RadarState) : List Status :=
  if rs.has_status then
    let platform := (parse_radar_status rs.status).platform_type
    let att_src := (parse_radar_status rs.status).attitude_source
    [⟨StatusLevel.STATUS_LEVEL_INFORMATION_STATUS, StatusType.STATUS_TYPE_PLATFORM,
        if platform = 0x00 then "Fixed"
        else if platform = 0x01 then "Fixed_Turntable"
        else if platform = 0x02 then "Vehicle_Mounted"
        else if platform = 0x03 then "Airborne"
        else "Unknown"⟩,
      ⟨StatusLevel.STATUS_LEVEL_INFORMATION_STATUS, StatusType.STATUS_TYPE_PLATFORM,
        if att_src = 0x00 then "Radar_Attitude_System"
        else if att_src = 0x01 then "Radar_Attitude_System_Calibrated"
        else if att_src = 0x02 then "External_Attitude_Input"
        else "Unknown"⟩]
  else []

/-- The readings taken outside `RadarState`: the OTM mode, the result of the second
`get_clutter_status` call, the temperature and its rendering by `snprintf("%.1f")`. -/
structure StatusInputs where
  otm_mode : Bool
  clutter_ok : Bool
  filter_level : Int
  weather_clutter_filter : Bool
  temperature : ℚ
  temperature_str : String

/-- The OTM, clutter and temperature entries. -/
def reading_entries (x : StatusInputs) : List Status :=
  [⟨StatusLevel.STATUS_LEVEL_INFORMATION_STATUS, StatusType.STATUS_TYPE_MOTION_SENSITIVITY,
      if x.otm_mode then "OTM_Mode_Enabled" else "OTM_Mode_Disabled"⟩]
  ++ (if x.clutter_ok then
      [⟨StatusLevel.STATUS_LEVEL_INFORMATION_STATUS, StatusType.STATUS_TYPE_CLUTTER,
          "Filter_Level=" ++ toString x.filter_level⟩,
        ⟨StatusLevel.STATUS_LEVEL_INFORMATION_STATUS, StatusType.STATUS_TYPE_CLUTTER,
          if x.weather_clutter_filter then "Weather_Clutter_Filter=Enabled"
          else "Weather_Clutter_Filter=Disabled"⟩]
    else [])
  ++ (if x.temperature > 0 then
      [⟨if x.temperature > 80 then StatusLevel.STATUS_LEVEL_ERROR_STATUS
          else if x.temperature > 70 then StatusLevel.STATUS_LEVEL_WARNING_STATUS
          else StatusLevel.STATUS_LEVEL_INFORMATION_STATUS,
        StatusType.STATUS_TYPE_OTHER, "Temperature=" ++ x.temperature_str ++ "°C"⟩]
    else [])

/-- The status list of `sapient_build_status_report`, in the order of the `add_status`
calls. -/
def status_entries (rs : RadarState) (x : StatusInputs) : List Status :=
  platform_entries rs ++ reading_entries x ++ fault_entries rs

/-- A `RadarState` as `memset` leaves it. -/
def RadarState.zero : RadarState :=
  { has_status := false, status := 0, has_electricity := false, electricity := 0,
    faultCount := 0, fault := fun _ => ⟨0, 0⟩, has_attitude := false,
    attitude := ⟨false, 0, false, 0⟩, has_aziScanCenter := false, aziScanCenter := 0,
    has_aziScanScope := false, aziScanScope := 0, has_eleScanCenter := false,
    eleScanCenter := 0, has_eleScanScope := false, eleScanScope := 0,
    has_radarScanRadius := false, radarScanRadius := 0 }

/-- A `RadarState` carrying the scan geometry, with `aziScanCenter` and the platform
heading as given. -/
def RadarState.scanning (aziScanCenter heading : ℚ) : RadarState :=
  { has_status := false, status := 0, has_electricity := false, electricity := 0,
    faultCount := 0, fault := fun _ => ⟨0, 0⟩, has_attitude := true,
    attitude := ⟨true, heading, false, 0⟩, has_aziScanCenter := true,
    aziScanCenter := aziScanCenter, has_aziScanScope := true, aziScanScope := 120,
    has_eleScanCenter := true, eleScanCenter := 0, has_eleScanScope := true,
    eleScanScope := 40, has_radarScanRadius := true, radarScanRadius := 5000 }

/-- Readings with OTM off, no clutter status and no temperature. -/
def StatusInputs.zero : StatusInputs :=
  { otm_mode := false, clutter_ok := false, filter_level := 0, weather_clutter_filter := false,
    temperature := 0, temperature_str := "0.0" }

/-! ## SHA-1 (`class SHA1`, `sapient_nodeid.cpp`) -/

/-- The function `SHA1::left_rotate` on 32-bit values. -/
def SHA1.left_rotate (value count : Nat) : Nat :=
  (((value <<< count) % 2 ^ 32) ||| (value >>> (32 - count))) % 2 ^ 32

/-- The members of `class SHA1`: the five words `h`, the bytes `buffer[0 .. buffer_len - 1]`
and `total_len`. -/
structure SHA1 where
  h : List Nat
  buffer : List Byte
  total_len : Nat
  deriving DecidableEq, Repr

/-- The first loop of `process_chunk`: the words `w[0] .. w[15]` of a 64-byte chunk. -/
def SHA1.chunk_words (chunk : List Byte) : List Nat :=
  (List.range 16).map (fun i =>
    (((chunk.getD (i * 4) 0 <<< 24) ||| (chunk.getD (i * 4 + 1) 0 <<< 16)
      ||| (chunk.getD (i * 4 + 2) 0 <<< 8) ||| chunk.getD (i * 4 + 3) 0) % 2 ^ 32))

/-- The second loop of `process_chunk`, with `left` words to go: `w[i]` is appended for
`i = w.length`. -/
def SHA1.expand : Nat → List Nat → List Nat
  | 0, w => w
  | left + 1, w =>
    SHA1.expand left (w ++ [SHA1.left_rotate
      (w.getD (w.length - 3) 0 ^^^ w.getD (w.length - 8) 0 ^^^ w.getD (w.length - 14) 0
        ^^^ w.getD (w.length - 16) 0) 1])

/-- The working variables `a, b, c, d, e` of `process_chunk`. -/
structure SHA1.Vars where
  a : Nat
  b : Nat
  c : Nat
  d : Nat
  e : Nat
  deriving DecidableEq, Repr

/-- The value `f` of round `i`. -/
def SHA1.round_f (i : Nat) (v : SHA1.Vars) : Nat :=
  if i < 20 then (v.b &&& v.c) ||| ((v.b ^^^ 0xFFFFFFFF) &&& v.d)
  else if i < 40 then v.b ^^^ v.c ^^^ v.d
  else if i < 60 then (v.b &&& v.c) ||| (v.b &&& v.d) ||| (v.c &&& v.d)
  else v.b ^^^ v.c ^^^ v.d

/-- The value `k` of round `i`. -/
def SHA1.round_k (i : Nat) : Nat :=
  if i < 20 then 0x5A827999
  else if i < 40 then 0x6ED9EBA1
  else if i < 60 then 0x8F1BBCDC
  else 0xCA62C1D6

/-- The body of the third loop of `process_chunk` for round `i`. -/
def SHA1.round (w : List Nat) (v : SHA1.Vars) (i : Nat) : SHA1.Vars :=
  { a := (SHA1.left_rotate v.a 5 + SHA1.round_f i v + v.e + SHA1.round_k i + w.getD i 0)
      % 2 ^ 32,
    b := v.a, c := SHA1.left_rotate v.b 30, d := v.c, e := v.d }

/-- The function `SHA1::process_chunk`: the new value of `h`. -/
def SHA1.process_chunk (h : List Nat) (chunk : List Byte) : List Nat :=
  let w := SHA1.expand 64 (SHA1.chunk_words chunk)
  let v := (List.range 80).foldl (SHA1.round w)
    ⟨h.getD 0 0, h.getD 1 0, h.getD 2 0, h.getD 3 0, h.getD 4 0⟩
  [(h.getD 0 0 + v.a) % 2 ^ 32, (h.getD 1 0 + v.b) % 2 ^ 32, (h.getD 2 0 + v.c) % 2 ^ 32,
    (h.getD 3 0 + v.d) % 2 ^ 32, (h.getD 4 0 + v.e) % 2 ^ 32]

/-- The function `SHA1::reset`. -/
def SHA1.reset : SHA1 :=
  ⟨[0x67452301, 0xEFCDAB89, 0x98BADCFE, 0x10325476, 0xC3D2E1F0], [], 0⟩

/-- The body of the loop of `SHA1::update` for one byte. -/
def SHA1.push (s : SHA1) (byte : Byte) : SHA1 :=
  if (s.buffer ++ [byte % 256]).length = 64 then
    { s with h := SHA1.process_chunk s.h (s.buffer ++ [byte % 256]), buffer := [] }
  else { s with buffer := s.buffer ++ [byte % 256] }

/-- The function `SHA1::update`. -/
def SHA1.update (s : SHA1) (data : List Byte) : SHA1 :=
  data.foldl SHA1.push { s with total_len := (s.total_len + data.length) % 2 ^ 64 }

/-- The loop `for (int i = 7; i >= 0; i--) buffer[56 + i] = (bit_len >> (i * 8)) & 0xFF;` of
`SHA1::finalize`: the bytes `buffer[56] .. buffer[63]`. -/
def SHA1.length_bytes (bit_len : Nat) : List Byte :=
  (List.range 8).map (fun i => (bit_len >>> (i * 8)) &&& 0xFF)

/-- The function `SHA1::finalize`: the 20 bytes written to `digest`. -/
def SHA1.finalize (s : SHA1) : List Byte :=
  let b1 := s.buffer ++ [0x80]
  let h1 := if b1.length > 56 then
      SHA1.process_chunk s.h (b1 ++ List.replicate (64 - b1.length) 0)
    else s.h
  let b2 := if b1.length > 56 then [] else b1
  let b3 := b2 ++ List.replicate (56 - b2.length) 0
  let bit_len := (s.total_len * 8) % 2 ^ 64
  let h2 := SHA1.process_chunk h1 (b3 ++ SHA1.length_bytes bit_len)
  (List.range 5).flatMap (fun i =>
    [(h2.getD i 0 >>> 24) &&& 0xFF, (h2.getD i 0 >>> 16) &&& 0xFF, (h2.getD i 0 >>> 8) &&& 0xFF,
      h2.getD i 0 &&& 0xFF])

/-- The padding of FIPS 180-4, section 5.1.1, for a message of whole bytes: the bit `1`
(the byte `0x80`), zero bits up to 448 modulo 512, and the message length in bits as a
64-bit integer, most significant byte first. -/
def sha1_fips_padding (message : List Byte) : List Byte :=
  [0x80] ++ List.replicate ((119 - message.length % 64) % 64) 0
    ++ (List.range 8).map (fun i => (message.length * 8 / 256 ^ (7 - i)) % 256)

/-- The hash computation of FIPS 180-4, section 6.1.2, over the 64-byte blocks of a padded
message, with `fuel` blocks at most; the block function is the one of `process_chunk`. -/
def sha1_fips_blocks : Nat → List Nat → List Byte → List Nat
  | 0, h, _ => h
  | fuel + 1, h, bytes =>
    if bytes.length < 64 then h
    else sha1_fips_blocks fuel (SHA1.process_chunk h (bytes.take 64)) (bytes.drop 64)

/-- SHA-1 as FIPS 180-4 defines it: the 20 bytes of the digest of `message`. -/
def sha1_fips (message : List Byte) : List Byte :=
  let padded := message.map (· % 256) ++ sha1_fips_padding message
  let h := sha1_fips_blocks (padded.length / 64) SHA1.reset.h padded
  h.flatMap (fun x => [x / 2 ^ 24 % 256, x / 2 ^ 16 % 256, x / 2 ^ 8 % 256, x % 256])

/-! ## Frame codec: arithmetic form -/

theorem decode_len_eq (b0 b1 b2 b3 : Nat) (h0 : b0 < 256) (h1 : b1 < 256) (h2 : b2 < 256)
    (h3 : b3 < 256) :
    decode_len b0 b1 b2 b3 = b0 + 256 * b1 + 65536 * b2 + 16777216 * b3 := by
  unfold decode_len
  rw [Nat.mod_eq_of_lt h0, Nat.mod_eq_of_lt h1, Nat.mod_eq_of_lt h2, Nat.mod_eq_of_lt h3]
  simp only [Nat.shiftLeft_eq]
  have e1 : b0 ||| b1 * 2 ^ 8 = 2 ^ 8 * b1 + b0 := by
    rw [Nat.or_comm, Nat.mul_comm b1]
    exact (Nat.mul_add_lt_is_or (by omega) b1).symm
  have e2 : (2 ^ 8 * b1 + b0) ||| b2 * 2 ^ 16 = 2 ^ 16 * b2 + (2 ^ 8 * b1 + b0) := by
    rw [Nat.or_comm, Nat.mul_comm b2]
    exact (Nat.mul_add_lt_is_or (by omega) b2).symm
  have e3 : (2 ^ 16 * b2 + (2 ^ 8 * b1 + b0)) ||| b3 * 2 ^ 24
      = 2 ^ 24 * b3 + (2 ^ 16 * b2 + (2 ^ 8 * b1 + b0)) := by
    rw [Nat.or_comm, Nat.mul_comm b3]
    exact (Nat.mul_add_lt_is_or (by omega) b3).symm
  rw [e1, e2, e3]
  omega

theorem len_buf_eq (n : Nat) :
    len_buf n = [n % 2 ^ 32 % 256, n % 2 ^ 32 / 256 % 256, n % 2 ^ 32 / 65536 % 256,
      n % 2 ^ 32 / 16777216 % 256] := by
  unfold len_buf
  have e : (0xFF : Nat) = 2 ^ 8 - 1 := by norm_num
  simp only [e, Nat.and_pow_two_sub_one_eq_mod, Nat.shiftRight_eq_div_pow]

theorem len_buf_length (n : Nat) : (len_buf n).length = 4 := by
  simp [len_buf]

theorem decode_len_buf (n : Nat) (h : n < 2 ^ 32) :
    decode_len ((len_buf n).getD 0 0) ((len_buf n).getD 1 0) ((len_buf n).getD 2 0)
      ((len_buf n).getD 3 0) = n := by
  rw [len_buf_eq, Nat.mod_eq_of_lt h]
  simp only [List.getD_cons_zero, List.getD_cons_succ]
  rw [decode_len_eq _ _ _ _ (by omega) (by omega) (by omega) (by omega)]
  omega

/-! ## The ghost log -/

theorem World.written_write (w : World) (bs : List Byte) :
    (w.write bs).written = w.written ++ bs := by
  unfold World.write World.written
  cases h : w.wire <;> simp

theorem World.wire_tail_write (w : World) (bs : List Byte) :
    (w.write bs).wire.tail = w.wire.tail := by
  unfold World.write
  cases h : w.wire <;> simp

/-! ## Sending on a healthy connection -/

theorem send_loop_accepts (sends : List SendRes) :
    ∀ (data : List Byte) (c : Client) (w : World), 0 ≤ c.sockfd →
      sends.all SendRes.accepts = true → data.length ≤ sends.length →
      (send_loop c w data sends).ret = 0 ∧ (send_loop c w data sends).c = c ∧
      (send_loop c w data sends).w.written = w.written ++ data ∧
      (send_loop c w data sends).w.wire.tail = w.wire.tail ∧
      (send_loop c w data sends).sends.all SendRes.accepts = true ∧
      sends.length ≤ (send_loop c w data sends).sends.length + data.length := by
  induction sends with
  | nil =>
    intro data c w _ _ hl
    have : data = [] := by simpa using hl
    subst this
    simp [send_loop]
  | cons ev rest ih =>
    intro data c w hfd hacc hl
    cases data with
    | nil => simp [send_loop, hacc]
    | cons d ds =>
      have hfd' : ¬ c.sockfd < 0 := by omega
      simp only [List.all_cons, Bool.and_eq_true] at hacc
      obtain ⟨hev, hrest⟩ := hacc
      cases ev with
      | ok k =>
        have hk : 0 < k := by simpa [SendRes.accepts] using hev
        have hn : ¬ min k (d :: ds).length = 0 := by
          simp only [List.length_cons]; omega
        have hlen : ((d :: ds).drop (min k (d :: ds).length)).length ≤ rest.length := by
          simp only [List.length_drop, List.length_cons] at hl ⊢; omega
        have := ih ((d :: ds).drop (min k (d :: ds).length)) c
          (w.write ((d :: ds).take (min k (d :: ds).length))) hfd hrest hlen
        simp only [send_loop, hfd', if_false, hn]
        obtain ⟨h1, h2, h3, h4, h5, h6⟩ := this
        refine ⟨h1, h2, ?_, ?_, h5, ?_⟩
        · rw [h3, World.written_write, List.append_assoc, List.take_append_drop]
        · rw [h4, World.wire_tail_write]
        · simp only [List.length_drop, List.length_cons] at h6 ⊢; omega
      | connErr => simp [SendRes.accepts] at hev
      | otherErr => simp [SendRes.accepts] at hev

theorem send_all_impl_connected (c : Client) (w : World) (data : List Byte)
    (sends : List SendRes) (hfd : 0 ≤ c.sockfd) (hc : c.is_connected = true) :
    send_all_impl c w data sends = send_loop c w data sends := by
  have hfd' : ¬ c.sockfd < 0 := by omega
  simp [send_all_impl, hfd', hc]

theorem send_pb_impl_accepts (c : Client) (w : World) (body : List Byte)
    (sends : List SendRes) (hfd : 0 ≤ c.sockfd) (hc : c.is_connected = true)
    (hacc : sends.all SendRes.accepts = true) (hl : 4 + body.length ≤ sends.length) :
    (send_pb_impl c w body sends).ret = 0 ∧ (send_pb_impl c w body sends).c = c ∧
    (send_pb_impl c w body sends).w.written = w.written ++ frame body ∧
    (send_pb_impl c w body sends).w.wire.tail = w.wire.tail := by
  have h1 := send_loop_accepts sends (len_buf body.length) c w hfd hacc
    (by rw [len_buf_length]; omega)
  obtain ⟨a1, a2, a3, a4, a5, a6⟩ := h1
  rw [len_buf_length] at a6
  have h2 := send_loop_accepts (send_loop c w (len_buf body.length) sends).sends body c
    (send_loop c w (len_buf body.length) sends).w hfd a5 (by omega)
  obtain ⟨b1, b2, b3, b4, _, _⟩ := h2
  unfold send_pb_impl
  simp only [send_all_impl_connected c w _ sends hfd hc, a1, ne_eq, not_true_eq_false,
    if_false, a2, send_all_impl_connected c _ _ _ hfd hc]
  refine ⟨b1, b2, ?_, ?_⟩
  · rw [b3, a3, frame, List.append_assoc]
  · rw [b4, a4]

/-! ## Receiving a frame -/

theorem recv_fully_delivers (need : Nat) (evs : List RecvEv) :
    ∀ (got inbuf : List Byte), evs.all RecvEv.delivers = true → got.length ≤ need →
      need - got.length ≤ evs.length → need - got.length ≤ inbuf.length →
      (recv_fully need evs got inbuf).1 = Int.ofNat need ∧
      (recv_fully need evs got inbuf).2.1 = got ++ inbuf.take (need - got.length) ∧
      (recv_fully need evs got inbuf).2.2.inbuf = inbuf.drop (need - got.length) ∧
      (recv_fully need evs got inbuf).2.2.evs.all RecvEv.delivers = true ∧
      evs.length ≤ (recv_fully need evs got inbuf).2.2.evs.length + (need - got.length) := by
  induction evs with
  | nil =>
    intro got inbuf _ hg hl _
    have hz : need - got.length = 0 := by simpa using hl
    have hlt : ¬ got.length < need := by omega
    have hge : got.length = need := by omega
    simp [recv_fully, hlt, hz, hge]
  | cons ev rest ih =>
    intro got inbuf hacc hg hl hin
    simp only [List.all_cons, Bool.and_eq_true] at hacc
    obtain ⟨hev, hrest⟩ := hacc
    by_cases hlt : got.length < need
    · cases ev with
      | data k =>
        have hk : 0 < k := by simpa [RecvEv.delivers] using hev
        have hn : ¬ min k (min (need - got.length) inbuf.length) = 0 := by omega
        have hnle : min k (min (need - got.length) inbuf.length) ≤ need - got.length := by omega
        have hnle2 : min k (min (need - got.length) inbuf.length) ≤ inbuf.length := by omega
        have := ih (got ++ inbuf.take (min k (min (need - got.length) inbuf.length)))
          (inbuf.drop (min k (min (need - got.length) inbuf.length))) hrest
          (by simp only [List.length_append, List.length_take]; omega)
          (by simp only [List.length_append, List.length_take, List.length_cons] at hl ⊢; omega)
          (by simp only [List.length_append, List.length_take, List.length_drop]; omega)
        simp only [recv_fully, hlt, if_true, hn, if_false]
        obtain ⟨h1, h2, h3, h4, h5⟩ := this
        have hlen : (got ++ inbuf.take (min k (min (need - got.length) inbuf.length))).length
            = got.length + min k (min (need - got.length) inbuf.length) := by
          simp only [List.length_append, List.length_take]; omega
        rw [hlen] at h2 h3 h5
        refine ⟨h1, ?_, ?_, h4, ?_⟩
        · rw [h2, List.append_assoc]
          congr 1
          have e : need - got.length = min k (min (need - got.length) inbuf.length)
              + (need - (got.length + min k (min (need - got.length) inbuf.length))) := by omega
          conv_rhs => rw [e, List.take_add]
        · rw [h3, List.drop_drop]; congr 1; omega
        · simp only [List.length_cons]; omega
      | timeout => simp [RecvEv.delivers] at hev
      | selErr => simp [RecvEv.delivers] at hev
    · have hz : need - got.length = 0 := by omega
      have hge : got.length = need := by omega
      simp [recv_fully, hlt, hz, hge, hev, hrest]

theorem receive_once_frame (c : Client) (on_msg buf : Bool) (buf_len : Nat)
    (body rest : List Byte) (evs : List RecvEv) (hfd : 0 ≤ c.sockfd)
    (h1 : 1 ≤ body.length) (h2 : body.length ≤ MAX_FRAME)
    (hev : evs.all RecvEv.delivers = true) (hl : 4 + body.length ≤ evs.length) :
    (receive_once c on_msg buf buf_len ⟨frame body ++ rest, evs⟩).ret
        = Int.ofNat (min buf_len body.length) ∧
    (receive_once c on_msg buf buf_len ⟨frame body ++ rest, evs⟩).delivered
        = (if on_msg then some body else none) ∧
    (receive_once c on_msg buf buf_len ⟨frame body ++ rest, evs⟩).sock.inbuf = rest := by
  have hfd' : ¬ c.sockfd < 0 := by omega
  have hmax : MAX_FRAME = 33554432 := by decide
  have hlb := len_buf_length body.length
  obtain ⟨a1, a2, a3, a4, a5⟩ := recv_fully_delivers 4 evs [] (frame body ++ rest) hev
    (by simp) (by simp; omega) (by simp [frame, hlb])
  rcases hr : recv_fully 4 evs [] (frame body ++ rest) with ⟨hn, hdr, s1⟩
  rw [hr] at a1 a2 a3 a4 a5
  simp only [List.length_nil, Nat.sub_zero, List.nil_append] at a1 a2 a3 a5
  have hhdr : hdr = len_buf body.length := by
    rw [a2, frame, List.append_assoc, List.take_left' hlb]
  have hin : s1.inbuf = body ++ rest := by
    rw [a3, frame, List.append_assoc, List.drop_left' hlb]
  have hdec : decode_len (hdr.getD 0 0) (hdr.getD 1 0) (hdr.getD 2 0) (hdr.getD 3 0)
      = body.length := by
    rw [hhdr]; exact decode_len_buf _ (by omega)
  have hl2 : body.length - ([] : List Byte).length ≤ s1.evs.length := by
    simp only [List.length_nil, Nat.sub_zero]; omega
  have hl3 : body.length - ([] : List Byte).length ≤ s1.inbuf.length := by
    simp [hin]
  obtain ⟨b1, b2, b3, _, _⟩ := recv_fully_delivers body.length s1.evs [] s1.inbuf a4
    (by simp) hl2 hl3
  rcases hr2 : recv_fully body.length s1.evs [] s1.inbuf with ⟨bn, bd, s2⟩
  rw [hr2] at b1 b2 b3
  simp only [List.length_nil, Nat.sub_zero, List.nil_append] at b1 b2 b3
  have hbd : bd = body := by rw [b2, hin, List.take_left' rfl]
  have hs2 : s2.inbuf = rest := by rw [b3, hin, List.drop_left' rfl]
  have hnpos : ¬ hn ≤ 0 := by rw [a1]; simp
  have hbpos : ¬ bn ≤ 0 := by rw [b1]; simp only [Int.ofNat_eq_coe]; omega
  have hvalid : ¬ (body.length = 0 ∨ body.length > MAX_FRAME) := by omega
  simp only [receive_once, hfd', if_false, hr, hnpos, hdec, hvalid, hr2, hbpos, hbd, hs2]
  simp

/-- C1. Frame round trip: for every body of 1 to 33,554,432 bytes, `send_pb_impl` on a
connection that accepts the bytes returns 0 having written exactly the four
little-endian bytes of the length followed by the body, and `receive_once`, reading
those bytes in any chunking that delivers them, hands exactly that body to the
message callback and leaves the bytes that follow the frame unread. -/
theorem frame_round_trip (body : List Byte) (h1 : 1 ≤ body.length)
    (h2 : body.length ≤ 33554432)
    (c : Client) (w : World) (sends : List SendRes)
    (hfd : 0 ≤ c.sockfd) (hc : c.is_connected = true)
    (hacc : sends.all SendRes.accepts = true) (hsl : 4 + body.length ≤ sends.length)
    (peer : Client) (hpeer : 0 ≤ peer.sockfd) (buf : Bool) (buf_len : Nat)
    (follows : List Byte) (evs : List RecvEv)
    (hev : evs.all RecvEv.delivers = true) (hel : 4 + body.length ≤ evs.length) :
    (send_pb_impl c w body sends).ret = 0 ∧
    (send_pb_impl c w body sends).w.written = w.written ++ (len_buf body.length ++ body) ∧
    (receive_once peer true buf buf_len
      ⟨(send_pb_impl c w body sends).w.written.drop w.written.length ++ follows, evs⟩).delivered
        = some body ∧
    (receive_once peer true buf buf_len
      ⟨(send_pb_impl c w body sends).w.written.drop w.written.length ++ follows, evs⟩).sock.inbuf
        = follows := by
  obtain ⟨s1, _, s3, _⟩ := send_pb_impl_accepts c w body sends hfd hc hacc hsl
  have hw : (send_pb_impl c w body sends).w.written.drop w.written.length = frame body := by
    rw [s3, List.drop_left' rfl]
  obtain ⟨_, r2, r3⟩ := receive_once_frame peer true buf buf_len body follows evs hpeer h1
    (by rw [show MAX_FRAME = 33554432 by decide]; exact h2) hev hel
  rw [hw]
  exact ⟨s1, by rw [s3]; rfl, by simpa using r2, r3⟩

/-- A three-byte body crosses a connection that moves one byte per call. -/
theorem frame_round_trip_witness :
    (send_pb_impl Client.online (World.sample 1 [] none none) [1, 2, 3]
        (List.replicate 7 (SendRes.ok 1))).ret = 0 ∧
    (receive_once Client.online true true 64
      ⟨(send_pb_impl Client.online (World.sample 1 [] none none) [1, 2, 3]
          (List.replicate 7 (SendRes.ok 1))).w.written.drop
            (World.sample 1 [] none none).written.length ++ [7],
        List.replicate 7 (RecvEv.data 1)⟩).delivered = some [1, 2, 3] :=
  have h := frame_round_trip [1, 2, 3] (by decide) (by decide) Client.online
    (World.sample 1 [] none none) (List.replicate 7 (SendRes.ok 1)) (by decide) (by decide)
    (by decide) (by decide) Client.online (by decide) true 64 [7]
    (List.replicate 7 (RecvEv.data 1)) (by decide) (by decide)
  ⟨h.1, h.2.2.1⟩

/-! ## Frame length check -/

theorem recv_fully_evs_length (need : Nat) (evs : List RecvEv) :
    ∀ (got inbuf : List Byte),
      (recv_fully need evs got inbuf).2.2.evs.length ≤ evs.length := by
  induction evs with
  | nil => intro got inbuf; simp only [recv_fully]; split <;> simp
  | cons ev rest ih =>
    intro got inbuf
    simp only [recv_fully]
    split
    · cases ev with
      | timeout => simp
      | selErr => simp
      | data k =>
        simp only
        split
        · simp
        · exact Nat.le_succ_of_le (ih _ _)
    · simp

theorem recv_fully_starts (need : Nat) (s : Sock) (hneed : 0 < need) :
    (recv_fully need s.evs [] s.inbuf).1 = 0 ∨
      (recv_fully need s.evs [] s.inbuf).2.2 ≠ s := by
  rcases s with ⟨inbuf, evs⟩
  cases evs with
  | nil => left; simp [recv_fully, hneed]
  | cons ev rest =>
    right
    intro h
    have hlen : (recv_fully need (ev :: rest) [] inbuf).2.2.evs.length ≤ rest.length := by
      simp only [recv_fully, List.length_nil, hneed, if_true]
      cases ev with
      | timeout => simp
      | selErr => simp
      | data k =>
        simp only
        split
        · simp
        · exact recv_fully_evs_length _ _ _ _
    rw [h] at hlen
    simp at hlen

/-- C2. Once the four prefix bytes have been read, `receive_once` fails with a negative
result, without calling the message callback and without any `select`/`recv` round for
a body, exactly when the little-endian decoded length is 0 or exceeds 33,554,432. -/
theorem receive_once_rejects_iff (c : Client) (on_msg buf : Bool) (buf_len : Nat) (s : Sock)
    (hdr : List Byte) (s1 : Sock) (hfd : 0 ≤ c.sockfd)
    (hhead : recv_fully 4 s.evs [] s.inbuf = (4, hdr, s1)) :
    ((receive_once c on_msg buf buf_len s).ret < 0 ∧
      (receive_once c on_msg buf buf_len s).delivered = none ∧
      (receive_once c on_msg buf buf_len s).sock = s1) ↔
    (decode_len (hdr.getD 0 0) (hdr.getD 1 0) (hdr.getD 2 0) (hdr.getD 3 0) = 0 ∨
      decode_len (hdr.getD 0 0) (hdr.getD 1 0) (hdr.getD 2 0) (hdr.getD 3 0) > 33554432) := by
  have hfd' : ¬ c.sockfd < 0 := by omega
  have hmax : MAX_FRAME = 33554432 := by decide
  constructor
  · intro ⟨hret, _, hsock⟩
    by_contra hvalid
    have hv' : ¬ (decode_len (hdr.getD 0 0) (hdr.getD 1 0) (hdr.getD 2 0) (hdr.getD 3 0) = 0 ∨
      decode_len (hdr.getD 0 0) (hdr.getD 1 0) (hdr.getD 2 0) (hdr.getD 3 0) > MAX_FRAME) := by
      rw [hmax]; exact hvalid
    have hpos : 0 < decode_len (hdr.getD 0 0) (hdr.getD 1 0) (hdr.getD 2 0) (hdr.getD 3 0) := by
      omega
    rcases hr2 : recv_fully (decode_len (hdr.getD 0 0) (hdr.getD 1 0) (hdr.getD 2 0)
      (hdr.getD 3 0)) s1.evs [] s1.inbuf with ⟨bn, bd, s2⟩
    have hstart := recv_fully_starts _ s1 hpos
    rw [hr2] at hstart
    have h4 : ¬ ((4 : Int) ≤ 0) := by decide
    simp only [receive_once, hfd', if_false, hhead, h4, hv', hr2] at hret hsock
    by_cases hb : bn ≤ 0
    · simp only [hb, if_true] at hret hsock
      rcases hstart with h0 | hne
      · simp only at h0; omega
      · exact hne hsock
    · simp only [hb, if_false] at hret hsock
      rcases hstart with h0 | hne
      · simp only at h0; omega
      · exact hne hsock
  · intro hbad
    have hb' : decode_len (hdr.getD 0 0) (hdr.getD 1 0) (hdr.getD 2 0) (hdr.getD 3 0) = 0 ∨
      decode_len (hdr.getD 0 0) (hdr.getD 1 0) (hdr.getD 2 0) (hdr.getD 3 0) > MAX_FRAME := by
      rw [hmax]; exact hbad
    have h4 : ¬ ((4 : Int) ≤ 0) := by decide
    simp only [receive_once, hfd', if_false, hhead, h4, hb', if_true]
    simp

/-- A prefix announcing 32 MiB + 1 bytes is rejected with `-1` before any body byte is read. -/
theorem receive_once_rejects_iff_witness :
    (receive_once Client.online true true 64
        ⟨[1, 0, 0, 2, 5], [RecvEv.data 4, RecvEv.data 1]⟩).ret < 0 ∧
    (receive_once Client.online true true 64
        ⟨[1, 0, 0, 2, 5], [RecvEv.data 4, RecvEv.data 1]⟩).delivered = none ∧
    (receive_once Client.online true true 64
        ⟨[1, 0, 0, 2, 5], [RecvEv.data 4, RecvEv.data 1]⟩).sock = ⟨[5], [RecvEv.data 1]⟩ :=
  (receive_once_rejects_iff Client.online true true 64
    ⟨[1, 0, 0, 2, 5], [RecvEv.data 4, RecvEv.data 1]⟩ [1, 0, 0, 2] ⟨[5], [RecvEv.data 1]⟩
    (by decide) (by decide)).mpr (Or.inr (by decide))

/-! ## What the transport never changes -/

theorem Client.kept_refl (c : Client) : c.kept c :=
  ⟨fun h => ⟨h, rfl⟩, rfl, rfl, rfl⟩

theorem Client.kept_trans {a b c : Client} (h1 : a.kept b) (h2 : b.kept c) : a.kept c := by
  obtain ⟨d1, r1, k1, w1⟩ := h1
  obtain ⟨d2, r2, k2, w2⟩ := h2
  refine ⟨fun h => ?_, r2.trans r1, k2.trans k1, w2.trans w1⟩
  obtain ⟨v, t⟩ := d1 h
  obtain ⟨v2, t2⟩ := d2 v
  exact ⟨v2, t2.trans t⟩

theorem record_disconnect_time_kept (c : Client) (w : World) :
    c.kept (record_disconnect_time c w).1 := by
  unfold record_disconnect_time Client.kept
  cases hv : c.disconnect_time_valid <;> simp [hv]

theorem record_disconnect_time_valid (c : Client) (w : World) :
    (record_disconnect_time c w).1.disconnect_time_valid = true := by
  unfold record_disconnect_time
  cases hv : c.disconnect_time_valid <;> simp [hv]

theorem close_socket_kept (c : Client) (w : World) : c.kept (close_socket c w).1 := by
  unfold close_socket
  refine Client.kept_trans ?_ (record_disconnect_time_kept _ _)
  by_cases hfd : c.sockfd ≥ 0 <;> simp [hfd, Client.kept]

theorem close_socket_valid (c : Client) (w : World) :
    (close_socket c w).1.disconnect_time_valid = true :=
  record_disconnect_time_valid _ _

theorem connect_with_timeout_kept (c : Client) (w : World) (r : ConnRes) :
    c.kept (connect_with_timeout c w r).2.1 := by
  cases r <;> simp [connect_with_timeout, Client.kept]

theorem reconnect_loop_kept (force : Bool) (conns : List ConnRes) :
    ∀ (c : Client) (w : World), c.kept (reconnect_loop force c w conns).2.1 := by
  induction conns with
  | nil =>
    intro c w
    unfold reconnect_loop
    cases c.running <;> simp [Client.kept]
  | cons r rest ih =>
    intro c w
    unfold reconnect_loop
    cases hr : c.running
    · simp [Client.kept]
    · simp only [if_true]
      have hk := connect_with_timeout_kept c { w with connects := rest } r
      split
      · refine Client.kept_trans hk ?_
        simp [Client.kept]
      · exact Client.kept_trans hk (ih _ _)

theorem reconnect_with_backoff_kept (force : Bool) (c : Client) (w : World) :
    c.kept (reconnect_with_backoff force c w).2.1 := by
  unfold reconnect_with_backoff
  exact Client.kept_trans (close_socket_kept c w) (reconnect_loop_kept force _ _ _)

theorem send_loop_kept (sends : List SendRes) :
    ∀ (data : List Byte) (c : Client) (w : World), c.kept (send_loop c w data sends).c := by
  induction sends with
  | nil =>
    intro data c w
    cases data <;> simp [send_loop, Client.kept_refl]
  | cons ev rest ih =>
    intro data c w
    cases data with
    | nil => simp [send_loop, Client.kept_refl]
    | cons d ds =>
      unfold send_loop
      by_cases hfd : c.sockfd < 0
      · simp [hfd, Client.kept_refl]
      · simp only [hfd, if_false]
        cases ev with
        | ok k =>
          simp only
          split
          · exact Client.kept_refl c
          · exact ih _ _ _
        | otherErr => exact Client.kept_refl c
        | connErr =>
          simp only
          have h1 : c.kept ({ c with is_connected := false } : Client) := by simp [Client.kept]
          have h2 := record_disconnect_time_kept { c with is_connected := false } w
          have h3 := reconnect_with_backoff_kept false
            (record_disconnect_time { c with is_connected := false } w).1
            (record_disconnect_time { c with is_connected := false } w).2
          have h := Client.kept_trans (Client.kept_trans h1 h2) h3
          split
          · exact Client.kept_trans h (ih _ _ _)
          · exact h

theorem send_all_impl_kept (c : Client) (w : World) (data : List Byte) (sends : List SendRes) :
    c.kept (send_all_impl c w data sends).c := by
  unfold send_all_impl
  generalize (if c.sockfd ≥ 0 then is_socket_alive c w else (false, w)) = probe
  by_cases hpre : (c.sockfd < 0 || !c.is_connected) = true
  · simp only [hpre, if_true]
    by_cases hp : probe.1 = true
    · simp only [hp, if_true]
      refine Client.kept_trans ?_ (send_loop_kept _ _ _ _)
      simp [Client.kept]
    · rw [if_neg hp]
      have h := reconnect_with_backoff_kept false c probe.2
      by_cases hr : (reconnect_with_backoff false c probe.2).1 ≠ 0
      · rw [if_pos hr]; exact h
      · rw [if_neg hr]; exact Client.kept_trans h (send_loop_kept _ _ _ _)
  · rw [if_neg hpre]
    exact send_loop_kept _ _ _ _

theorem send_pb_impl_kept (c : Client) (w : World) (data : List Byte) (sends : List SendRes) :
    c.kept (send_pb_impl c w data sends).c := by
  unfold send_pb_impl
  have h := send_all_impl_kept c w (len_buf data.length) sends
  simp only
  split
  · exact h
  · exact Client.kept_trans h (send_all_impl_kept _ _ _ _)

theorem send_status_report_kept (c : Client) (w : World) (sends : List SendRes) :
    c.kept (send_status_report c w sends).c := by
  unfold send_status_report
  split
  · exact Client.kept_refl c
  · exact send_pb_impl_kept _ _ _ _

/-! ## The disconnect timestamp -/

theorem ClientOp.run_keeps_disconnect_time (op : ClientOp) (c : Client) (w : World)
    (h : c.disconnect_time_valid = true) :
    (op.run c w).1.disconnect_time_valid = true ∧
      (op.run c w).1.disconnect_time = c.disconnect_time := by
  cases op with
  | close => exact (close_socket_kept c w).1 h
  | connect r => exact (connect_with_timeout_kept c w r).1 h
  | reconnect force => exact (reconnect_with_backoff_kept force c w).1 h
  | sendAll data sends => exact (send_all_impl_kept c w data sends).1 h
  | sendPb data sends => exact (send_pb_impl_kept c w data sends).1 h
  | sendRegister sends =>
    simp only [ClientOp.run, send_register]
    split
    · exact ⟨h, rfl⟩
    · exact (send_pb_impl_kept _ _ _ _).1 h
  | sendStatusReport sends => exact (send_status_report_kept c w sends).1 h
  | getDisconnectElapsed => exact ⟨h, rfl⟩
  | markAck =>
    simp only [ClientOp.run, mark_registration_ack_received]
    split <;> exact ⟨h, rfl⟩
  | ackCheck ce =>
    simp only [ClientOp.run, check_registration_ack_timeout]
    split
    · split
      · exact (reconnect_with_backoff_kept true _ _).1 h
      · exact ⟨h, rfl⟩
    · exact ⟨h, rfl⟩
  | receiveResult ret ce =>
    simp only [ClientOp.run, on_receive_result]
    split
    · split
      · have h1 : c.kept ({ c with is_connected := false } : Client) := by simp [Client.kept]
        exact (Client.kept_trans (Client.kept_trans h1 (record_disconnect_time_kept _ w))
          (reconnect_with_backoff_kept false _ _)).1 h
      · exact ⟨h, rfl⟩
    · exact ⟨h, rfl⟩
  | startReceive =>
    simp only [ClientOp.run, start_receive_thread]
    split
    · exact ⟨h, rfl⟩
    · split <;> exact ⟨h, rfl⟩
  | stopReceive =>
    simp only [ClientOp.run, stop_receive_thread]
    split <;> exact ⟨h, rfl⟩

/-- C8. Earliest disconnect timestamp wins: after any sequence of client operations
other than `clear_disconnect_time` (closing, connecting, reconnecting with or without
success, sending with its failure path, the checks of the receive worker), a
disconnect instant that was recorded before is still recorded and is the same instant. -/
theorem disconnect_time_earliest_wins (ops : List ClientOp) :
    ∀ (c : Client) (w : World), c.disconnect_time_valid = true →
      (ClientOp.runAll ops c w).1.disconnect_time_valid = true ∧
        (ClientOp.runAll ops c w).1.disconnect_time = c.disconnect_time := by
  induction ops with
  | nil => intro c w h; exact ⟨h, rfl⟩
  | cons op ops ih =>
    intro c w h
    obtain ⟨hv, ht⟩ := ClientOp.run_keeps_disconnect_time op c w h
    obtain ⟨hv2, ht2⟩ := ih (op.run c w).1 (op.run c w).2 hv
    exact ⟨hv2, ht2.trans ht⟩

/-- A disconnect recorded at instant 5 survives a close, a successful reconnect, a
send that fails with a connection error and the loss detection of the receive worker. -/
theorem disconnect_time_earliest_wins_witness :
    (ClientOp.runAll
      [ClientOp.close, ClientOp.reconnect false, ClientOp.sendPb [1] [SendRes.connErr],
        ClientOp.receiveResult (-1) 2]
      { Client.online with disconnect_time := 5, disconnect_time_valid := true }
      (World.sample 7 [ConnRes.ok [], ConnRes.fail] none none)).1.disconnect_time = 5 :=
  (disconnect_time_earliest_wins _
    { Client.online with disconnect_time := 5, disconnect_time_valid := true }
    (World.sample 7 [ConnRes.ok [], ConnRes.fail] none none) rfl).2

/-! ## Status worker -/

theorem toInt32_of_small (x : Int) (h0 : 0 ≤ x) (h1 : x < 2 ^ 31) : toInt32 x = x := by
  unfold toInt32
  omega

theorem elapsed_seconds_window (t since : Int) (h0 : 0 ≤ t - since)
    (h1 : t - since < 120 * 1000000000) :
    0 ≤ elapsed_seconds t since ∧ elapsed_seconds t since < 120 := by
  unfold elapsed_seconds
  rw [Int.tdiv_eq_ediv h0 (by decide)]
  omega

theorem status_wake_attempts (c : Client) (w : World) (sends : List SendRes)
    (h : (get_disconnect_elapsed_seconds c w).1 < 0 ∨
      (get_disconnect_elapsed_seconds c w).1 ≥ 120) :
    (status_report_wake c w sends).send_ret
      = some (send_status_report c (get_disconnect_elapsed_seconds c w).2 sends).ret ∧
    (status_report_wake c w sends).w
      = (send_status_report c (get_disconnect_elapsed_seconds c w).2 sends).w ∧
    (status_report_wake c w sends).sends
      = (send_status_report c (get_disconnect_elapsed_seconds c w).2 sends).sends := by
  have hc : ¬ ((get_disconnect_elapsed_seconds c w).1 ≥ 0 ∧
      (get_disconnect_elapsed_seconds c w).1 < STATUS_REPORT_DISCONNECT_THRESHOLD) := by
    intro hh
    have : (get_disconnect_elapsed_seconds c w).1 < 120 := hh.2
    omega
  unfold status_report_wake
  simp only
  rw [if_neg hc]
  exact ⟨rfl, rfl, rfl⟩

theorem get_disconnect_elapsed_world (c : Client) (w : World) :
    (get_disconnect_elapsed_seconds c w).2.builds = w.builds ∧
    (get_disconnect_elapsed_seconds c w).2.status = w.status ∧
    (get_disconnect_elapsed_seconds c w).2.wire = w.wire := by
  unfold get_disconnect_elapsed_seconds
  split <;> simp [now]

theorem send_status_report_build_failed (c : Client) (w : World) (sends : List SendRes)
    (hb : w.status w.builds = none) :
    (send_status_report c w sends).ret = -1 ∧
    (send_status_report c w sends).w.builds = w.builds + 1 ∧
    (send_status_report c w sends).w.wire = w.wire := by
  simp [send_status_report, build_status_report, hb]

theorem send_status_report_accepts (c : Client) (w : World) (sends : List SendRes)
    (body : List Byte) (hb : w.status w.builds = some body) (hfd : 0 ≤ c.sockfd)
    (hc : c.is_connected = true) (hacc : sends.all SendRes.accepts = true)
    (hl : 4 + body.length ≤ sends.length) :
    (send_status_report c w sends).ret = 0 ∧
    (send_status_report c w sends).w.written = w.written ++ frame body := by
  have h := send_pb_impl_accepts c (build_status_report w).2 body sends hfd hc hacc hl
  have hw : (build_status_report w).2.written = w.written := by
    simp [build_status_report, World.written]
  simp only [send_status_report, build_status_report, hb]
  simp only [build_status_report] at h hw
  exact ⟨h.1, by rw [h.2.2.1, hw]⟩

/-- C9. On each wake of the status worker, with `e` the value of
`get_disconnect_elapsed_seconds`, a StatusReport send is attempted exactly when
`e < 0` or `e >= 120`: the wake then does what `send_status_report` does, which calls the
builder and, when the report builds, hands it to `send_pb` (on a connection that accepts
the bytes its frame is written and the send returns 0; when it does not build the send
returns -1 with nothing written).  When `0 <= e < 120` nothing is built or sent and the
client, its disconnect timestamp included, is left unchanged.  `e` is `-1` when no
disconnect is recorded and otherwise the whole seconds since the recorded instant (as long
as they fit an `int`), and during the first 120 s after a recorded disconnect no send is
attempted. -/
theorem status_worker_suppression (c : Client) (w : World) (sends : List SendRes) :
    (((status_report_wake c w sends).send_ret.isSome = true) ↔
      ((get_disconnect_elapsed_seconds c w).1 < 0 ∨
        (get_disconnect_elapsed_seconds c w).1 ≥ 120)) ∧
    (0 ≤ (get_disconnect_elapsed_seconds c w).1 ∧ (get_disconnect_elapsed_seconds c w).1 < 120 →
      (status_report_wake c w sends).send_ret = none ∧
      (status_report_wake c w sends).c = c ∧
      (status_report_wake c w sends).w.wire = w.wire ∧
      (status_report_wake c w sends).w.builds = w.builds ∧
      (status_report_wake c w sends).sends = sends) ∧
    (c.disconnect_time_valid = false → (get_disconnect_elapsed_seconds c w).1 = -1) ∧
    (c.disconnect_time_valid = true →
      0 ≤ elapsed_seconds (w.clock w.ticks) c.disconnect_time →
      elapsed_seconds (w.clock w.ticks) c.disconnect_time < 2 ^ 31 →
      (get_disconnect_elapsed_seconds c w).1
        = elapsed_seconds (w.clock w.ticks) c.disconnect_time) ∧
    (c.disconnect_time_valid = true → 0 ≤ w.clock w.ticks - c.disconnect_time →
      w.clock w.ticks - c.disconnect_time < 120 * 1000000000 →
      (status_report_wake c w sends).send_ret = none ∧
      (status_report_wake c w sends).c = c ∧
      (status_report_wake c w sends).w.wire = w.wire) ∧
    ((get_disconnect_elapsed_seconds c w).1 < 0 ∨
        (get_disconnect_elapsed_seconds c w).1 ≥ 120 →
      (status_report_wake c w sends).send_ret
        = some (send_status_report c (get_disconnect_elapsed_seconds c w).2 sends).ret ∧
      (status_report_wake c w sends).w
        = (send_status_report c (get_disconnect_elapsed_seconds c w).2 sends).w ∧
      (status_report_wake c w sends).sends
        = (send_status_report c (get_disconnect_elapsed_seconds c w).2 sends).sends ∧
      (w.status w.builds = none →
        (status_report_wake c w sends).send_ret = some (-1) ∧
        (status_report_wake c w sends).w.builds = w.builds + 1 ∧
        (status_report_wake c w sends).w.wire = w.wire) ∧
      (∀ body : List Byte, w.status w.builds = some body → 0 ≤ c.sockfd →
        c.is_connected = true → sends.all SendRes.accepts = true →
        4 + body.length ≤ sends.length →
        (status_report_wake c w sends).send_ret = some 0 ∧
        (status_report_wake c w sends).w.written = w.written ++ frame body)) := by
  have key : ∀ e : Int, (0 ≤ e ∧ e < 120) →
      (get_disconnect_elapsed_seconds c w).1 = e →
      (status_report_wake c w sends).send_ret = none ∧
      (status_report_wake c w sends).c = c ∧
      (status_report_wake c w sends).w.wire = w.wire ∧
      (status_report_wake c w sends).w.builds = w.builds ∧
      (status_report_wake c w sends).sends = sends := by
    intro e he heq
    have hcond : (get_disconnect_elapsed_seconds c w).1 ≥ 0 ∧
        (get_disconnect_elapsed_seconds c w).1 < STATUS_REPORT_DISCONNECT_THRESHOLD := by
      rw [heq]; exact ⟨he.1, he.2⟩
    simp only [status_report_wake, hcond, and_self, if_true, true_and]
    unfold get_disconnect_elapsed_seconds
    split <;> simp [now]
  refine ⟨?_, ?_, ?_, ?_, ?_, ?_⟩
  · unfold status_report_wake
    by_cases hcond : (get_disconnect_elapsed_seconds c w).1 ≥ 0 ∧
        (get_disconnect_elapsed_seconds c w).1 < STATUS_REPORT_DISCONNECT_THRESHOLD
    · simp only [hcond, and_self, if_true]
      have h2 : (get_disconnect_elapsed_seconds c w).1 < 120 := hcond.2
      simp only [Option.isSome_none]
      constructor
      · intro h; cases h
      · intro h; omega
    · rw [if_neg hcond]
      simp only [Option.isSome_some, true_iff]
      have h3 : ¬ ((get_disconnect_elapsed_seconds c w).1 ≥ 0 ∧
        (get_disconnect_elapsed_seconds c w).1 < 120) := hcond
      omega
  · intro h
    exact key _ h rfl
  · intro hv
    simp [get_disconnect_elapsed_seconds, hv]
  · intro hv h0 h1
    simp only [get_disconnect_elapsed_seconds, hv, Bool.not_true, Bool.false_eq_true,
      if_false, now]
    exact toInt32_of_small _ h0 h1
  · intro hv h0 h1
    obtain ⟨e0, e1⟩ := elapsed_seconds_window _ _ h0 h1
    have he : (get_disconnect_elapsed_seconds c w).1
        = elapsed_seconds (w.clock w.ticks) c.disconnect_time := by
      simp only [get_disconnect_elapsed_seconds, hv, Bool.not_true, Bool.false_eq_true,
        if_false, now]
      exact toInt32_of_small _ e0 (by omega)
    obtain ⟨a, b, d, _, _⟩ := key _ ⟨e0, e1⟩ he
    exact ⟨a, b, d⟩
  · intro h
    obtain ⟨a1, a2, a3⟩ := status_wake_attempts c w sends h
    obtain ⟨g1, g2, g3⟩ := get_disconnect_elapsed_world c w
    refine ⟨a1, a2, a3, ?_, ?_⟩
    · intro hb
      have hb1 : (get_disconnect_elapsed_seconds c w).2.status
          (get_disconnect_elapsed_seconds c w).2.builds = none := by rw [g1, g2]; exact hb
      obtain ⟨b1, b2, b3⟩ := send_status_report_build_failed c _ sends hb1
      exact ⟨by rw [a1, b1], by rw [a2, b2, g1], by rw [a2, b3, g3]⟩
    · intro body hb hfd hc hacc hl
      have hb1 : (get_disconnect_elapsed_seconds c w).2.status
          (get_disconnect_elapsed_seconds c w).2.builds = some body := by
        rw [g1, g2]; exact hb
      obtain ⟨b1, b2⟩ := send_status_report_accepts c _ sends body hb1 hfd hc hacc hl
      have hw : (get_disconnect_elapsed_seconds c w).2.written = w.written := by
        simp only [World.written, g3]
      exact ⟨by rw [a1, b1], by rw [a2, b2, hw]⟩

/-- C10 (evaluation of the code). A wake with `disconnect_elapsed = 120` whose StatusReport
send fails (`send` returns an error that is not a connection error, so
`send_status_report` returns `-1`) still clears the disconnect timestamp, where the
timestamp is to be cleared only after a successful post-threshold send. -/
theorem status_wake_clears_after_failed_send :
    (status_report_wake
        { Client.online with disconnect_time := -120000000000, disconnect_time_valid := true }
        (World.sample 0 [] none (some [7])) [SendRes.otherErr]).elapsed = 120 ∧
    (status_report_wake
        { Client.online with disconnect_time := -120000000000, disconnect_time_valid := true }
        (World.sample 0 [] none (some [7])) [SendRes.otherErr]).send_ret = some (-1) ∧
    (status_report_wake
        { Client.online with disconnect_time := -120000000000, disconnect_time_valid := true }
        (World.sample 0 [] none (some [7])) [SendRes.otherErr]).c.disconnect_time_valid
      = false := by
  decide

/-- What a wake of the status worker does to the client: with `disconnect_elapsed >= 120`
the disconnect timestamp is cleared after the send attempt, whatever the send returned;
with `0 <= disconnect_elapsed < 120` the client is not modified; with
`disconnect_elapsed < 0` the client is as the send left it. -/
theorem status_wake_client (c : Client) (w : World) (sends : List SendRes) :
    ((get_disconnect_elapsed_seconds c w).1 ≥ 120 →
      (status_report_wake c w sends).send_ret
        = some (send_status_report c (get_disconnect_elapsed_seconds c w).2 sends).ret ∧
      (status_report_wake c w sends).c.disconnect_time_valid = false) ∧
    (0 ≤ (get_disconnect_elapsed_seconds c w).1 ∧ (get_disconnect_elapsed_seconds c w).1 < 120 →
      (status_report_wake c w sends).c = c) ∧
    ((get_disconnect_elapsed_seconds c w).1 < 0 →
      (status_report_wake c w sends).c
        = (send_status_report c (get_disconnect_elapsed_seconds c w).2 sends).c) := by
  refine ⟨?_, ?_, ?_⟩
  · intro h
    have hc : ¬ ((get_disconnect_elapsed_seconds c w).1 ≥ 0 ∧
        (get_disconnect_elapsed_seconds c w).1 < STATUS_REPORT_DISCONNECT_THRESHOLD) := by
      intro hh
      have : (get_disconnect_elapsed_seconds c w).1 < 120 := hh.2
      omega
    have hg : (get_disconnect_elapsed_seconds c w).1 ≥ STATUS_REPORT_DISCONNECT_THRESHOLD := h
    unfold status_report_wake
    simp only
    rw [if_neg hc, if_pos hg]
    exact ⟨rfl, rfl⟩
  · intro h
    have hc : (get_disconnect_elapsed_seconds c w).1 ≥ 0 ∧
        (get_disconnect_elapsed_seconds c w).1 < STATUS_REPORT_DISCONNECT_THRESHOLD := h
    unfold status_report_wake
    simp only
    rw [if_pos hc]
  · intro h
    have hc : ¬ ((get_disconnect_elapsed_seconds c w).1 ≥ 0 ∧
        (get_disconnect_elapsed_seconds c w).1 < STATUS_REPORT_DISCONNECT_THRESHOLD) := by
      intro hh; omega
    have hg : ¬ (get_disconnect_elapsed_seconds c w).1 ≥ STATUS_REPORT_DISCONNECT_THRESHOLD := by
      intro hh
      have : (get_disconnect_elapsed_seconds c w).1 ≥ 120 := hh
      omega
    unfold status_report_wake
    simp only
    rw [if_neg hc, if_neg hg]

/-! ## Reconnect in the middle of a frame -/

/-- C3 (evaluation of the code). `send_pb` of the body `[1, 2, 3]`: the prefix is accepted
by the connection, the first `send` of the body fails with a connection error, the
reconnect succeeds 1 s after the loss (so no Registration is written) and the loop
continues.  `send_pb` returns 0, the old connection holds the bare prefix and the new
connection starts with the body without a prefix.  After a second `send_pb`, of
`[5, 6]`, the peer that reads the new connection decodes the length `0x02030201` from
`[1, 2, 3, 2]` and rejects the stream. -/
theorem send_pb_continues_mid_frame :
    (send_pb_impl Client.online (World.sample 1000000000 [ConnRes.ok []] (some [9, 9]) none)
        [1, 2, 3] [SendRes.ok 4, SendRes.connErr, SendRes.ok 3]).ret = 0 ∧
    (send_pb_impl Client.online (World.sample 1000000000 [ConnRes.ok []] (some [9, 9]) none)
        [1, 2, 3] [SendRes.ok 4, SendRes.connErr, SendRes.ok 3]).w.wire
      = [[1, 2, 3], [3, 0, 0, 0]] ∧
    frame [1, 2, 3] = [3, 0, 0, 0, 1, 2, 3] ∧
    (send_pb_impl
        (send_pb_impl Client.online
          (World.sample 1000000000 [ConnRes.ok []] (some [9, 9]) none)
          [1, 2, 3] [SendRes.ok 4, SendRes.connErr, SendRes.ok 3]).c
        (send_pb_impl Client.online
          (World.sample 1000000000 [ConnRes.ok []] (some [9, 9]) none)
          [1, 2, 3] [SendRes.ok 4, SendRes.connErr, SendRes.ok 3]).w
        [5, 6] [SendRes.ok 4, SendRes.ok 2]).w.wire
      = [[1, 2, 3, 2, 0, 0, 0, 5, 6], [3, 0, 0, 0]] ∧
    receive_once Client.online true false 0
        ⟨[1, 2, 3, 2, 0, 0, 0, 5, 6], [RecvEv.data 9, RecvEv.data 9]⟩
      = ⟨-1, none, [], ⟨[0, 0, 0, 5, 6], [RecvEv.data 9]⟩⟩ := by
  refine ⟨by decide, by decide, by decide, by decide, by decide⟩

/-! ## Registration on reconnect -/

theorem raw_send_accepts (s : List SendRes) :
    ∀ (data : List Byte) (w : World), s.all SendRes.accepts = true → data.length ≤ s.length →
      (raw_send w data s).1 = true ∧
      (raw_send w data s).2.1.written = w.written ++ data ∧
      (raw_send w data s).2.2.all SendRes.accepts = true ∧
      s.length ≤ (raw_send w data s).2.2.length + data.length := by
  induction s with
  | nil =>
    intro data w _ hl
    have : data = [] := by simpa using hl
    subst this
    simp [raw_send]
  | cons ev rest ih =>
    intro data w hacc hl
    cases data with
    | nil => simp [raw_send, hacc]
    | cons d ds =>
      simp only [List.all_cons, Bool.and_eq_true] at hacc
      obtain ⟨hev, hrest⟩ := hacc
      cases ev with
      | ok k =>
        have hk : 0 < k := by simpa [SendRes.accepts] using hev
        have hn : ¬ min k (d :: ds).length = 0 := by
          simp only [List.length_cons]; omega
        have hlen : ((d :: ds).drop (min k (d :: ds).length)).length ≤ rest.length := by
          simp only [List.length_drop, List.length_cons] at hl ⊢; omega
        obtain ⟨h1, h2, h3, h4⟩ := ih ((d :: ds).drop (min k (d :: ds).length))
          (w.write ((d :: ds).take (min k (d :: ds).length))) hrest hlen
        simp only [raw_send, hn, if_false]
        refine ⟨h1, ?_, h3, ?_⟩
        · rw [h2, World.written_write, List.append_assoc, List.take_append_drop]
        · simp only [List.length_drop, List.length_cons] at h4 ⊢; omega
      | connErr => simp [SendRes.accepts] at hev
      | otherErr => simp [SendRes.accepts] at hev

theorem raw_send_frame (s : List SendRes) :
    ∀ (data : List Byte) (w : World),
      (raw_send w data s).2.1.builds = w.builds ∧
      (raw_send w data s).2.1.wire.tail = w.wire.tail := by
  induction s with
  | nil => intro data w; cases data <;> simp [raw_send]
  | cons ev rest ih =>
    intro data w
    cases data with
    | nil => simp [raw_send]
    | cons d ds =>
      cases ev with
      | ok k =>
        simp only [raw_send]
        split
        · exact ⟨rfl, rfl⟩
        · obtain ⟨h1, h2⟩ := ih ((d :: ds).drop (min k (d :: ds).length))
            (w.write ((d :: ds).take (min k (d :: ds).length)))
          refine ⟨h1.trans ?_, h2.trans (World.wire_tail_write _ _)⟩
          unfold World.write
          split <;> rfl
      | connErr => simp [raw_send]
      | otherErr => simp [raw_send]

theorem write_registration_frame (w : World) (reg : List SendRes) :
    (write_registration w reg).builds = w.builds + 1 ∧
    (write_registration w reg).wire.tail = w.wire.tail := by
  unfold write_registration
  split
  · exact ⟨rfl, rfl⟩
  · simp only
    split
    · obtain ⟨a1, a2⟩ := raw_send_frame reg (len_buf _) (build_registration w).2
      obtain ⟨b1, b2⟩ := raw_send_frame (raw_send (build_registration w).2 (len_buf _) reg).2.2
        _ (raw_send (build_registration w).2 (len_buf _) reg).2.1
      exact ⟨b1.trans a1, b2.trans a2⟩
    · exact raw_send_frame reg (len_buf _) (build_registration w).2

theorem write_registration_accepts (w : World) (reg : List SendRes) (body : List Byte)
    (hb : w.registration w.builds = some body) (hacc : reg.all SendRes.accepts = true)
    (hl : 4 + body.length ≤ reg.length) :
    (write_registration w reg).written = w.written ++ frame body := by
  have hb' : (build_registration w).1 = some body := hb
  obtain ⟨a1, a2, a3, a4⟩ := raw_send_accepts reg (len_buf body.length)
    (build_registration w).2 hacc (by rw [len_buf_length]; omega)
  rw [len_buf_length] at a4
  obtain ⟨_, b2, _, _⟩ := raw_send_accepts
    (raw_send (build_registration w).2 (len_buf body.length) reg).2.2 body
    (raw_send (build_registration w).2 (len_buf body.length) reg).2.1 a3 (by omega)
  unfold write_registration
  simp only [hb', a1, if_true]
  rw [b2, a2, frame, List.append_assoc]
  rfl

theorem reconnect_loop_success (force : Bool) (reg : List SendRes) (rest fails : List ConnRes) :
    ∀ (c : Client) (w : World), c.running = true → (∀ r ∈ fails, r.isOk = false) →
      reconnect_loop force c w (fails ++ ConnRes.ok reg :: rest) =
        (0, { c with sockfd := Int.ofNat w.wire.length, is_connected := true },
          if (need_send_registration force
                { c with sockfd := Int.ofNat w.wire.length, is_connected := true }
                { w with connects := rest, wire := [] :: w.wire }).1
          then write_registration (need_send_registration force
                { c with sockfd := Int.ofNat w.wire.length, is_connected := true }
                { w with connects := rest, wire := [] :: w.wire }).2 reg
          else (need_send_registration force
                { c with sockfd := Int.ofNat w.wire.length, is_connected := true }
                { w with connects := rest, wire := [] :: w.wire }).2) := by
  induction fails with
  | nil =>
    intro c w hrun _
    simp [reconnect_loop, hrun, connect_with_timeout, ConnRes.regScript]
  | cons f fs ih =>
    intro c w hrun hf
    have hf1 : f.isOk = false := hf f (List.mem_cons_self _ _)
    have hfs : ∀ r ∈ fs, r.isOk = false := fun r hr => hf r (List.mem_cons_of_mem _ hr)
    cases f with
    | ok s => simp [ConnRes.isOk] at hf1
    | badConfig =>
      have := ih c { w with connects := fs ++ ConnRes.ok reg :: rest } hrun hfs
      simpa [reconnect_loop, hrun, connect_with_timeout] using this
    | fail =>
      have := ih { c with sockfd := -1 } { w with connects := fs ++ ConnRes.ok reg :: rest }
        hrun hfs
      simpa [reconnect_loop, hrun, connect_with_timeout] using this

theorem close_socket_world (c : Client) (w : World) :
    (close_socket c w).2.connects = w.connects ∧ (close_socket c w).2.wire = w.wire ∧
    (close_socket c w).2.builds = w.builds ∧
    (close_socket c w).2.registration = w.registration ∧
    (close_socket c w).1.running = c.running := by
  unfold close_socket record_disconnect_time
  by_cases hfd : c.sockfd ≥ 0 <;> cases hv : c.disconnect_time_valid <;> simp [hfd, hv, now]

/-- C5 (as stated, refuted). A forced reconnect that succeeds returns 0 without a
Registration on the new connection when the first `send` of the length prefix fails on the
fresh socket (the loop is left with `break`), and likewise when
`sapient_build_registration` fails: in both runs the new connection carries no byte. -/
theorem forced_reconnect_without_registration :
    (reconnect_with_backoff true Client.online
        (World.sample 0 [ConnRes.ok [SendRes.connErr]] (some [9, 9]) none)).1 = 0 ∧
    (reconnect_with_backoff true Client.online
        (World.sample 0 [ConnRes.ok [SendRes.connErr]] (some [9, 9]) none)).2.2.wire
      = [[], []] ∧
    (reconnect_with_backoff true Client.online
        (World.sample 0 [ConnRes.ok [SendRes.ok 4, SendRes.ok 2]] none none)).1 = 0 ∧
    (reconnect_with_backoff true Client.online
        (World.sample 0 [ConnRes.ok [SendRes.ok 4, SendRes.ok 2]] none none)).2.2.wire
      = [[], []] := by
  decide

/-- C5 (amended). On every successful reconnect performed by `reconnect_with_backoff(force)`
(the receive thread is running and the connect script reaches a successful attempt),
the client builds a Registration and starts writing its frame exactly when `force` is
true or the whole seconds between the recorded disconnect instant and the clock
reading taken after the successful connect are at least 120.  When neither holds no
byte is written on the new connection; when one holds, the build succeeds and the
socket accepts the bytes, the new connection carries exactly the Registration frame. -/
theorem reconnect_registration_rule (force : Bool) (c : Client) (w : World)
    (reg : List SendRes) (fails rest : List ConnRes)
    (hrun : c.running = true) (hconn : w.connects = fails ++ ConnRes.ok reg :: rest)
    (hfails : ∀ r ∈ fails, r.isOk = false) :
    (reconnect_with_backoff force c w).1 = 0 ∧
    (reconnect_with_backoff force c w).2.2.wire.tail = w.wire ∧
    ((reconnect_with_backoff force c w).2.2.builds = w.builds + 1 ↔
      (force = true ∨
        elapsed_seconds ((close_socket c w).2.clock (close_socket c w).2.ticks)
          (close_socket c w).1.disconnect_time ≥ 120)) ∧
    (¬ (force = true ∨
        elapsed_seconds ((close_socket c w).2.clock (close_socket c w).2.ticks)
          (close_socket c w).1.disconnect_time ≥ 120) →
      (reconnect_with_backoff force c w).2.2.builds = w.builds ∧
      (reconnect_with_backoff force c w).2.2.written = []) ∧
    ((force = true ∨
        elapsed_seconds ((close_socket c w).2.clock (close_socket c w).2.ticks)
          (close_socket c w).1.disconnect_time ≥ 120) →
      ∀ body, w.registration w.builds = some body → reg.all SendRes.accepts = true →
        4 + body.length ≤ reg.length →
        (reconnect_with_backoff force c w).2.2.written = frame body) := by
  obtain ⟨hc, hwire, hbuilds, hregfn, hr⟩ := close_socket_world c w
  have hv := close_socket_valid c w
  have hloop := reconnect_loop_success force reg rest fails (close_socket c w).1
    (close_socket c w).2 (hr.trans hrun) hfails
  unfold reconnect_with_backoff
  rw [hc, hconn, hloop]
  generalize close_socket c w = cw at hc hwire hbuilds hregfn hr hv hloop ⊢
  cases force with
  | true =>
    have hn : need_send_registration true
        { cw.1 with sockfd := Int.ofNat cw.2.wire.length, is_connected := true }
        { cw.2 with connects := rest, wire := [] :: cw.2.wire }
        = (true, { cw.2 with connects := rest, wire := [] :: cw.2.wire }) := by
      simp [need_send_registration, hv]
    rw [hn]
    simp only [if_true, true_or, iff_true, not_true_eq_false, false_imp_iff, true_imp_iff,
      true_and]
    obtain ⟨f1, f2⟩ := write_registration_frame
      { cw.2 with connects := rest, wire := [] :: cw.2.wire } reg
    refine ⟨?_, ?_, ?_⟩
    · rw [f2]; exact hwire
    · rw [f1]; exact congrArg (· + 1) hbuilds
    · intro body hb hacc hl
      have := write_registration_accepts
        { cw.2 with connects := rest, wire := [] :: cw.2.wire }
        reg body (by simp only [hbuilds, hregfn]; exact hb) hacc hl
      rw [this]
      simp [World.written]
  | false =>
    have hn : need_send_registration false
        { cw.1 with sockfd := Int.ofNat cw.2.wire.length, is_connected := true }
        { cw.2 with connects := rest, wire := [] :: cw.2.wire }
        = (decide (elapsed_seconds (cw.2.clock cw.2.ticks) cw.1.disconnect_time ≥ 120),
            { cw.2 with connects := rest, wire := [] :: cw.2.wire, ticks := cw.2.ticks + 1 }) := by
      simp [need_send_registration, hv, now]
    rw [hn]
    simp only [Bool.false_eq_true, false_or]
    by_cases he : elapsed_seconds (cw.2.clock cw.2.ticks) cw.1.disconnect_time ≥ 120
    · simp only [he, decide_True, if_true, iff_true, not_true_eq_false, false_imp_iff,
        true_imp_iff, true_and]
      obtain ⟨f1, f2⟩ := write_registration_frame
        { cw.2 with connects := rest, wire := [] :: cw.2.wire, ticks := cw.2.ticks + 1 } reg
      refine ⟨?_, ?_, ?_⟩
      · rw [f2]; exact hwire
      · rw [f1]; exact congrArg (· + 1) hbuilds
      · intro body hb hacc hl
        have := write_registration_accepts
          { cw.2 with connects := rest, wire := [] :: cw.2.wire, ticks := cw.2.ticks + 1 }
          reg body (by simp only [hbuilds, hregfn]; exact hb) hacc hl
        rw [this]
        simp [World.written]
    · simp only [he, decide_False, Bool.false_eq_true, if_false, iff_false, not_false_eq_true,
        true_imp_iff, false_imp_iff, and_true, true_and]
      refine ⟨hwire, ?_, hbuilds, ?_⟩
      · rw [hbuilds]; omega
      · simp [World.written]

/-- A reconnect 120 s after the recorded disconnect, reached at the second attempt and
not forced, writes the Registration frame on the new connection. -/
theorem reconnect_registration_rule_witness :
    (reconnect_with_backoff false
        { Client.online with disconnect_time := -120000000000, disconnect_time_valid := true }
        (World.sample 0 [ConnRes.fail, ConnRes.ok (List.replicate 6 (SendRes.ok 4))]
          (some [9, 9]) none)).2.2.written = frame [9, 9] :=
  (reconnect_registration_rule false
    { Client.online with disconnect_time := -120000000000, disconnect_time_valid := true }
    (World.sample 0 [ConnRes.fail, ConnRes.ok (List.replicate 6 (SendRes.ok 4))]
      (some [9, 9]) none)
    (List.replicate 6 (SendRes.ok 4)) [ConnRes.fail] [] (by decide) (by decide)
    (by decide)).2.2.2.2
    (Or.inr (by decide)) [9, 9] rfl (by decide) (by decide)

/-! ## The registration watchdog -/

/-- C6 (evaluation of the code). The client has been awaiting a RegistrationAck for 30 s.
The check of the receive worker fires, reconnects by force and the Registration frame
(body `[9, 9]`) is written on the new connection; afterwards the client is not awaiting
an ack and `registration_sent_time` still is the instant of the first Registration, so
no later check fires, at whatever clock reading. -/
theorem reconnect_registration_skips_watchdog :
    (check_registration_ack_timeout 0
        { Client.online with waiting_for_registration_ack := true,
                             registration_sent_time := -30000000000 }
        (World.sample 0 [ConnRes.ok [SendRes.ok 4, SendRes.ok 2]] (some [9, 9]) none)).1
      = true ∧
    (check_registration_ack_timeout 0
        { Client.online with waiting_for_registration_ack := true,
                             registration_sent_time := -30000000000 }
        (World.sample 0 [ConnRes.ok [SendRes.ok 4, SendRes.ok 2]] (some [9, 9]) none)).2.2.2.wire
      = [[2, 0, 0, 0, 9, 9], []] ∧
    (check_registration_ack_timeout 0
        { Client.online with waiting_for_registration_ack := true,
                             registration_sent_time := -30000000000 }
        (World.sample 0 [ConnRes.ok [SendRes.ok 4, SendRes.ok 2]] (some [9, 9]) none)).2.2.1
      = { Client.online with sockfd := 1, disconnect_time_valid := true,
                             registration_sent_time := -30000000000 } ∧
    (∀ (ce : Nat) (w : World),
      check_registration_ack_timeout ce
        { Client.online with sockfd := 1, disconnect_time_valid := true,
                             registration_sent_time := -30000000000 } w
      = (false, ce, { Client.online with sockfd := 1, disconnect_time_valid := true,
                                         registration_sent_time := -30000000000 }, w)) := by
  refine ⟨by decide, by decide, by decide, ?_⟩
  intro ce w
  rfl

/-- C7 (as stated, refuted). `send_register` on a client that is not awaiting an ack, with a
Registration that builds and a `send` that fails: it returns `-1`, no byte has been
written, and the client is left awaiting a RegistrationAck. -/
theorem send_register_failed_write_awaits :
    Client.online.waiting_for_registration_ack = false ∧
    (send_register Client.online (World.sample 5 [] (some [9, 9]) none)
        [SendRes.otherErr]).ret = -1 ∧
    (send_register Client.online (World.sample 5 [] (some [9, 9]) none)
        [SendRes.otherErr]).w.wire = [[]] ∧
    (send_register Client.online (World.sample 5 [] (some [9, 9]) none)
        [SendRes.otherErr]).c.waiting_for_registration_ack = true := by
  decide

theorem ClientOp.run_waiting (op : ClientOp) (c : Client) (w : World)
    (hop : op.isSendRegister = false) (h : c.waiting_for_registration_ack = false) :
    (op.run c w).1.waiting_for_registration_ack = false := by
  cases op with
  | close => exact (close_socket_kept c w).2.2.2.trans h
  | connect r => exact (connect_with_timeout_kept c w r).2.2.2.trans h
  | reconnect force => exact (reconnect_with_backoff_kept force c w).2.2.2.trans h
  | sendAll data sends => exact (send_all_impl_kept c w data sends).2.2.2.trans h
  | sendPb data sends => exact (send_pb_impl_kept c w data sends).2.2.2.trans h
  | sendRegister sends => simp [ClientOp.isSendRegister] at hop
  | sendStatusReport sends => exact (send_status_report_kept c w sends).2.2.2.trans h
  | getDisconnectElapsed => exact h
  | markAck => simp [ClientOp.run, mark_registration_ack_received, h]
  | ackCheck ce => simp [ClientOp.run, check_registration_ack_timeout, h]
  | receiveResult ret ce =>
    simp only [ClientOp.run, on_receive_result]
    split
    · split
      · have h1 : c.kept ({ c with is_connected := false } : Client) := by simp [Client.kept]
        exact (Client.kept_trans (Client.kept_trans h1 (record_disconnect_time_kept _ w))
          (reconnect_with_backoff_kept false _ _)).2.2.2.trans h
      · exact h
    · exact h
  | startReceive =>
    simp only [ClientOp.run, start_receive_thread]
    split
    · exact h
    · split <;> exact h
  | stopReceive =>
    simp only [ClientOp.run, stop_receive_thread]
    split <;> exact h

/-- C7 (amended). The awaiting-ack state is entered by `send_register` only, once the
Registration is built and before its frame is written: no other operation changes
`waiting_for_registration_ack` from false to true; when the build fails the client is
unchanged; when the build succeeds the client is awaiting an ack as `send_register`
returns, with `registration_sent_time` the clock reading taken before the write, whatever
`send_pb` returned; and when the connection is up and accepts the bytes the complete
Registration frame has been written and `send_register` returns 0. -/
theorem awaiting_ack_entered_by_send_register (c : Client) (w : World) :
    (∀ (op : ClientOp), op.isSendRegister = false → c.waiting_for_registration_ack = false →
      (op.run c w).1.waiting_for_registration_ack = false) ∧
    (∀ sends, w.registration w.builds = none →
      (send_register c w sends).ret = -1 ∧ (send_register c w sends).c = c) ∧
    (∀ sends body, w.registration w.builds = some body →
      (send_register c w sends).c.waiting_for_registration_ack = true ∧
      (send_register c w sends).c.registration_sent_time = w.clock w.ticks ∧
      (0 ≤ c.sockfd → c.is_connected = true → sends.all SendRes.accepts = true →
        4 + body.length ≤ sends.length →
        (send_register c w sends).ret = 0 ∧
        (send_register c w sends).w.written = w.written ++ frame body)) := by
  refine ⟨fun op hop h => ClientOp.run_waiting op c w hop h, ?_, ?_⟩
  · intro sends hb
    have hb' : (build_registration w).1 = none := hb
    simp [send_register, hb']
  · intro sends body hb
    have hb' : (build_registration w).1 = some body := hb
    have hk := send_pb_impl_kept
      { c with registration_sent_time := (now (build_registration w).2).1,
               registration_ack_received := false, waiting_for_registration_ack := true }
      (now (build_registration w).2).2 body sends
    refine ⟨?_, ?_, ?_⟩
    · simp only [send_register, hb']
      exact hk.2.2.2
    · simp only [send_register, hb']
      exact hk.2.1
    · intro hfd hc hacc hl
      obtain ⟨a1, _, a3, _⟩ := send_pb_impl_accepts
        { c with registration_sent_time := (now (build_registration w).2).1,
                 registration_ack_received := false, waiting_for_registration_ack := true }
        (now (build_registration w).2).2 body sends hfd hc hacc hl
      simp only [send_register, hb']
      exact ⟨a1, a3⟩

/-! ## Status change detection -/

theorem StatusSnapshot.eq_self (s : StatusSnapshot) : s.eq s = true := by
  simp [StatusSnapshot.eq, POSITION_EPSILON, ANGLE_EPSILON, TEMP_EPSILON]

theorem StatusSnapshot.eq_false_of_differs (a b : StatusSnapshot) (h : a.differs b) :
    a.eq b = false := by
  unfold StatusSnapshot.differs at h
  unfold StatusSnapshot.eq
  simp only [Bool.and_eq_false_iff, decide_eq_false_iff_not, not_lt]
  tauto

/-- C12. Status change detection: after a status report has been built from a snapshot
`s`, whatever snapshot was stored before, a build from the same `s` gives
`INFO_UNCHANGED` and leaves the stored snapshot as it is; a build from a snapshot that
differs from the stored one in some field (any difference in `sysStatus`, `faultCount`,
`maxFaultLevel`, `trackEnabled`, `otmMode`, `filterLevel`, `weatherClutterFilter`; at
least 1e-5 in longitude, latitude or altitude, 0.1 in heading, pitch or roll, 5 in
temperature) gives `INFO_NEW` and stores it, and the next build from it gives
`INFO_UNCHANGED` again. -/
theorem status_change_detection (last s : StatusSnapshot) :
    (status_info (status_info last s).2 s).1 = Info.INFO_UNCHANGED ∧
    (status_info (status_info last s).2 s).2 = (status_info last s).2 ∧
    (s.differs last →
      status_info last s = (Info.INFO_NEW, s) ∧
      status_info s s = (Info.INFO_UNCHANGED, s)) := by
  have hself : status_info s s = (Info.INFO_UNCHANGED, s) := by
    simp [status_info, StatusSnapshot.eq_self]
  refine ⟨?_, ?_, ?_⟩
  · by_cases h : s.eq last = true
    · simp [status_info, h]
    · simp [status_info, h, StatusSnapshot.eq_self]
  · by_cases h : s.eq last = true
    · simp [status_info, h]
    · simp [status_info, h, StatusSnapshot.eq_self]
  · intro hd
    have := StatusSnapshot.eq_false_of_differs s last hd
    exact ⟨by simp [status_info, this], hself⟩

/-! ## Node id -/

theorem range16 : List.range 16 = [0, 1, 2, 3, 4, 5, 6, 7, 8, 9, 10, 11, 12, 13, 14, 15] := by
  decide

theorem generateUUIDv4_eq (rnd : Nat → Nat) :
    generateUUIDv4 rnd =
      hex2 (rnd 0 % 256) ++ hex2 (rnd 1 % 256) ++ hex2 (rnd 2 % 256) ++ hex2 (rnd 3 % 256) ++
      '-' :: (hex2 (rnd 4 % 256) ++ hex2 (rnd 5 % 256)) ++
      '-' :: (hex2 ((rnd 6 % 256 &&& 0x0F) ||| 0x40) ++ hex2 (rnd 7 % 256)) ++
      '-' :: (hex2 ((rnd 8 % 256 &&& 0x3F) ||| 0x80) ++ hex2 (rnd 9 % 256)) ++
      '-' :: (hex2 (rnd 10 % 256) ++ hex2 (rnd 11 % 256) ++ hex2 (rnd 12 % 256) ++
        hex2 (rnd 13 % 256) ++ hex2 (rnd 14 % 256) ++ hex2 (rnd 15 % 256)) := by
  simp only [generateUUIDv4, uuid_bytes_to_string, range16, List.map_cons, List.map_nil,
    List.flatMap_cons, List.flatMap_nil]
  simp [hex2]

theorem hex_digit_ne_newline (n : Nat) : hex_digit n ≠ '\n' := by
  have h : ∀ m, m < 16 → hex_digit m ≠ '\n' := by decide
  have : hex_digit n = hex_digit (n % 16) := by simp [hex_digit]
  rw [this]
  exact h _ (Nat.mod_lt _ (by decide))

theorem version_nibble (b : Nat) : ((b &&& 0x0F) ||| 0x40) % 256 / 16 = 4 := by
  have e : (0x0F : Nat) = 2 ^ 4 - 1 := by norm_num
  have h : (b &&& 0x0F) ||| 0x40 = 2 ^ 6 * 1 + b % 2 ^ 4 := by
    rw [e, Nat.and_pow_two_sub_one_eq_mod, Nat.or_comm]
    have hlt : b % 2 ^ 4 < 2 ^ 6 := by omega
    exact (Nat.mul_add_lt_is_or hlt 1).symm
  rw [h]
  omega

theorem variant_nibble (b : Nat) :
    ((b &&& 0x3F) ||| 0x80) % 256 / 16 = 8 ∨ ((b &&& 0x3F) ||| 0x80) % 256 / 16 = 9 ∨
    ((b &&& 0x3F) ||| 0x80) % 256 / 16 = 10 ∨ ((b &&& 0x3F) ||| 0x80) % 256 / 16 = 11 := by
  have e : (0x3F : Nat) = 2 ^ 6 - 1 := by norm_num
  have h : (b &&& 0x3F) ||| 0x80 = 2 ^ 7 * 1 + b % 2 ^ 6 := by
    rw [e, Nat.and_pow_two_sub_one_eq_mod, Nat.or_comm]
    have hlt : b % 2 ^ 6 < 2 ^ 7 := by omega
    exact (Nat.mul_add_lt_is_or hlt 1).symm
  rw [h]
  omega
theorem hex_digit_lower (n : Nat) : hex_digit n ∈ "0123456789abcdef".toList := by
  have h : ∀ m, m < 16 → hex_digit m ∈ "0123456789abcdef".toList := by decide
  have : hex_digit n = hex_digit (n % 16) := by simp [hex_digit]
  rw [this]
  exact h _ (Nat.mod_lt _ (by decide))

theorem takeWhile_line (l r : List Char) (h : ∀ c ∈ l, c ≠ '\n') :
    (l ++ '\n' :: r).takeWhile (· ≠ '\n') = l := by
  induction l with
  | nil => simp
  | cons a l ih =>
    have ha : a ≠ '\n' := h a (List.mem_cons_self _ _)
    have := ih (fun c hc => h c (List.mem_cons_of_mem _ hc))
    have hp : decide (a ≠ '\n') = true := decide_eq_true ha
    simp only [List.cons_append, List.takeWhile_cons, hp, if_true, this]

theorem generateUUIDv4_chars (rnd : Nat → Nat) :
    ∀ c ∈ generateUUIDv4 rnd, c = '-' ∨ c ∈ "0123456789abcdef".toList := by
  intro c hc
  rw [generateUUIDv4_eq] at hc
  simp only [hex2, List.mem_append, List.mem_cons, List.mem_singleton, List.cons_append,
    List.nil_append, List.not_mem_nil, or_false] at hc
  rcases hc with h | h | h | h | h | h | h | h | h | h | h | h | h | h | h | h | h | h | h | h |
    h | h | h | h | h | h | h | h | h | h | h | h | h | h | h | h <;>
    first
    | exact Or.inl h
    | exact Or.inr (h ▸ hex_digit_lower _)

theorem generateUUIDv4_shape (rnd : Nat → Nat) :
    (generateUUIDv4 rnd).length = 36 ∧
    (generateUUIDv4 rnd).getD 8 ' ' = '-' ∧ (generateUUIDv4 rnd).getD 13 ' ' = '-' ∧
    (generateUUIDv4 rnd).getD 18 ' ' = '-' ∧ (generateUUIDv4 rnd).getD 23 ' ' = '-' ∧
    (generateUUIDv4 rnd).getD 14 ' ' = '4' ∧
    ((generateUUIDv4 rnd).getD 19 ' ' = '8' ∨ (generateUUIDv4 rnd).getD 19 ' ' = '9' ∨
      (generateUUIDv4 rnd).getD 19 ' ' = 'a' ∨ (generateUUIDv4 rnd).getD 19 ' ' = 'b') := by
  rw [generateUUIDv4_eq]
  simp only [hex2, List.cons_append, List.nil_append, List.length_cons, List.length_nil,
    List.getD_cons_succ, List.getD_cons_zero]
  refine ⟨by norm_num, trivial, trivial, trivial, trivial, ?_, ?_⟩
  · rw [version_nibble]; decide
  · rcases variant_nibble (rnd 8 % 256) with h | h | h | h <;> rw [h]
    · left; decide
    · right; left; decide
    · right; right; left; decide
    · right; right; right; decide

theorem generateUUIDv4_no_newline (rnd : Nat → Nat) : ∀ c ∈ generateUUIDv4 rnd, c ≠ '\n' := by
  intro c hc
  have hmem : ∀ d ∈ "0123456789abcdef".toList, d ≠ '\n' := by decide
  rcases generateUUIDv4_chars rnd c hc with h | h
  · rw [h]; decide
  · exact hmem c h

theorem readNodeIDFromFile_written (rnd : Nat → Nat) (file : Option (List Char)) :
    readNodeIDFromFile (writeNodeIDToFile file (generateUUIDv4 rnd) WriteRes.written).2
      = generateUUIDv4 rnd := by
  obtain ⟨h1, h2, h3, h4, h5, _, _⟩ := generateUUIDv4_shape rnd
  have hl : (generateUUIDv4 rnd ++ ['\n']).takeWhile (· ≠ '\n') = generateUUIDv4 rnd :=
    takeWhile_line _ [] (generateUUIDv4_no_newline rnd)
  simp only [writeNodeIDToFile, readNodeIDFromFile, hl, h1, h2, h3, h4, h5, and_self, if_true]

/-- C14. NodeId persistence round trip: for every outcome of the random generator the string
`generateUUIDv4` produces has 36 characters, all lowercase hexadecimal digits or hyphens,
with hyphens at indices 8, 13, 18 and 23, the digit `4` at index 14 and one of `8`, `9`,
`a`, `b` at index 19; once `writeNodeIDToFile` has written it (the string and a newline),
`readNodeIDFromFile` returns exactly that string, and `generateNodeID` in a process
started with that file (empty cache) returns it again, whatever the random generator
would give. -/
theorem node_id_round_trip (rnd : Nat → Nat) :
    (generateUUIDv4 rnd).length = 36 ∧
    (∀ c ∈ generateUUIDv4 rnd, c = '-' ∨ c ∈ "0123456789abcdef".toList) ∧
    (generateUUIDv4 rnd).getD 8 ' ' = '-' ∧ (generateUUIDv4 rnd).getD 13 ' ' = '-' ∧
    (generateUUIDv4 rnd).getD 18 ' ' = '-' ∧ (generateUUIDv4 rnd).getD 23 ' ' = '-' ∧
    (generateUUIDv4 rnd).getD 14 ' ' = '4' ∧
    ((generateUUIDv4 rnd).getD 19 ' ' = '8' ∨ (generateUUIDv4 rnd).getD 19 ' ' = '9' ∨
      (generateUUIDv4 rnd).getD 19 ' ' = 'a' ∨ (generateUUIDv4 rnd).getD 19 ' ' = 'b') ∧
    (∀ file, readNodeIDFromFile
        (writeNodeIDToFile file (generateUUIDv4 rnd) WriteRes.written).2 = generateUUIDv4 rnd) ∧
    (∀ file rnd2 r2,
      (generateNodeID rnd2 r2
        ⟨[], false, (writeNodeIDToFile file (generateUUIDv4 rnd) WriteRes.written).2⟩).1
        = generateUUIDv4 rnd) := by
  obtain ⟨h1, h2, h3, h4, h5, h6, h7⟩ := generateUUIDv4_shape rnd
  refine ⟨h1, generateUUIDv4_chars rnd, h2, h3, h4, h5, h6, h7,
    readNodeIDFromFile_written rnd, ?_⟩
  intro file rnd2 r2
  have hr := readNodeIDFromFile_written rnd file
  have hne : generateUUIDv4 rnd ≠ [] := by
    intro h
    rw [h] at h1
    simp at h1
  simp [generateNodeID, hr, hne]

/-! ## Object ids -/

theorem map_find_assign_same (m : List (Nat × String)) (id : Nat) (v : String) :
    map_find (map_assign m id v) id = some v := by
  induction m with
  | nil => simp [map_assign, map_find]
  | cons kv rest ih =>
    obtain ⟨k, old⟩ := kv
    by_cases h : k = id
    · simp [map_assign, map_find, h]
    · simp [map_assign, map_find, h, ih]

theorem map_find_assign_other (m : List (Nat × String)) (id other : Nat) (v : String)
    (h : other ≠ id) : map_find (map_assign m id v) other = map_find m other := by
  induction m with
  | nil => simp [map_assign, map_find, Ne.symm h]
  | cons kv rest ih =>
    obtain ⟨k, old⟩ := kv
    by_cases hk : k = id
    · have hko : ¬ k = other := by rw [hk]; exact Ne.symm h
      simp [map_assign, map_find, hk, Ne.symm h]
    · simp [map_assign, map_find, hk, ih]

theorem detection_ids_track (ulid : Nat → String) (st : ObjectIds) (id : Nat) :
    (detection_ids ulid st id).1.track_id = id := by
  unfold detection_ids
  split <;> rfl

theorem detection_ids_sets (ulid : Nat → String) (st : ObjectIds) (id : Nat) :
    map_find (detection_ids ulid st id).2.track_id_to_objectid id
      = some (detection_ids ulid st id).1.object_id := by
  unfold detection_ids
  split
  · assumption
  · exact map_find_assign_same _ _ _

theorem detection_ids_keeps (ulid : Nat → String) (st : ObjectIds) (id other : Nat)
    (o : String) (h : map_find st.track_id_to_objectid id = some o) :
    map_find (detection_ids ulid st other).2.track_id_to_objectid id = some o ∧
    (other = id → (detection_ids ulid st other).1.object_id = o) := by
  unfold detection_ids
  split
  · rename_i found hf
    refine ⟨h, fun ho => ?_⟩
    rw [ho, h] at hf
    exact (Option.some.inj hf).symm
  · rename_i hf
    have hne : id ≠ other := by
      intro ho
      rw [ho] at h
      rw [h] at hf
      cases hf
    refine ⟨?_, fun ho => absurd ho.symm hne⟩
    rw [map_find_assign_other _ _ _ _ hne]
    exact h

theorem detection_ids_all_keeps (ulid : Nat → String) (id : Nat) (o : String)
    (ids : List Nat) :
    ∀ st : ObjectIds, map_find st.track_id_to_objectid id = some o →
      map_find (detection_ids_all ulid st ids).2.track_id_to_objectid id = some o ∧
      ∀ r ∈ (detection_ids_all ulid st ids).1, r.track_id = id → r.object_id = o := by
  induction ids with
  | nil => intro st h; exact ⟨h, by simp [detection_ids_all]⟩
  | cons x xs ih =>
    intro st h
    obtain ⟨k1, k2⟩ := detection_ids_keeps ulid st id x o h
    obtain ⟨i1, i2⟩ := ih (detection_ids ulid st x).2 k1
    refine ⟨i1, ?_⟩
    intro r hr ht
    simp only [detection_ids_all, List.mem_cons] at hr
    rcases hr with hr | hr
    · rw [hr] at ht ⊢
      rw [detection_ids_track] at ht
      exact k2 ht
    · exact i2 r hr ht

/-- C13. ObjectId stability: in every sequence of detection-report builds any two reports
for the same track id carry the same `object_id`; it is the ULID generated when the
first report for that track was built (the second `generate_ulid` call of that build),
whatever reports for other tracks are built in between, and an entry of the table is
never overwritten or removed. -/
theorem object_id_stable (ulid : Nat → String) (st : ObjectIds) :
    (∀ ids : List Nat, (detection_ids_all ulid st ids).1.Pairwise
      (fun a b => a.track_id = b.track_id → a.object_id = b.object_id)) ∧
    (∀ (id : Nat) (ids : List Nat), map_find st.track_id_to_objectid id = none →
      (detection_ids ulid st id).1.object_id = ulid (st.ulids + 1) ∧
      ∀ r ∈ (detection_ids_all ulid (detection_ids ulid st id).2 ids).1,
        r.track_id = id → r.object_id = ulid (st.ulids + 1)) ∧
    (∀ (id : Nat) (o : String) (ids : List Nat), map_find st.track_id_to_objectid id = some o →
      map_find (detection_ids_all ulid st ids).2.track_id_to_objectid id = some o) := by
  refine ⟨?_, ?_, ?_⟩
  · intro ids
    induction ids generalizing st with
    | nil => simp [detection_ids_all]
    | cons x xs ih =>
      simp only [detection_ids_all, List.pairwise_cons]
      refine ⟨?_, ih _⟩
      intro r hr ht
      rw [detection_ids_track] at ht
      exact ((detection_ids_all_keeps ulid x _ xs _ (detection_ids_sets ulid st x)).2 r hr
        ht.symm).symm
  · intro id ids hnone
    have ho : (detection_ids ulid st id).1.object_id = ulid (st.ulids + 1) := by
      simp [detection_ids, hnone]
    refine ⟨ho, ?_⟩
    intro r hr ht
    rw [← ho]
    exact (detection_ids_all_keeps ulid id _ ids _ (detection_ids_sets ulid st id)).2 r hr ht
  · intro id o ids h
    exact (detection_ids_all_keeps ulid id o ids st h).1

/-! ## ENU velocity -/

theorem limit_velocity_eq (x : ℚ) : limit_velocity x = max (-100) (min 100 x) := by
  unfold limit_velocity MIN_VELOCITY MAX_VELOCITY
  split_ifs with h1 h2
  · rw [min_eq_right (by linarith), max_eq_left (by linarith)]
  · rw [min_eq_left (by linarith), max_eq_right (by norm_num)]
  · rw [min_eq_right (by linarith), max_eq_right (by linarith)]

/-- C15. ENU conversion: for every track whose NWU velocity `(vx, vy, vz)` is not all zero
an ENU velocity is emitted with east = clamp(-vy), north = clamp(vx), up = clamp(vz),
the clamp being to `[-100, 100]`, except that an east or north component of magnitude
below 0.0001 is replaced by 0.001; each of the three error components is
`max(0.5, sqrt(vx_variance))`. -/
theorem enu_conversion (sqrt : ℚ → ℚ) (vx vy vz vx_variance : ℚ)
    (h : vx ≠ 0 ∨ vy ≠ 0 ∨ vz ≠ 0) :
    ∃ v, enu_velocity sqrt vx vy vz vx_variance = some v ∧
      (|max (-100) (min 100 (-vy))| < 1 / 10000 → v.east_rate = 1 / 1000) ∧
      (¬ |max (-100) (min 100 (-vy))| < 1 / 10000 →
        v.east_rate = max (-100) (min 100 (-vy))) ∧
      (|max (-100) (min 100 vx)| < 1 / 10000 → v.north_rate = 1 / 1000) ∧
      (¬ |max (-100) (min 100 vx)| < 1 / 10000 → v.north_rate = max (-100) (min 100 vx)) ∧
      v.up_rate = max (-100) (min 100 vz) ∧
      v.east_rate_error = max (1 / 2) (sqrt vx_variance) ∧
      v.north_rate_error = max (1 / 2) (sqrt vx_variance) ∧
      v.up_rate_error = max (1 / 2) (sqrt vx_variance) := by
  have herr : (if sqrt vx_variance < 1 / 2 then (1 / 2 : ℚ) else sqrt vx_variance)
      = max (1 / 2) (sqrt vx_variance) := by
    split_ifs with hs
    · rw [max_eq_left (le_of_lt hs)]
    · rw [max_eq_right (not_lt.mp hs)]
  have hsome : enu_velocity sqrt vx vy vz vx_variance
      = some ⟨avoid_zero (limit_velocity (-vy)), avoid_zero (limit_velocity vx),
          limit_velocity vz,
          if sqrt vx_variance < 1 / 2 then 1 / 2 else sqrt vx_variance,
          if sqrt vx_variance < 1 / 2 then 1 / 2 else sqrt vx_variance,
          if sqrt vx_variance < 1 / 2 then 1 / 2 else sqrt vx_variance⟩ := by
    simp only [enu_velocity, h, if_true]
  refine ⟨_, hsome, ?_, ?_, ?_, ?_, ?_, herr, herr, herr⟩
  · intro hz
    simp only [avoid_zero, limit_velocity_eq, hz, if_true, MIN_SPEED]
  · intro hz
    simp only [avoid_zero, limit_velocity_eq, hz, if_false]
  · intro hz
    simp only [avoid_zero, limit_velocity_eq, hz, if_true, MIN_SPEED]
  · intro hz
    simp only [avoid_zero, limit_velocity_eq, hz, if_false]
  · exact limit_velocity_eq vz

/-- The NWU velocity `(1, 1, 1)` is emitted as `(east, north, up) = (-1, 1, 1)`. -/
theorem enu_conversion_witness :
    ∃ v, enu_velocity (fun x => x) 1 1 1 (1 / 100) = some v ∧
      v.east_rate = -1 ∧ v.north_rate = 1 ∧ v.up_rate = 1 ∧ v.east_rate_error = 1 / 2 := by
  obtain ⟨v, hv, _, he, _, hn, hu, hee, _, _⟩ :=
    enu_conversion (fun x => x) 1 1 1 (1 / 100) (Or.inl one_ne_zero)
  refine ⟨v, hv, ?_, ?_, ?_, ?_⟩
  · rw [he (by norm_num [abs_of_neg])]; norm_num
  · rw [hn (by norm_num)]; norm_num
  · rw [hu]; norm_num
  · rw [hee]; norm_num

/-! ## Azimuth normalization -/

theorem round_ties_even_intCast (n : ℤ) : round_ties_even (n : ℚ) = n := by
  simp [round_ties_even]

theorem round_to_double_exact (m e : ℤ) (hm : |m| < 2 ^ 53) (he : -1074 ≤ e) :
    round_to_double ((m : ℚ) * 2 ^ e) = (m : ℚ) * 2 ^ e := by
  by_cases h0 : (m : ℚ) * 2 ^ e = 0
  · simp [round_to_double, h0]
  have h2 : (0 : ℚ) < 2 ^ e := zpow_pos (by norm_num) e
  have hlog : Int.log 2 |(m : ℚ) * 2 ^ e| < e + 53 := by
    have hlt : |(m : ℚ) * 2 ^ e| < ((2 : ℕ) : ℚ) ^ (e + 53) := by
      rw [Nat.cast_ofNat, abs_mul, abs_of_pos h2, zpow_add₀ (by norm_num), mul_comm]
      have hc : |(m : ℚ)| < 2 ^ 53 := by exact_mod_cast hm
      have : (2 : ℚ) ^ e * |(m : ℚ)| < 2 ^ e * 2 ^ 53 := mul_lt_mul_of_pos_left hc h2
      have h53 : (2 : ℚ) ^ (53 : ℤ) = 2 ^ (53 : ℕ) := by norm_num
      rw [h53]
      simpa using this
    exact (Int.lt_zpow_iff_log_lt (by norm_num) (abs_pos.mpr h0)).mp hlt
  have hE : max (Int.log 2 |(m : ℚ) * 2 ^ e|) (-1022) ≤ e + 52 := max_le (by omega) (by omega)
  unfold round_to_double
  rw [if_neg h0]
  generalize max (Int.log 2 |(m : ℚ) * 2 ^ e|) (-1022) = E at hE ⊢
  obtain ⟨k, hk⟩ : ∃ k : ℕ, e + 52 - E = (k : ℤ) := ⟨(e + 52 - E).toNat, by omega⟩
  have hdiv : (m : ℚ) * 2 ^ e / 2 ^ (E - 52) = ((m * 2 ^ k : ℤ) : ℚ) := by
    rw [mul_div_assoc, ← zpow_sub₀ (by norm_num)]
    have : e - (E - 52) = (k : ℤ) := by omega
    rw [this]
    push_cast
    rw [zpow_natCast]
  rw [hdiv, round_ties_even_intCast]
  push_cast
  rw [mul_assoc, ← zpow_natCast, ← zpow_add₀ (by norm_num)]
  have : (k : ℤ) + (E - 52) = e := by omega
  rw [this]

theorem double_add_absorbs : double_add (-2 ^ 70) 360 = -2 ^ 70 := by
  have hx : (-2 ^ 70 + 360 : ℚ) = -1180591620717411303064 := by norm_num
  have habs : |(-1180591620717411303064 : ℚ)| = ((1180591620717411303064 : ℕ) : ℚ) := by
    norm_num [abs_of_neg]
  have hlog : Int.log 2 |(-1180591620717411303064 : ℚ)| = 69 := by
    rw [habs, Int.log_natCast]
    exact_mod_cast Nat.log_eq_of_pow_le_of_lt_pow (by norm_num) (by norm_num)
  have hfloor : ⌊(-1180591620717411303064 : ℚ) / 2 ^ (17 : ℤ)⌋ = -9007199254740992 := by
    rw [Int.floor_eq_iff]
    constructor <;> norm_num
  unfold double_add round_to_double
  rw [hx, if_neg (by norm_num), hlog]
  have hmax : max (69 : ℤ) (-1022) - 52 = 17 := by decide
  rw [hmax]
  unfold round_ties_even
  rw [hfloor, if_pos (by norm_num)]
  norm_num

theorem raise_to_nonneg_absorbs (fuel : Nat) : raise_to_nonneg fuel (-2 ^ 70) = none := by
  induction fuel with
  | zero => norm_num [raise_to_nonneg]
  | succ n ih =>
    have hneg : (-2 ^ 70 : ℚ) < 0 := by norm_num
    simp only [raise_to_nonneg, hneg, if_true, double_add_absorbs, ih]

/-- The values `M / 2^g` for an integer `M`, with `360 = T / 2^g`. -/
theorem grid_lt_zero (g : ℕ) (M : ℤ) : (M : ℚ) * 2 ^ (-(g : ℤ)) < 0 ↔ M < 0 := by
  have h2 : (0 : ℚ) < 2 ^ (-(g : ℤ)) := zpow_pos (by norm_num) _
  constructor
  · intro h
    by_contra hn
    have : (0 : ℚ) ≤ (M : ℚ) := by exact_mod_cast not_lt.mp hn
    have := mul_nonneg this h2.le
    linarith
  · intro h
    have : (M : ℚ) < 0 := by exact_mod_cast h
    exact mul_neg_of_neg_of_pos this h2

theorem grid_360 (g : ℕ) : ((360 * 2 ^ g : ℤ) : ℚ) * 2 ^ (-(g : ℤ)) = 360 := by
  push_cast
  rw [mul_assoc, ← zpow_natCast, ← zpow_add₀ (by norm_num)]
  simp

theorem grid_ge_360 (g : ℕ) (M : ℤ) :
    (M : ℚ) * 2 ^ (-(g : ℤ)) ≥ 360 ↔ M ≥ 360 * 2 ^ g := by
  have h2 : (0 : ℚ) < 2 ^ (-(g : ℤ)) := zpow_pos (by norm_num) _
  rw [ge_iff_le, ← grid_360 g, mul_le_mul_right h2]
  exact_mod_cast Iff.rfl

theorem double_add_grid (g : ℕ) (hg : g ≤ 1074) (M N : ℤ) (h : |M + N| < 2 ^ 53) :
    double_add ((M : ℚ) * 2 ^ (-(g : ℤ))) ((N : ℚ) * 2 ^ (-(g : ℤ)))
      = ((M + N : ℤ) : ℚ) * 2 ^ (-(g : ℤ)) := by
  unfold double_add
  rw [← add_mul, ← Int.cast_add]
  exact round_to_double_exact (M + N) (-(g : ℤ)) h (by omega)

theorem double_sub_grid (g : ℕ) (hg : g ≤ 1074) (M N : ℤ) (h : |M - N| < 2 ^ 53) :
    double_sub ((M : ℚ) * 2 ^ (-(g : ℤ))) ((N : ℚ) * 2 ^ (-(g : ℤ)))
      = ((M - N : ℤ) : ℚ) * 2 ^ (-(g : ℤ)) := by
  unfold double_sub
  rw [← sub_mul, ← Int.cast_sub]
  exact round_to_double_exact (M - N) (-(g : ℤ)) h (by omega)

theorem raise_to_nonneg_grid (g : ℕ) (hg : g ≤ 1074) (h360 : (360 * 2 ^ g : ℤ) < 2 ^ 53)
    (n : Nat) :
    ∀ M : ℤ, |M| < 2 ^ 53 → -(360 * 2 ^ g * (n : ℤ)) ≤ M →
      ∃ k : ℕ, raise_to_nonneg n ((M : ℚ) * 2 ^ (-(g : ℤ)))
          = some (((M + 360 * 2 ^ g * (k : ℤ) : ℤ) : ℚ) * 2 ^ (-(g : ℤ))) ∧
        0 ≤ M + 360 * 2 ^ g * (k : ℤ) ∧
        (M < 0 → M + 360 * 2 ^ g * (k : ℤ) < 360 * 2 ^ g) ∧ (0 ≤ M → k = 0) := by
  induction n with
  | zero =>
    intro M _ hM
    have h0 : ¬ M < 0 := by simp at hM; omega
    have h0q : ¬ (M : ℚ) * 2 ^ (-(g : ℤ)) < 0 := fun h => h0 ((grid_lt_zero g M).mp h)
    exact ⟨0, by rw [raise_to_nonneg, if_neg h0q]; simp, by simp; omega, fun h => absurd h h0,
      fun _ => rfl⟩
  | succ n ih =>
    intro M hMb hM
    by_cases h0 : M < 0
    · have h0q : (M : ℚ) * 2 ^ (-(g : ℤ)) < 0 := (grid_lt_zero g M).mpr h0
      have hT : (0 : ℤ) < 360 * 2 ^ g := by positivity
      have hb : |M + 360 * 2 ^ g| < 2 ^ 53 := by
        rw [abs_lt] at hMb ⊢
        constructor <;> omega
      have hstep : double_add ((M : ℚ) * 2 ^ (-(g : ℤ))) 360
          = ((M + 360 * 2 ^ g : ℤ) : ℚ) * 2 ^ (-(g : ℤ)) := by
        have := double_add_grid g hg M (360 * 2 ^ g) hb
        rwa [grid_360] at this
      have hlow : -(360 * 2 ^ g * (n : ℤ)) ≤ M + 360 * 2 ^ g := by
        push_cast at hM
        nlinarith
      obtain ⟨k, hr, hpos, hlt, heq⟩ := ih (M + 360 * 2 ^ g) hb hlow
      refine ⟨k + 1, ?_, ?_, fun _ => ?_, fun h => absurd h0 (not_lt.mpr h)⟩
      · simp only [raise_to_nonneg, h0q, if_true, hstep, hr]
        congr 2
        push_cast
        ring
      · push_cast; linarith
      · by_cases h1 : M + 360 * 2 ^ g < 0
        · have := hlt h1
          push_cast; linarith
        · have hk := heq (not_lt.mp h1)
          subst hk
          push_cast; linarith
    · have h0q : ¬ (M : ℚ) * 2 ^ (-(g : ℤ)) < 0 := fun h => h0 ((grid_lt_zero g M).mp h)
      refine ⟨0, ?_, by simp; omega, fun h => absurd h h0, fun _ => rfl⟩
      rw [raise_to_nonneg, if_neg h0q]
      simp

theorem lower_below_360_grid (g : ℕ) (hg : g ≤ 1074) (n : Nat) :
    ∀ M : ℤ, 0 ≤ M → M < 2 ^ 53 → M < 360 * 2 ^ g * ((n : ℤ) + 1) →
      ∃ k : ℕ, lower_below_360 n ((M : ℚ) * 2 ^ (-(g : ℤ)))
          = some (((M - 360 * 2 ^ g * (k : ℤ) : ℤ) : ℚ) * 2 ^ (-(g : ℤ))) ∧
        0 ≤ M - 360 * 2 ^ g * (k : ℤ) ∧ M - 360 * 2 ^ g * (k : ℤ) < 360 * 2 ^ g := by
  induction n with
  | zero =>
    intro M h0 _ hM
    have h1 : ¬ M ≥ 360 * 2 ^ g := by simp at hM; omega
    have h1q : ¬ (M : ℚ) * 2 ^ (-(g : ℤ)) ≥ 360 := fun h => h1 ((grid_ge_360 g M).mp h)
    exact ⟨0, by rw [lower_below_360, if_neg h1q]; simp, by simp; omega, by simp; omega⟩
  | succ n ih =>
    intro M h0 hMb hM
    by_cases h1 : M ≥ 360 * 2 ^ g
    · have h1q : (M : ℚ) * 2 ^ (-(g : ℤ)) ≥ 360 := (grid_ge_360 g M).mpr h1
      have hT : (0 : ℤ) < 360 * 2 ^ g := by positivity
      have hb : |M - 360 * 2 ^ g| < 2 ^ 53 := by
        rw [abs_lt]
        constructor <;> omega
      have hstep : double_sub ((M : ℚ) * 2 ^ (-(g : ℤ))) 360
          = ((M - 360 * 2 ^ g : ℤ) : ℚ) * 2 ^ (-(g : ℤ)) := by
        have := double_sub_grid g hg M (360 * 2 ^ g) hb
        rwa [grid_360] at this
      have hup : M - 360 * 2 ^ g < 360 * 2 ^ g * ((n : ℤ) + 1) := by
        push_cast at hM
        nlinarith
      obtain ⟨k, hr, hpos, hlt⟩ := ih (M - 360 * 2 ^ g) (by omega) (by omega) hup
      refine ⟨k + 1, ?_, ?_, ?_⟩
      · simp only [lower_below_360, h1q, if_true, hstep, hr]
        congr 2
        push_cast
        ring
      · push_cast; linarith
      · push_cast; linarith
    · have h1q : ¬ (M : ℚ) * 2 ^ (-(g : ℤ)) ≥ 360 := fun h => h1 ((grid_ge_360 g M).mp h)
      refine ⟨0, ?_, by simp; omega, by simp; omega⟩
      rw [lower_below_360, if_neg h1q]
      simp


theorem double_add_rounds : double_add (2 ^ (-(60 : ℤ))) 10 = 10 := by
  have hx : ((2 : ℚ) ^ (-(60 : ℤ)) + 10) = 11529215046068469761 / 1152921504606846976 := by
    norm_num
  have hpos : (0 : ℚ) < 11529215046068469761 / 1152921504606846976 := by norm_num
  have hlog : Int.log 2 |(11529215046068469761 / 1152921504606846976 : ℚ)| = 3 := by
    rw [abs_of_pos hpos, Int.log_of_one_le_right 2 (by norm_num)]
    have hf : ⌊(11529215046068469761 / 1152921504606846976 : ℚ)⌋₊ = 10 := by
      rw [Nat.floor_eq_iff hpos.le]
      constructor <;> norm_num
    rw [hf]
    exact_mod_cast Nat.log_eq_of_pow_le_of_lt_pow (by norm_num) (by norm_num)
  have hfloor : ⌊(11529215046068469761 / 1152921504606846976 : ℚ) / 2 ^ (-(49 : ℤ))⌋
      = 5629499534213120 := by
    rw [Int.floor_eq_iff]
    constructor <;> norm_num
  unfold double_add round_to_double
  rw [hx, if_neg (ne_of_gt hpos), hlog]
  have hmax : max (3 : ℤ) (-1022) - 52 = -49 := by decide
  rw [hmax]
  unfold round_ties_even
  rw [hfloor, if_pos (by norm_num)]
  norm_num

/-- C16 (as stated, refuted). With the radar heading `-2^70`, a finite `double`, and track
azimuth 0, `a += 360.0` leaves `a = -2^70` unchanged and the first normalization loop
does not end, whatever the number of iterations allowed.  With track azimuth `2^-60` and
heading 10 the sum is rounded to 10, which is emitted, and `10 = 2^-60 + 10 + 360 k` holds
for no integer `k`. -/
theorem azimuth_loop_absorbs_360 :
    (∀ fuel : Nat, range_bearing_azimuth fuel 0 (-2 ^ 70) = none) ∧
    (∀ fuel : Nat, range_bearing_azimuth fuel (2 ^ (-(60 : ℤ))) 10 = some (some 10)) ∧
    (¬ ∃ k : ℤ, (10 : ℚ) = 2 ^ (-(60 : ℤ)) + 10 + 360 * (k : ℚ)) := by
  refine ⟨fun fuel => ?_, fun fuel => ?_, ?_⟩
  · have h0 : double_add 0 (-2 ^ 70) = -2 ^ 70 := by
      have := round_to_double_exact (-1) 70 (by decide) (by decide)
      have h70 : ((-1 : ℤ) : ℚ) * 2 ^ (70 : ℤ) = -2 ^ 70 := by norm_num
      rw [h70] at this
      unfold double_add
      rw [zero_add]
      exact this
    have hr : ((0 : ℚ) ≥ -60 ∧ (0 : ℚ) ≤ 60) := by norm_num
    simp only [range_bearing_azimuth, hr, and_self, if_true, h0, raise_to_nonneg_absorbs]
  · have hr : ((2 : ℚ) ^ (-(60 : ℤ)) ≥ -60 ∧ (2 : ℚ) ^ (-(60 : ℤ)) ≤ 60) := by norm_num
    have h1 : raise_to_nonneg fuel 10 = some 10 := by
      cases fuel <;> norm_num [raise_to_nonneg]
    have h2 : lower_below_360 fuel 10 = some 10 := by
      cases fuel <;> norm_num [lower_below_360]
    simp only [range_bearing_azimuth, hr, and_self, if_true, double_add_rounds, h1, h2]
  · rintro ⟨k, hk⟩
    have h1 : (415051741658464911360 : ℚ) * (k : ℚ) = -1 := by
      have h60 : (2 : ℚ) ^ (-(60 : ℤ)) = 1 / 1152921504606846976 := by norm_num
      rw [h60] at hk
      linarith
    have h2 : (415051741658464911360 : ℤ) * k = -1 := by exact_mod_cast h1
    omega

theorem round_ties_even_err (q : ℚ) : |((round_ties_even q : ℤ) : ℚ) - q| ≤ 1 / 2 := by
  have h1 := Int.floor_le q
  have h2 := Int.lt_floor_add_one q
  unfold round_ties_even
  rw [abs_le]
  split_ifs <;> push_cast <;> constructor <;> linarith

theorem round_ties_even_nonneg (q : ℚ) (h : 0 ≤ q) : 0 ≤ round_ties_even q := by
  have h1 : 0 ≤ ⌊q⌋ := Int.floor_nonneg.mpr h
  unfold round_ties_even
  split_ifs <;> omega

theorem round_to_double_nonneg (x : ℚ) (h : 0 ≤ x) : 0 ≤ round_to_double x := by
  unfold round_to_double
  split_ifs with h0
  · exact le_refl 0
  · apply mul_nonneg
    · exact_mod_cast round_ties_even_nonneg _ (div_nonneg h (zpow_pos (by norm_num) _).le)
    · exact (zpow_pos (by norm_num) _).le

theorem round_to_double_err (x : ℚ) (e : ℤ) (hx : |x| < 2 ^ (e + 1)) (he : -1022 ≤ e) :
    |round_to_double x - x| ≤ 2 ^ (e - 53) := by
  by_cases h0 : x = 0
  · subst h0
    simp only [round_to_double, if_true, sub_self, abs_zero]
    exact (zpow_pos (by norm_num) _).le
  have hlog : Int.log 2 |x| < e + 1 := by
    have hlt : |x| < ((2 : ℕ) : ℚ) ^ (e + 1) := by rw [Nat.cast_ofNat]; exact hx
    exact (Int.lt_zpow_iff_log_lt (by norm_num) (abs_pos.mpr h0)).mp hlt
  have hE : max (Int.log 2 |x|) (-1022) ≤ e := max_le (by omega) he
  unfold round_to_double
  rw [if_neg h0]
  generalize max (Int.log 2 |x|) (-1022) = E at hE ⊢
  have hu : (0 : ℚ) < 2 ^ (E - 52) := zpow_pos (by norm_num) _
  have herr := round_ties_even_err (x / 2 ^ (E - 52))
  have hrw : ((round_ties_even (x / 2 ^ (E - 52)) : ℤ) : ℚ) * 2 ^ (E - 52) - x
      = (((round_ties_even (x / 2 ^ (E - 52)) : ℤ) : ℚ) - x / 2 ^ (E - 52))
          * 2 ^ (E - 52) := by
    field_simp
  rw [hrw, abs_mul, abs_of_pos hu]
  have h53 : (2 : ℚ) ^ (E - 52) = 2 ^ (E - 53) * 2 := by
    rw [show E - 52 = (E - 53) + 1 by ring, zpow_add₀ (by norm_num)]
    norm_num
  calc |((round_ties_even (x / 2 ^ (E - 52)) : ℤ) : ℚ) - x / 2 ^ (E - 52)| * 2 ^ (E - 52)
      ≤ 1 / 2 * 2 ^ (E - 52) := mul_le_mul_of_nonneg_right herr hu.le
    _ = 2 ^ (E - 53) := by rw [h53]; ring
    _ ≤ 2 ^ (e - 53) := zpow_le_zpow_right₀ (by norm_num) (by omega)

theorem raise_to_nonneg_result (n : Nat) :
    ∀ a r : ℚ, raise_to_nonneg n a = some r → 0 ≤ r := by
  induction n with
  | zero =>
    intro a r h
    rw [raise_to_nonneg] at h
    split_ifs at h with h0
    cases h
    exact not_lt.mp h0
  | succ n ih =>
    intro a r h
    rw [raise_to_nonneg] at h
    split_ifs at h with h0
    · exact ih _ _ h
    · cases h
      exact not_lt.mp h0

theorem lower_below_360_result (n : Nat) :
    ∀ a r : ℚ, 0 ≤ a → lower_below_360 n a = some r → 0 ≤ r ∧ r < 360 := by
  induction n with
  | zero =>
    intro a r ha h
    rw [lower_below_360] at h
    split_ifs at h with h0
    cases h
    exact ⟨ha, not_le.mp h0⟩
  | succ n ih =>
    intro a r ha h
    rw [lower_below_360] at h
    split_ifs at h with h0
    · exact ih _ _ (round_to_double_nonneg _ (by linarith)) h
    · cases h
      exact ⟨ha, not_le.mp h0⟩

theorem range_bearing_azimuth_result (fuel : Nat) (azimuth h a : ℚ)
    (hlo : -60 ≤ azimuth) (hhi : azimuth ≤ 60)
    (hr : range_bearing_azimuth fuel azimuth h = some (some a)) : 0 ≤ a ∧ a < 360 := by
  unfold range_bearing_azimuth at hr
  rw [if_pos ⟨hlo, hhi⟩] at hr
  cases h1 : raise_to_nonneg fuel (double_add azimuth h) with
  | none => rw [h1] at hr; cases hr
  | some r =>
    rw [h1] at hr
    simp only at hr
    cases h2 : lower_below_360 fuel r with
    | none => rw [h2] at hr; cases hr
    | some b =>
      rw [h2] at hr
      have hb : b = a := by simpa using hr
      subst hb
      exact lower_below_360_result fuel r b (raise_to_nonneg_result fuel _ r h1) h2

theorem raise_to_nonneg_spec (δ B : ℚ) (hδ : δ ≤ 256) (hB : 360 ≤ B)
    (H : ∀ x : ℚ, |x| < B → |round_to_double x - x| ≤ δ) (n : Nat) :
    ∀ (fuel : Nat) (a : ℚ), n ≤ fuel → -B ≤ a → -((360 - δ) * (n : ℚ)) ≤ a →
      ∃ (r : ℚ) (k : ℕ), raise_to_nonneg fuel a = some r ∧ 0 ≤ r ∧
        |r - (a + 360 * (k : ℚ))| ≤ (k : ℚ) * δ ∧ (a < 0 → r < 360 + δ) ∧
        (0 ≤ a → r = a ∧ k = 0) ∧ k ≤ n := by
  induction n with
  | zero =>
    intro fuel a _ _ hn
    have h0 : ¬ a < 0 := by
      simp only [Nat.cast_zero, mul_zero, neg_zero] at hn
      exact not_lt.mpr hn
    refine ⟨a, 0, ?_, not_lt.mp h0, by simp, fun h => absurd h h0, fun _ => ⟨rfl, rfl⟩,
      le_refl 0⟩
    cases fuel <;> rw [raise_to_nonneg, if_neg h0]
  | succ n ih =>
    intro fuel a hf hBa hn
    by_cases h0 : a < 0
    · obtain ⟨f, rfl⟩ : ∃ f, fuel = f + 1 := ⟨fuel - 1, by omega⟩
      have hx : |a + 360| < B := by
        rw [abs_lt]
        constructor <;> linarith
      have he := abs_le.mp (H (a + 360) hx)
      have hstep : double_add a 360 = round_to_double (a + 360) := rfl
      have hlow : -((360 - δ) * (n : ℚ)) ≤ round_to_double (a + 360) := by
        push_cast at hn
        linarith [he.1]
      obtain ⟨r, k, hr, hr0, herr, hlt, heq, hk⟩ :=
        ih f (round_to_double (a + 360)) (by omega) (by linarith [he.1]) hlow
      refine ⟨r, k + 1, ?_, hr0, ?_, fun _ => ?_, fun h => absurd h0 (not_lt.mpr h),
        by omega⟩
      · rw [raise_to_nonneg, if_pos h0, hstep, hr]
      · have h1 := abs_le.mp herr
        rw [abs_le]
        push_cast
        constructor <;> linarith [he.1, he.2, h1.1, h1.2]
      · by_cases h1 : round_to_double (a + 360) < 0
        · exact hlt h1
        · rw [(heq (not_lt.mp h1)).1]
          linarith [he.2]
    · refine ⟨a, 0, ?_, not_lt.mp h0, by simp, fun h => absurd h h0, fun _ => ⟨rfl, rfl⟩,
        Nat.zero_le _⟩
      cases fuel <;> rw [raise_to_nonneg, if_neg h0]

theorem lower_below_360_spec (δ B : ℚ) (hδ : δ ≤ 256)
    (H : ∀ x : ℚ, |x| < B → |round_to_double x - x| ≤ δ) (n : Nat) :
    ∀ (fuel : Nat) (a : ℚ), n ≤ fuel → 0 ≤ a → a ≤ B → a < 360 + (360 - δ) * (n : ℚ) →
      ∃ (r : ℚ) (k : ℕ), lower_below_360 fuel a = some r ∧ 0 ≤ r ∧ r < 360 ∧
        |r - (a - 360 * (k : ℚ))| ≤ (k : ℚ) * δ ∧ k ≤ n := by
  induction n with
  | zero =>
    intro fuel a _ ha _ hn
    have h0 : ¬ a ≥ 360 := by
      simp only [Nat.cast_zero, mul_zero, add_zero] at hn
      exact not_le.mpr hn
    refine ⟨a, 0, ?_, ha, not_le.mp h0, by simp, le_refl 0⟩
    cases fuel <;> rw [lower_below_360, if_neg h0]
  | succ n ih =>
    intro fuel a hf ha hBa hn
    by_cases h0 : a ≥ 360
    · obtain ⟨f, rfl⟩ : ∃ f, fuel = f + 1 := ⟨fuel - 1, by omega⟩
      have hx0 : 0 ≤ a - 360 := by linarith
      have hx : |a - 360| < B := by
        rw [abs_of_nonneg hx0]
        linarith
      have he := abs_le.mp (H (a - 360) hx)
      have hstep : double_sub a 360 = round_to_double (a - 360) := rfl
      have hup : round_to_double (a - 360) < 360 + (360 - δ) * (n : ℚ) := by
        push_cast at hn
        linarith [he.2]
      obtain ⟨r, k, hr, hr0, hr1, herr, hk⟩ :=
        ih f (round_to_double (a - 360)) (by omega) (round_to_double_nonneg _ hx0)
          (by linarith [he.2]) hup
      refine ⟨r, k + 1, ?_, hr0, hr1, ?_, by omega⟩
      · rw [lower_below_360, if_pos h0, hstep, hr]
      · have h1 := abs_le.mp herr
        rw [abs_le]
        push_cast
        constructor <;> linarith [he.1, he.2, h1.1, h1.2]
    · refine ⟨a, 0, ?_, ha, not_le.mp h0, by simp, Nat.zero_le _⟩
      cases fuel <;> rw [lower_below_360, if_neg h0]

theorem range_bearing_azimuth_spec (δ B : ℚ) (hδ : δ ≤ 256)
    (H : ∀ x : ℚ, |x| < B → |round_to_double x - x| ≤ δ)
    (azimuth h : ℚ) (hlo : -60 ≤ azimuth) (hhi : azimuth ≤ 60)
    (hs : |azimuth + h| + 616 ≤ B) (n fuel : Nat) (hf : n ≤ fuel)
    (hn : |azimuth + h| + δ ≤ (360 - δ) * (n : ℚ)) :
    ∃ (a : ℚ) (k : ℤ) (m : ℕ), range_bearing_azimuth fuel azimuth h = some (some a) ∧
      0 ≤ a ∧ a < 360 ∧ |a - (azimuth + h + 360 * (k : ℚ))| ≤ ((m : ℚ) + 1) * δ ∧
      m ≤ 2 * n := by
  have hs0 := abs_nonneg (azimuth + h)
  have hsb := abs_le.mp (le_refl |azimuth + h|)
  have he := abs_le.mp (H (azimuth + h) (by linarith))
  have hstart : double_add azimuth h = round_to_double (azimuth + h) := rfl
  obtain ⟨r, k1, hr, hr0, herr1, hlt, heq, hk1⟩ :=
    raise_to_nonneg_spec δ B hδ (by linarith) H n fuel (round_to_double (azimuth + h)) hf
      (by linarith [he.1, hsb.1]) (by linarith [he.1, hsb.1])
  have hrB : r ≤ B := by
    by_cases h1 : round_to_double (azimuth + h) < 0
    · linarith [hlt h1]
    · rw [(heq (not_lt.mp h1)).1]
      linarith [he.2, hsb.2]
  have hrn : r < 360 + (360 - δ) * (n : ℚ) := by
    by_cases h1 : round_to_double (azimuth + h) < 0
    · linarith [hlt h1]
    · rw [(heq (not_lt.mp h1)).1]
      linarith [he.2, hsb.2]
  obtain ⟨b, k2, hb, hb0, hb1, herr2, hk2⟩ :=
    lower_below_360_spec δ B hδ H n fuel r hf hr0 hrB hrn
  refine ⟨b, (k1 : ℤ) - (k2 : ℤ), k1 + k2, ?_, hb0, hb1, ?_, by omega⟩
  · simp only [range_bearing_azimuth, hlo, hhi, ge_iff_le, and_self, if_true, hstart, hr, hb]
  · have h1 := abs_le.mp herr1
    have h2 := abs_le.mp herr2
    rw [abs_le]
    push_cast
    constructor <;> linarith [he.1, he.2, h1.1, h1.2, h2.1, h2.2]

theorem round_to_double_err_256 (x : ℚ) (hx : |x| < 2 ^ 62) :
    |round_to_double x - x| ≤ 256 := by
  have h := round_to_double_err x 61 (by norm_num; exact hx) (by norm_num)
  norm_num at h
  exact h

theorem round_to_double_err_small (x : ℚ) (hx : |x| < 2 ^ 22) :
    |round_to_double x - x| ≤ 1 / 2 ^ 32 := by
  have h := round_to_double_err x 21 (by norm_num; exact hx) (by norm_num)
  norm_num at h ⊢
  exact h

theorem azimuth_normalization_ends (azimuth h : ℚ) (hlo : -60 ≤ azimuth) (hhi : azimuth ≤ 60)
    (hs : |azimuth + h| ≤ 2 ^ 61) (fuel : Nat)
    (hf : |azimuth + h| + 256 ≤ 104 * (fuel : ℚ)) :
    ∃ a : ℚ, range_bearing_azimuth fuel azimuth h = some (some a) ∧ 0 ≤ a ∧ a < 360 := by
  obtain ⟨a, _, _, h1, h2, h3, _, _⟩ :=
    range_bearing_azimuth_spec 256 (2 ^ 62) (by norm_num)
      round_to_double_err_256 azimuth h hlo hhi (by norm_num at hs ⊢; linarith) fuel fuel
      (le_refl _) (by linarith)
  exact ⟨a, h1, h2, h3⟩

theorem azimuth_normalization_close (azimuth h : ℚ) (hlo : -60 ≤ azimuth)
    (hhi : azimuth ≤ 60) (hs : |azimuth + h| ≤ 2 ^ 20) (fuel : Nat)
    (hf : |azimuth + h| + 1 ≤ 359 * (fuel : ℚ)) :
    ∃ (a : ℚ) (k : ℤ), range_bearing_azimuth fuel azimuth h = some (some a) ∧
      0 ≤ a ∧ a < 360 ∧ |a - (azimuth + h + 360 * (k : ℚ))| ≤ 1 / 2 ^ 19 := by
  have hs0 := abs_nonneg (azimuth + h)
  have hq0 : (0 : ℚ) ≤ (|azimuth + h| + 1) / 359 := by positivity
  have hnf : ⌈(|azimuth + h| + 1) / 359⌉₊ ≤ fuel := by
    apply Nat.ceil_le.mpr
    rw [div_le_iff₀ (by norm_num)]
    linarith
  have hn1 := Nat.le_ceil ((|azimuth + h| + 1) / 359)
  have hn2 := Nat.ceil_lt_add_one hq0
  generalize ⌈(|azimuth + h| + 1) / 359⌉₊ = n at hnf hn1 hn2
  rw [div_le_iff₀ (by norm_num)] at hn1
  have hn3 : (n : ℚ) < 2923 := by
    have : (|azimuth + h| + 1) / 359 ≤ (2 ^ 20 + 1) / 359 := by
      apply div_le_div_of_nonneg_right _ (by norm_num)
      linarith
    have h2 : ((2 : ℚ) ^ 20 + 1) / 359 + 1 < 2923 := by norm_num
    linarith
  have hn4 : n ≤ 2922 := by
    have : n < 2923 := by exact_mod_cast hn3
    omega
  have hnq : (0 : ℚ) ≤ (n : ℚ) := Nat.cast_nonneg n
  obtain ⟨a, k, m, h1, h2, h3, h4, h5⟩ :=
    range_bearing_azimuth_spec (1 / 2 ^ 32) (2 ^ 22) (by norm_num)
      round_to_double_err_small azimuth h hlo hhi (by norm_num at hs ⊢; linarith) n fuel hnf
      (by nlinarith)
  refine ⟨a, k, h1, h2, h3, le_trans h4 ?_⟩
  have hm : (m : ℚ) ≤ 5844 := by
    have : m ≤ 5844 := by omega
    exact_mod_cast this
  have : ((m : ℚ) + 1) * (1 / 2 ^ 32) ≤ 5845 * (1 / 2 ^ 32) :=
    mul_le_mul_of_nonneg_right (by linarith) (by norm_num)
  linarith [show (5845 : ℚ) * (1 / 2 ^ 32) ≤ 1 / 2 ^ 19 by norm_num]

/-- Where the `double` additions are exact (track azimuth and heading integer multiples of
`2^-g`, `g <= 44`, with `|azimuth + h| < 2^(53-g)`) the emitted azimuth is
`azimuth + h + 360 k` for an integer `k`. -/
theorem azimuth_normalization_grid (g : ℕ) (ma mh : ℤ) (azimuth h : ℚ)
    (ha : azimuth = (ma : ℚ) * 2 ^ (-(g : ℤ))) (hh : h = (mh : ℚ) * 2 ^ (-(g : ℤ)))
    (hg : g ≤ 44) (hsum : |ma + mh| < 2 ^ 53)
    (hlo : -60 ≤ azimuth) (hhi : azimuth ≤ 60) :
    ∀ fuel : Nat, |azimuth + h| ≤ 360 * (fuel : ℚ) →
      ∃ (a : ℚ) (k : ℤ), range_bearing_azimuth fuel azimuth h = some (some a) ∧
        0 ≤ a ∧ a < 360 ∧ a = azimuth + h + 360 * (k : ℚ) := by
  intro fuel hfuel
  have hg2 : g ≤ 1074 := by omega
  have hpow : (2 : ℤ) ^ g ≤ 2 ^ 44 := pow_le_pow_right₀ (by norm_num) hg
  have hT : (0 : ℤ) < 360 * 2 ^ g := by positivity
  have h360 : (360 * 2 ^ g : ℤ) < 2 ^ 53 := by
    have : (360 : ℤ) * 2 ^ 44 < 2 ^ 53 := by norm_num
    omega
  have hs : (0 : ℚ) < 2 ^ (-(g : ℤ)) := zpow_pos (by norm_num) _
  have hsumq : azimuth + h = ((ma + mh : ℤ) : ℚ) * 2 ^ (-(g : ℤ)) := by
    rw [ha, hh]; push_cast; ring
  -- the bound on the number of iterations, on the integers
  have hfz : |ma + mh| ≤ 360 * 2 ^ g * (fuel : ℤ) := by
    have h1 : |((ma + mh : ℤ) : ℚ)| * 2 ^ (-(g : ℤ)) ≤ 360 * (fuel : ℚ) := by
      rw [hsumq, abs_mul, abs_of_pos hs] at hfuel
      exact hfuel
    have h2 : |((ma + mh : ℤ) : ℚ)| ≤ ((360 * 2 ^ g * (fuel : ℤ) : ℤ) : ℚ) := by
      have h3 : ((360 * 2 ^ g * (fuel : ℤ) : ℤ) : ℚ) * 2 ^ (-(g : ℤ)) = 360 * (fuel : ℚ) := by
        have := grid_360 g
        push_cast at this ⊢
        rw [mul_right_comm, this]
      rw [← h3] at h1
      exact le_of_mul_le_mul_right h1 hs
    exact_mod_cast h2
  have habs := abs_le.mp hfz
  have hstart : double_add azimuth h = ((ma + mh : ℤ) : ℚ) * 2 ^ (-(g : ℤ)) := by
    rw [ha, hh]
    exact double_add_grid g hg2 ma mh hsum
  obtain ⟨k1, hr, hr0, hrlt, hreq⟩ :=
    raise_to_nonneg_grid g hg2 h360 fuel (ma + mh) hsum (by linarith [habs.1])
  have hrb : ma + mh + 360 * 2 ^ g * (k1 : ℤ) < 2 ^ 53 := by
    by_cases hneg : ma + mh < 0
    · have := hrlt hneg
      omega
    · have := hreq (not_lt.mp hneg)
      subst this
      have := (abs_lt.mp hsum).2
      simpa using this
  have hr360 : ma + mh + 360 * 2 ^ g * (k1 : ℤ) < 360 * 2 ^ g * ((fuel : ℤ) + 1) := by
    by_cases hneg : ma + mh < 0
    · have := hrlt hneg
      have hf : (0 : ℤ) ≤ (fuel : ℤ) := Int.natCast_nonneg _
      nlinarith
    · have := hreq (not_lt.mp hneg)
      subst this
      have := habs.2
      simp only [Nat.cast_zero, mul_zero, add_zero]
      linarith
  obtain ⟨k2, hb, hb0, hblt⟩ :=
    lower_below_360_grid g hg2 fuel (ma + mh + 360 * 2 ^ g * (k1 : ℤ)) hr0 hrb hr360
  refine ⟨((ma + mh + 360 * 2 ^ g * (k1 : ℤ) - 360 * 2 ^ g * (k2 : ℤ) : ℤ) : ℚ)
    * 2 ^ (-(g : ℤ)), (k1 : ℤ) - (k2 : ℤ), ?_, ?_, ?_, ?_⟩
  · simp only [range_bearing_azimuth, hlo, hhi, ge_iff_le, and_self, if_true, hstart, hr, hb]
  · exact mul_nonneg (by exact_mod_cast hb0) hs.le
  · rw [← grid_360 g]
    exact mul_lt_mul_of_pos_right (by exact_mod_cast hblt) hs
  · rw [hsumq]
    have := grid_360 g
    push_cast at this ⊢
    linear_combination ((k1 : ℚ) - (k2 : ℚ)) * this

/-- C16 (amended). Detection azimuth normalization, in `double` arithmetic: for every track
azimuth in `[-60, 60]` and every radar heading `h`, whenever the two normalization loops
end the emitted azimuth `a` satisfies `0 <= a < 360`; they end whenever
`|azimuth + h| <= 2^61` (`fuel` iterations are enough for each when
`|azimuth + h| + 256 <= 104 fuel`); when `|azimuth + h| <= 2^20`, `a` is within `2^-19` of
`azimuth + h + 360 k` for an integer `k`; and `a = azimuth + h + 360 k` exactly where no
addition rounds, as when azimuth and `h` are integer multiples of `2^-g` for a `g <= 44`
with `|azimuth + h| < 2^(53-g)`. -/
theorem azimuth_normalization (azimuth h : ℚ) (hlo : -60 ≤ azimuth) (hhi : azimuth ≤ 60) :
    (∀ (fuel : Nat) (a : ℚ), range_bearing_azimuth fuel azimuth h = some (some a) →
      0 ≤ a ∧ a < 360) ∧
    (|azimuth + h| ≤ 2 ^ 61 → ∀ fuel : Nat, |azimuth + h| + 256 ≤ 104 * (fuel : ℚ) →
      ∃ a : ℚ, range_bearing_azimuth fuel azimuth h = some (some a) ∧ 0 ≤ a ∧ a < 360) ∧
    (|azimuth + h| ≤ 2 ^ 20 → ∀ fuel : Nat, |azimuth + h| + 1 ≤ 359 * (fuel : ℚ) →
      ∃ (a : ℚ) (k : ℤ), range_bearing_azimuth fuel azimuth h = some (some a) ∧
        0 ≤ a ∧ a < 360 ∧ |a - (azimuth + h + 360 * (k : ℚ))| ≤ 1 / 2 ^ 19) ∧
    (∀ (g : ℕ) (ma mh : ℤ), azimuth = (ma : ℚ) * 2 ^ (-(g : ℤ)) →
      h = (mh : ℚ) * 2 ^ (-(g : ℤ)) → g ≤ 44 → |ma + mh| < 2 ^ 53 →
      ∀ fuel : Nat, |azimuth + h| ≤ 360 * (fuel : ℚ) →
        ∃ (a : ℚ) (k : ℤ), range_bearing_azimuth fuel azimuth h = some (some a) ∧
          0 ≤ a ∧ a < 360 ∧ a = azimuth + h + 360 * (k : ℚ)) :=
  ⟨fun fuel a hr => range_bearing_azimuth_result fuel azimuth h a hlo hhi hr,
    fun hs fuel hf => azimuth_normalization_ends azimuth h hlo hhi hs fuel hf,
    fun hs fuel hf => azimuth_normalization_close azimuth h hlo hhi hs fuel hf,
    fun g ma mh ha hh hg hsum fuel hf =>
      azimuth_normalization_grid g ma mh azimuth h ha hh hg hsum hlo hhi fuel hf⟩

/-- The two examples: azimuth -30 with heading 350 gives 320, azimuth 50 with heading 350
gives 40. -/
theorem azimuth_normalization_witness :
    range_bearing_azimuth 1 (-30) 350 = some (some 320) ∧
    range_bearing_azimuth 2 50 350 = some (some 40) := by
  constructor
  · obtain ⟨a, k, h1, h2, h3, h4⟩ := (azimuth_normalization (-30) 350 (by norm_num) (by norm_num)).2.2.2
      0 (-30) 350 (by norm_num) (by norm_num) (by decide) (by decide) 1
      (by norm_num [abs_of_pos])
    have hk : k = 0 := by
      rw [h4] at h2 h3
      have h5q : (0 : ℚ) ≤ 320 + 360 * (k : ℚ) := by linarith
      have h5 : (0 : ℤ) ≤ 320 + 360 * k := by exact_mod_cast h5q
      have h6q : 320 + 360 * (k : ℚ) < (360 : ℚ) := by linarith
      have h6 : 320 + 360 * k < (360 : ℤ) := by exact_mod_cast h6q
      omega
    rw [h1, h4, hk]
    norm_num
  · obtain ⟨a, k, h1, h2, h3, h4⟩ := (azimuth_normalization 50 350 (by norm_num) (by norm_num)).2.2.2
      0 50 350 (by norm_num) (by norm_num) (by decide) (by decide) 2
      (by norm_num [abs_of_pos])
    have hk : k = -1 := by
      rw [h4] at h2 h3
      have h5q : (0 : ℚ) ≤ 400 + 360 * (k : ℚ) := by linarith
      have h5 : (0 : ℤ) ≤ 400 + 360 * k := by exact_mod_cast h5q
      have h6q : 400 + 360 * (k : ℚ) < (360 : ℚ) := by linarith
      have h6 : 400 + 360 * k < (360 : ℤ) := by exact_mod_cast h6q
      omega
    rw [h1, h4, hk]
    norm_num

/-! ## Classification -/

theorem class_confidence_eq (p : ℚ) : class_confidence p = min 1 (max 0 (p / 100)) := by
  unfold class_confidence
  simp only
  split_ifs with h1 h2 h3
  · linarith
  · rw [max_eq_right (by linarith), min_eq_left (by linarith)]
  · rw [max_eq_left (by linarith), min_eq_right (by norm_num)]
  · rw [max_eq_right (by linarith), min_eq_right (by linarith)]

/-- C17. Classification mapping: for every track exactly one classification entry is
emitted; its type is "Unknown" for classification 0, "Air vehicle" with the single level-1
sub-class "UAV rotary wing" for 1, "Human" for 2, "Land vehicle" for 3, "Animal" with the
single level-1 sub-class "Bird" for 4 and "Other" for every other value; the confidence
of the entry and of its sub-class is `min(1, max(0, classifyProb / 100))`.
Classification 1 with classifyProb 80 gives "Air vehicle" / "UAV rotary wing" with
confidence 0.8. -/
theorem classification_mapping (classification : Int) (classifyProb : ℚ) :
    (∃ e, classification_entries classification classifyProb = [e] ∧
      e.confidence = min 1 (max 0 (classifyProb / 100)) ∧
      (∀ s ∈ e.sub_class, s.confidence = min 1 (max 0 (classifyProb / 100)) ∧ s.level = 1) ∧
      (classification = 0 → e.type = "Unknown" ∧ e.sub_class = []) ∧
      (classification = 1 → e.type = "Air vehicle" ∧
        e.sub_class.map (fun s => s.type) = ["UAV rotary wing"]) ∧
      (classification = 2 → e.type = "Human" ∧ e.sub_class = []) ∧
      (classification = 3 → e.type = "Land vehicle" ∧ e.sub_class = []) ∧
      (classification = 4 → e.type = "Animal" ∧
        e.sub_class.map (fun s => s.type) = ["Bird"]) ∧
      (classification < 0 ∨ 4 < classification → e.type = "Other" ∧ e.sub_class = [])) ∧
    classification_entries 1 80
      = [⟨"Air vehicle", 4 / 5, [⟨"UAV rotary wing", 1, 4 / 5⟩]⟩] := by
  have hc := class_confidence_eq classifyProb
  constructor
  · unfold classification_entries
    by_cases h0 : classification = 0
    · subst h0
      exact ⟨_, rfl, hc, by simp, by simp, by simp, by simp, by simp, by simp, by simp⟩
    by_cases h1 : classification = 1
    · subst h1
      exact ⟨_, rfl, hc, by simp [hc], by simp, by simp, by simp, by simp, by simp, by simp⟩
    by_cases h2 : classification = 2
    · subst h2
      exact ⟨_, rfl, hc, by simp, by simp, by simp, by simp, by simp, by simp, by simp⟩
    by_cases h3 : classification = 3
    · subst h3
      exact ⟨_, rfl, hc, by simp, by simp, by simp, by simp, by simp, by simp, by simp⟩
    by_cases h4 : classification = 4
    · subst h4
      exact ⟨_, rfl, hc, by simp [hc], by simp, by simp, by simp, by simp, by simp, by simp⟩
    simp only [h0, h1, h2, h3, h4, if_false]
    exact ⟨_, rfl, hc, by simp, by simp [h0], by simp [h1], by simp [h2], by simp [h3],
      by simp [h4], by simp⟩
  · have : class_confidence 80 = 4 / 5 := by rw [class_confidence_eq]; norm_num
    simp [classification_entries, this]

/-! ## Task handler -/

theorem tolower_eq (c : Char) : tolower c = c.toLower := rfl

theorem equal_tolower_iff (a : List Char) :
    ∀ b : List Char, a.length = b.length →
      (equal_tolower a b = true ↔ a.map Char.toLower = b.map Char.toLower) := by
  induction a with
  | nil =>
    intro b hl
    have : b = [] := by
      cases b with
      | nil => rfl
      | cons x xs => simp at hl
    subst this
    simp [equal_tolower]
  | cons ca a ih =>
    intro b hl
    cases b with
    | nil => simp at hl
    | cons cb b =>
      have hl2 : a.length = b.length := by simpa using hl
      simp only [equal_tolower, Bool.and_eq_true, decide_eq_true_eq, List.map_cons,
        List.cons.injEq, tolower_eq, ih b hl2]

theorem iequals_iff (a b : String) :
    iequals a b = true ↔ a.data.map Char.toLower = b.data.map Char.toLower := by
  unfold iequals
  constructor
  · intro h
    simp only [Bool.and_eq_true, decide_eq_true_eq] at h
    exact (equal_tolower_iff _ _ h.1).mp h.2
  · intro h
    have hl : a.data.length = b.data.length := by
      have := congrArg List.length h
      simpa using this
    simp only [Bool.and_eq_true, decide_eq_true_eq]
    exact ⟨hl, (equal_tolower_iff _ _ hl).mpr h⟩

/-- C18. Task request mapping: every parsed Task is accepted; the action is
`SEND_REGISTRATION` exactly when `command.request` is present and, with its ASCII letters
lowered, reads "registration" or "request registration"; `SEND_STATUS` exactly when it
reads "status" or "request status"; and `NONE` in every other case, an absent command or
request included. -/
theorem task_request_mapping (task : Task) :
    (handle_task_internal task).1 = true ∧
    ((handle_task_internal task).2.2 = TaskActionType.TASK_ACTION_SEND_REGISTRATION ↔
      ∃ r, task.command = some (some r) ∧
        (r.data.map Char.toLower = "registration".data ∨
          r.data.map Char.toLower = "request registration".data)) ∧
    ((handle_task_internal task).2.2 = TaskActionType.TASK_ACTION_SEND_STATUS ↔
      ∃ r, task.command = some (some r) ∧
        (r.data.map Char.toLower = "status".data ∨
          r.data.map Char.toLower = "request status".data)) ∧
    ((handle_task_internal task).2.2 = TaskActionType.TASK_ACTION_NONE ↔
      ¬ ∃ r, task.command = some (some r) ∧
        (r.data.map Char.toLower = "registration".data ∨
          r.data.map Char.toLower = "request registration".data ∨
          r.data.map Char.toLower = "status".data ∨
          r.data.map Char.toLower = "request status".data)) := by
  have e1 : "Registration".data.map Char.toLower = "registration".data := by decide
  have e2 : "Request Registration".data.map Char.toLower = "request registration".data := by
    decide
  have e3 : "Status".data.map Char.toLower = "status".data := by decide
  have e4 : "Request Status".data.map Char.toLower = "request status".data := by decide
  have d13 : "registration".data ≠ "status".data := by decide
  have d14 : "registration".data ≠ "request status".data := by decide
  have d23 : "request registration".data ≠ "status".data := by decide
  have d24 : "request registration".data ≠ "request status".data := by decide
  rcases hc : task.command with _ | _ | r
  · simp [handle_task_internal, hc]
  · simp [handle_task_internal, hc]
  · have i1 := iequals_iff r "Registration"
    have i2 := iequals_iff r "Request Registration"
    have i3 := iequals_iff r "Status"
    have i4 := iequals_iff r "Request Status"
    rw [e1] at i1
    rw [e2] at i2
    rw [e3] at i3
    rw [e4] at i4
    by_cases h1 : iequals r "Registration" = true
    · have m1 := i1.mp h1
      have n3 : ¬ r.data.map Char.toLower = "status".data := by rw [m1]; exact d13
      have n4 : ¬ r.data.map Char.toLower = "request status".data := by rw [m1]; exact d14
      simp [handle_task_internal, hc, h1, m1, n3, n4]
    · by_cases h2 : iequals r "Request Registration" = true
      · have m2 := i2.mp h2
        have n3 : ¬ r.data.map Char.toLower = "status".data := by rw [m2]; exact d23
        have n4 : ¬ r.data.map Char.toLower = "request status".data := by rw [m2]; exact d24
        simp [handle_task_internal, hc, h2, m2, n3, n4]
      · have n1 : ¬ r.data.map Char.toLower = "registration".data := fun h => h1 (i1.mpr h)
        have n2 : ¬ r.data.map Char.toLower = "request registration".data :=
          fun h => h2 (i2.mpr h)
        by_cases h3 : iequals r "Status" = true
        · have m3 := i3.mp h3
          simp [handle_task_internal, hc, h1, h2, h3, m3, n1, n2]
        · by_cases h4 : iequals r "Request Status" = true
          · have m4 := i4.mp h4
            simp [handle_task_internal, hc, h1, h2, h3, h4, m4, n1, n2]
          · have n3 : ¬ r.data.map Char.toLower = "status".data := fun h => h3 (i3.mpr h)
            have n4 : ¬ r.data.map Char.toLower = "request status".data :=
              fun h => h4 (i4.mpr h)
            simp [handle_task_internal, hc, h1, h2, h3, h4, n1, n2, n3, n4]

theorem handle_task_internal_status (t : Task) (r : String)
    (hreq : t.command = some (some r))
    (hst : r.data.map Char.toLower = "status".data ∨
      r.data.map Char.toLower = "request status".data) :
    handle_task_internal t
      = (true, "Task accepted, will send Status report",
          TaskActionType.TASK_ACTION_SEND_STATUS) := by
  have n1 : ¬ iequals r "Registration" = true := by
    intro h
    have m := (iequals_iff r "Registration").mp h
    rcases hst with h3 | h4
    · rw [h3] at m; revert m; decide
    · rw [h4] at m; revert m; decide
  have n2 : ¬ iequals r "Request Registration" = true := by
    intro h
    have m := (iequals_iff r "Request Registration").mp h
    rcases hst with h3 | h4
    · rw [h3] at m; revert m; decide
    · rw [h4] at m; revert m; decide
  have p : (iequals r "Status" || iequals r "Request Status") = true := by
    rcases hst with h3 | h4
    · have : iequals r "Status" = true := (iequals_iff r "Status").mpr (by rw [h3]; decide)
      simp [this]
    · have : iequals r "Request Status" = true :=
        (iequals_iff r "Request Status").mpr (by rw [h4]; decide)
      simp [this]
  have q : (iequals r "Registration" || iequals r "Request Registration") = false := by
    simp [n1, n2]
  simp only [handle_task_internal, hreq, q, p, Bool.false_eq_true, if_false, if_true]

theorem handle_task_internal_accepts (t : Task) : (handle_task_internal t).1 = true := by
  unfold handle_task_internal
  split
  · split
    · rfl
    · split <;> rfl
  · rfl

/-- C19 (as stated, refuted). A Task that parses and carries the task_id "0": the handler
returns 0 and the TaskAck carries task_id "0" with status ACCEPTED, but the active task
id, which was "old" before the call, is empty afterwards. -/
theorem handle_task_zero_id_clears :
    sapient_handle_task (some ⟨some "0", none, none, 0⟩) true
        TaskActionType.TASK_ACTION_NONE "old"
      = ⟨0, some ⟨some "0", true, ["Task accepted for processing"]⟩,
          TaskActionType.TASK_ACTION_NONE, ""⟩ := by
  decide

/-- C19 (amended). For every Task that parses and carries a task_id `t`, when
`sapient_handle_task` returns 0 the TaskAck built has status ACCEPTED, and: if `t` is
neither empty nor "0", the active task id is `t` and the TaskAck carries task_id `t`; if
`t` is "0", the TaskAck carries "0" and the active task id is cleared; if `t` is empty,
the TaskAck carries no task_id and the active task id is left as it was.  The handler
returns 0 exactly when the TaskAck builds. -/
theorem handle_task_records_id (task : Task) (t : String) (built : Bool)
    (out_action : TaskActionType) (cur : String) (hid : task.task_id = some t)
    (hret : (sapient_handle_task (some task) built out_action cur).ret = 0) :
    built = true ∧
    (∃ reason, (sapient_handle_task (some task) built out_action cur).ack
      = some ⟨if t ≠ "" then some t else none, true, reason⟩) ∧
    (t ≠ "" → t ≠ "0" →
      (sapient_handle_task (some task) built out_action cur).current_task_id = t) ∧
    (t = "0" → (sapient_handle_task (some task) built out_action cur).current_task_id = "") ∧
    (t = "" → (sapient_handle_task (some task) built out_action cur).current_task_id = cur) := by
  have hacc := handle_task_internal_accepts task
  cases built with
  | false =>
    simp [sapient_handle_task, sapient_build_task_ack] at hret
  | true =>
    refine ⟨rfl, ?_, ?_, ?_, ?_⟩
    · simp [sapient_handle_task, sapient_build_task_ack, hid, hacc]
    · intro hne h0
      simp [sapient_handle_task, sapient_build_task_ack, hid, hacc, hne,
        sapient_set_current_task_id, h0]
    · intro h0
      subst h0
      simp [sapient_handle_task, sapient_build_task_ack, hid, hacc,
        sapient_set_current_task_id]
    · intro he
      subst he
      simp [sapient_handle_task, sapient_build_task_ack, hid]

/-- A Task "T1" asking for "Status", handled while "old" is the active task id. -/
theorem handle_task_records_id_witness :
    (sapient_handle_task (some ⟨some "T1", none, some (some "Status"), 0⟩) true
        TaskActionType.TASK_ACTION_NONE "old").ret = 0 ∧
    (sapient_handle_task (some ⟨some "T1", none, some (some "Status"), 0⟩) true
        TaskActionType.TASK_ACTION_NONE "old").current_task_id = "T1" :=
  ⟨by decide,
    (handle_task_records_id ⟨some "T1", none, some (some "Status"), 0⟩ "T1" true
      TaskActionType.TASK_ACTION_NONE "old" rfl (by decide)).2.2.1 (by decide) (by decide)⟩

/-! ## Task-driven status -/

/-- C20 (as stated, refuted). With a client present and every builder succeeding: a Task
with task_id "0" and request "Status" yields a TaskAck carrying "0" and a StatusReport
built with no active task id; and after a Task "T0" with an unknown request, which leaves
"T0" active, a Task without task_id and request "status" yields a StatusReport built
while "T0" is the active task id.  When the TaskAck does not build, a Task "T1" with
request "Status" yields no TaskAck and no StatusReport, and "T1" stays active. -/
theorem task_status_with_other_active_id :
    sapient_parse_and_handle_message
        (some (Content.task ⟨some "0", none, some (some "Status"), 0⟩)) true
        ⟨true, true, true, true⟩ ⟨"", [], 0⟩
      = (0, ⟨"", [Sent.taskAck ⟨some "0", true, ["Task accepted, will send Status report"]⟩,
                 Sent.statusReport ""], 0⟩) ∧
    sapient_parse_and_handle_message
        (some (Content.task ⟨some "T0", none, some (some "Go"), 0⟩)) true
        ⟨true, true, true, true⟩ ⟨"", [], 0⟩
      = (0, ⟨"T0", [Sent.taskAck ⟨some "T0", true,
                      ["Task accepted, unknown request type: Go"]⟩], 0⟩) ∧
    sapient_parse_and_handle_message
        (some (Content.task ⟨none, none, some (some "status"), 0⟩)) true
        ⟨true, true, true, true⟩ ⟨"T0", [], 0⟩
      = (0, ⟨"", [Sent.taskAck ⟨none, true, ["Task accepted, will send Status report"]⟩,
                 Sent.statusReport "T0"], 0⟩) ∧
    sapient_parse_and_handle_message
        (some (Content.task ⟨some "T1", none, some (some "Status"), 0⟩)) true
        ⟨true, false, true, true⟩ ⟨"", [], 0⟩
      = (-1, ⟨"T1", [], 0⟩) := by
  decide

/-- C20 (amended). For every inbound wrapper carrying a Task whose command.request reads
"status" or "request status" once its ASCII letters are lowered and whose task_id `id` is
present and neither empty nor "0", handled by `sapient_parse_and_handle_message` with a
client present while the Task serializes and the TaskAck and the StatusReport build: the
call returns 0, the client hands to `send_pb` one TaskAck with status ACCEPTED and
task_id `id` and then exactly one StatusReport, built while `id` is the active task id,
and after handling the active task id is empty. -/
theorem task_status_dispatch (t : Task) (id r : String) (b : Builders) (n : Node)
    (hid : t.task_id = some id) (hne : id ≠ "") (h0 : id ≠ "0")
    (hreq : t.command = some (some r))
    (hst : r.data.map Char.toLower = "status".data ∨
      r.data.map Char.toLower = "request status".data)
    (hser : b.task_serializes = true) (hack : b.ack_builds = true)
    (hsb : b.status_builds = true) :
    sapient_parse_and_handle_message (some (Content.task t)) true b n
      = (0, ⟨"", n.sent ++
          [Sent.taskAck ⟨some id, true, ["Task accepted, will send Status report"]⟩,
            Sent.statusReport id], n.acks_marked⟩) := by
  have hi := handle_task_internal_status t r hreq hst
  have hh : sapient_handle_task (some t) true TaskActionType.TASK_ACTION_NONE
      n.current_task_id
      = ⟨0, some ⟨some id, true, ["Task accepted, will send Status report"]⟩,
          TaskActionType.TASK_ACTION_SEND_STATUS, id⟩ := by
    simp [sapient_handle_task, sapient_build_task_ack, hid, hi, hne,
      sapient_set_current_task_id, h0]
  simp [sapient_parse_and_handle_message, hser, hack, hh, dispatch_status_report, hsb]

/-- A Task "T1" asking for "STATUS" while no task is active. -/
theorem task_status_dispatch_witness :
    sapient_parse_and_handle_message
        (some (Content.task ⟨some "T1", none, some (some "STATUS"), 0⟩)) true
        ⟨true, true, true, true⟩ ⟨"", [], 0⟩
      = (0, ⟨"", [] ++
          [Sent.taskAck ⟨some "T1", true, ["Task accepted, will send Status report"]⟩,
            Sent.statusReport "T1"], 0⟩) :=
  task_status_dispatch ⟨some "T1", none, some (some "STATUS"), 0⟩ "T1" "STATUS"
    ⟨true, true, true, true⟩ ⟨"", [], 0⟩ rfl (by decide) (by decide) rfl
    (Or.inl (by decide)) rfl rfl rfl

/-! ## Recording of the disconnect instant -/

theorem reconnect_with_backoff_valid (force : Bool) (c : Client) (w : World) :
    (reconnect_with_backoff force c w).2.1.disconnect_time_valid = true := by
  unfold reconnect_with_backoff
  exact ((reconnect_loop_kept force _ _ _).1 (close_socket_valid c w)).1

theorem close_socket_disconnect_time (c : Client) (w : World) :
    (c.disconnect_time_valid = false →
      (close_socket c w).1.disconnect_time = w.clock w.ticks) ∧
    (c.disconnect_time_valid = true →
      (close_socket c w).1.disconnect_time = c.disconnect_time) := by
  unfold close_socket record_disconnect_time
  by_cases hfd : c.sockfd ≥ 0 <;> cases hv : c.disconnect_time_valid <;> simp [hfd, hv, now]

theorem need_send_registration_of_valid (force : Bool) (c : Client) (w : World)
    (h : c.disconnect_time_valid = true) :
    need_send_registration force c w
      = if force then (true, w)
        else (decide (elapsed_seconds (now w).1 c.disconnect_time ≥ 120), (now w).2) := by
  unfold need_send_registration
  cases force <;> simp [h]

/-- C11 (evaluation of the code). A client that is awaiting its first RegistrationAck, with
no disconnect recorded, 31 s after the Registration was sent: the check of the receive
worker fires, closes and reconnects by force, and leaves the disconnect instant recorded;
the next wake of the status worker, one second later, reads `disconnect_elapsed = 1` and
attempts no StatusReport.  Likewise a reconnect on a client that has never been connected
records the disconnect instant, and when its connection attempt succeeds the decision
`need_send_registration` reads that instant as a disconnect of less than 120 s ago: the
call returns 0 with no Registration built and nothing written on the new connection.
`close_socket` leaves the instant recorded from every state, so the branch
`else if (!disconnect_time_valid_)` of `reconnect_with_backoff`, which the source reserves
for a first connection, is never reached. -/
theorem ack_timeout_reconnect_records_disconnect :
    (check_registration_ack_timeout 0
        { Client.online with waiting_for_registration_ack := true }
        { World.sample 1000000000 [ConnRes.ok [SendRes.ok 4, SendRes.ok 2]] (some [9, 9])
            (some [7]) with ticks := 31 }).1 = true ∧
    (check_registration_ack_timeout 0
        { Client.online with waiting_for_registration_ack := true }
        { World.sample 1000000000 [ConnRes.ok [SendRes.ok 4, SendRes.ok 2]] (some [9, 9])
            (some [7]) with ticks := 31 }).2.2.1
      = { Client.online with sockfd := 1, disconnect_time := 32000000000,
                             disconnect_time_valid := true } ∧
    (status_report_wake
        { Client.online with sockfd := 1, disconnect_time := 32000000000,
                             disconnect_time_valid := true }
        (check_registration_ack_timeout 0
          { Client.online with waiting_for_registration_ack := true }
          { World.sample 1000000000 [ConnRes.ok [SendRes.ok 4, SendRes.ok 2]] (some [9, 9])
              (some [7]) with ticks := 31 }).2.2.2
        [SendRes.ok 4, SendRes.ok 1]).elapsed = 1 ∧
    (status_report_wake
        { Client.online with sockfd := 1, disconnect_time := 32000000000,
                             disconnect_time_valid := true }
        (check_registration_ack_timeout 0
          { Client.online with waiting_for_registration_ack := true }
          { World.sample 1000000000 [ConnRes.ok [SendRes.ok 4, SendRes.ok 2]] (some [9, 9])
              (some [7]) with ticks := 31 }).2.2.2
        [SendRes.ok 4, SendRes.ok 1]).send_ret = none ∧
    (reconnect_with_backoff false { Client.init with running := true }
        (World.sample 1000000000 [ConnRes.fail] none none)).2.1.disconnect_time_valid
      = true ∧
    (reconnect_with_backoff false { Client.init with running := true }
        (World.sample 1000000000 [ConnRes.ok [SendRes.ok 4, SendRes.ok 2]] (some [9, 9])
          (some [7]))).1 = 0 ∧
    (reconnect_with_backoff false { Client.init with running := true }
        (World.sample 1000000000 [ConnRes.ok [SendRes.ok 4, SendRes.ok 2]] (some [9, 9])
          (some [7]))).2.2.wire = [[], []] ∧
    (reconnect_with_backoff false { Client.init with running := true }
        (World.sample 1000000000 [ConnRes.ok [SendRes.ok 4, SendRes.ok 2]] (some [9, 9])
          (some [7]))).2.2.builds = 0 ∧
    (∀ (c : Client) (w : World), (close_socket c w).1.disconnect_time_valid = true) ∧
    (∀ (force : Bool) (c : Client) (w : World),
      need_send_registration force (close_socket c w).1 w
        = if force then (true, w)
          else (decide (elapsed_seconds (now w).1 (close_socket c w).1.disconnect_time ≥ 120),
                (now w).2)) := by
  refine ⟨by decide, by decide, by decide, by decide, by decide, by decide, by decide,
    by decide, close_socket_valid, fun force c w =>
      need_send_registration_of_valid force _ w (close_socket_valid c w)⟩

/-- What the code does with the disconnect instant: every `close_socket` leaves it set, to
the clock reading of the close when it was unset and unchanged when it was set, with no
test of the state of the session; so every `reconnect_with_backoff` and every fired
registration-ack check leaves it set, and a wake of the status worker less than 120 s
after a close that recorded it attempts no StatusReport.  `connect_with_timeout` alone
never touches it. -/
theorem close_socket_records_in_every_state (c : Client) (w : World) :
    (close_socket c w).1.disconnect_time_valid = true ∧
    (c.disconnect_time_valid = false →
      (close_socket c w).1.disconnect_time = w.clock w.ticks) ∧
    (c.disconnect_time_valid = true →
      (close_socket c w).1.disconnect_time = c.disconnect_time) ∧
    (∀ force, (reconnect_with_backoff force c w).2.1.disconnect_time_valid = true) ∧
    (∀ ce, (check_registration_ack_timeout ce c w).1 = true →
      (check_registration_ack_timeout ce c w).2.2.1.disconnect_time_valid = true) ∧
    (∀ (w1 : World) (sends : List SendRes), c.disconnect_time_valid = false →
      0 ≤ w1.clock w1.ticks - w.clock w.ticks →
      w1.clock w1.ticks - w.clock w.ticks < 120 * 1000000000 →
      (status_report_wake (close_socket c w).1 w1 sends).send_ret = none) ∧
    (∀ r, (connect_with_timeout c w r).2.1.disconnect_time_valid = c.disconnect_time_valid ∧
      (connect_with_timeout c w r).2.1.disconnect_time = c.disconnect_time) := by
  refine ⟨close_socket_valid c w, (close_socket_disconnect_time c w).1,
    (close_socket_disconnect_time c w).2, fun force => reconnect_with_backoff_valid force c w,
    ?_, ?_, ?_⟩
  · intro ce h
    unfold check_registration_ack_timeout at h ⊢
    by_cases hw : c.waiting_for_registration_ack = true
    · by_cases ht : elapsed_seconds (now w).1 c.registration_sent_time ≥ 30
      · simp only [hw, ht, if_true]
        exact reconnect_with_backoff_valid _ _ _
      · rw [if_pos hw, if_neg ht] at h
        cases h
    · rw [if_neg hw] at h
      cases h
  · intro w1 sends hv h0 h1
    have hval := close_socket_valid c w
    have htime := (close_socket_disconnect_time c w).1 hv
    obtain ⟨e0, e1⟩ := elapsed_seconds_window _ _ h0 h1
    have he : (get_disconnect_elapsed_seconds (close_socket c w).1 w1).1
        = elapsed_seconds (w1.clock w1.ticks) (w.clock w.ticks) := by
      simp only [get_disconnect_elapsed_seconds, hval, htime, Bool.not_true,
        Bool.false_eq_true, if_false, now]
      exact toInt32_of_small _ e0 (by omega)
    have hcond : (get_disconnect_elapsed_seconds (close_socket c w).1 w1).1 ≥ 0 ∧
        (get_disconnect_elapsed_seconds (close_socket c w).1 w1).1
          < STATUS_REPORT_DISCONNECT_THRESHOLD := by
      rw [he]; exact ⟨e0, e1⟩
    simp only [status_report_wake, hcond, and_self, if_true]
  · intro r
    cases r <;> simp [connect_with_timeout]

/-! ## Failure of the task handler -/

/-- C21 (as stated, refuted). The active task id is "old"; a Task "T1" asking for "Status"
parses and the TaskAck does not build: `sapient_handle_task` returns -1 and the active
task id is "T1"; the dispatcher returns -1, nothing has been sent and the active task id
stays "T1". -/
theorem task_ack_failure_keeps_new_id :
    sapient_handle_task (some ⟨some "T1", none, some (some "Status"), 0⟩) false
        TaskActionType.TASK_ACTION_NONE "old"
      = ⟨-1, none, TaskActionType.TASK_ACTION_SEND_STATUS, "T1"⟩ ∧
    sapient_parse_and_handle_message
        (some (Content.task ⟨some "T1", none, some (some "Status"), 0⟩)) true
        ⟨true, false, true, true⟩ ⟨"old", [], 0⟩
      = (-1, ⟨"T1", [], 0⟩) := by
  decide

/-- C21 (amended). `sapient_handle_task` returns -1 exactly when the Task bytes cannot be
parsed or building the TaskAck fails, and then no TaskAck is produced; the dispatcher
returns -1 for a Task only with nothing handed to `send_pb`.  When the bytes cannot be
parsed the active task id and the caller's action are as before the call.  When building
the TaskAck fails the task has been accepted and its id recorded already: the active task
id is what `sapient_set_current_task_id` makes of the task's id (the id itself, or empty
for "0"), and it is as before the call only for a task without or with an empty
task_id. -/
theorem handle_task_failure (parsed : Option Task) (built : Bool) (out_action : TaskActionType)
    (cur : String) :
    ((sapient_handle_task parsed built out_action cur).ret = -1 ↔
      parsed = none ∨ built = false) ∧
    ((sapient_handle_task parsed built out_action cur).ret = -1 →
      (sapient_handle_task parsed built out_action cur).ack = none) ∧
    (parsed = none →
      (sapient_handle_task parsed built out_action cur).current_task_id = cur ∧
      (sapient_handle_task parsed built out_action cur).out_action = out_action) ∧
    (∀ task, parsed = some task → built = false →
      (sapient_handle_task parsed built out_action cur).current_task_id
        = if task.task_id.getD "" = "" then cur
          else sapient_set_current_task_id (task.task_id.getD "")) ∧
    (∀ (client : Bool) (b : Builders) (n : Node) (task : Task),
      (sapient_parse_and_handle_message (some (Content.task task)) client b n).1 = -1 →
      (sapient_parse_and_handle_message (some (Content.task task)) client b n).2.sent
        = n.sent) := by
  refine ⟨?_, ?_, ?_, ?_, ?_⟩
  · cases parsed with
    | none => simp [sapient_handle_task]
    | some task => cases built <;> simp [sapient_handle_task, sapient_build_task_ack]
  · cases parsed with
    | none => simp [sapient_handle_task]
    | some task => cases built <;> simp [sapient_handle_task, sapient_build_task_ack]
  · intro h
    subst h
    simp [sapient_handle_task]
  · intro task hp hb
    subst hp hb
    have hacc := handle_task_internal_accepts task
    by_cases he : task.task_id.getD "" = ""
    · simp [sapient_handle_task, sapient_build_task_ack, he]
    · simp [sapient_handle_task, sapient_build_task_ack, he, hacc]
  · intro client b n task h
    unfold sapient_parse_and_handle_message at h ⊢
    by_cases hs : b.task_serializes = true
    · simp only [hs, Bool.not_true, Bool.false_eq_true, if_false] at h ⊢
      by_cases hr : (sapient_handle_task (some task) b.ack_builds
          TaskActionType.TASK_ACTION_NONE n.current_task_id).ret ≠ 0
      · rw [if_pos hr]
      · rw [if_neg hr] at h
        exfalso
        cases client
        · simp at h
        · simp only [if_true] at h
          split at h <;> simp at h
    · simp [hs]

/-! ## Module life cycle -/

theorem service_invariant (ops : List ServiceOp) :
    ∀ p : Process, p.cleanup_calls + (if p.m_impl = some true then 1 else 0) = p.init_ok →
      (ServiceOp.runAll ops p).cleanup_calls
        + (if (ServiceOp.runAll ops p).m_impl = some true then 1 else 0)
        = (ServiceOp.runAll ops p).init_ok := by
  induction ops with
  | nil => intro p h; exact h
  | cons op ops ih =>
    intro p h
    apply ih
    cases op with
    | init e =>
      simp only [ServiceOp.run, CSapientService.Init]
      by_cases hi : p.m_impl = some true
      · simpa [hi] using h
      · simp only [hi, if_false] at h ⊢
        by_cases hr : (sapient_init e p.module p.world).1 = 0
        · simp [hr]; omega
        · simp [hr]; omega
    | cleanup =>
      simp only [ServiceOp.run, CSapientService.Cleanup]
      by_cases hi : p.m_impl = some true
      · simp only [hi, if_true] at h ⊢
        simp
        omega
      · simpa [hi] using h
    | destroy =>
      simp only [ServiceOp.run, CSapientService.destroy]
      by_cases hi : p.m_impl = some true
      · simp only [hi, if_true] at h ⊢
        simp
        omega
      · simpa [hi] using h

/-- C22. Idempotent init and cleanup of the service: `Init` on an initialized service
returns 0 and leaves everything as it is, `sapient_init` not being called; `Cleanup`
after `Cleanup` changes nothing; and in every sequence of `Init` and `Cleanup` calls,
ended or not by the destruction of the instance, `sapient_cleanup` is called at most once
for each `sapient_init` that returned 0. -/
theorem service_init_cleanup_idempotent :
    (∀ (e : InitEnv) (p : Process), p.m_impl = some true →
      CSapientService.Init e p = (0, p)) ∧
    (∀ p : Process,
      CSapientService.Cleanup (CSapientService.Cleanup p) = CSapientService.Cleanup p) ∧
    (∀ (ops : List ServiceOp) (w : World),
      (ServiceOp.runAll ops (Process.start w)).cleanup_calls
        ≤ (ServiceOp.runAll ops (Process.start w)).init_ok) := by
  refine ⟨?_, ?_, ?_⟩
  · intro e p h
    simp [CSapientService.Init, h]
  · intro p
    by_cases hi : p.m_impl = some true
    · simp [CSapientService.Cleanup, hi]
    · simp [CSapientService.Cleanup, hi]
  · intro ops w
    have := service_invariant ops (Process.start w) (by simp [Process.start])
    omega

/-- C23 (evaluation of the code). `sapient_init` returns only `SAPIENT_OK` or
`SAPIENT_ERR_NOT_CONFIGURED`.  With a valid configuration and all three connection
attempts failing it returns `SAPIENT_OK` (0), not `SAPIENT_ERR_CONNECT_FAILED` (-3): the
client is left unconnected without a receive thread, nothing has been sent, and the
background reconnect thread has been started. -/
theorem sapient_init_hides_connect_failure :
    (∀ (e : InitEnv) (m : Module) (w : World),
      (sapient_init e m w).1 = SAPIENT_OK ∨
        (sapient_init e m w).1 = SAPIENT_ERR_NOT_CONFIGURED) ∧
    (sapient_init (InitEnv.sample (fun _ => ConnRes.fail)) ⟨none, false, false⟩
        (World.sample 1 [] (some [9, 9]) none)).1 = 0 ∧
    (sapient_init (InitEnv.sample (fun _ => ConnRes.fail)) ⟨none, false, false⟩
        (World.sample 1 [] (some [9, 9]) none)).2.1
      = ⟨some Client.init, true, false⟩ ∧
    (sapient_init (InitEnv.sample (fun _ => ConnRes.fail)) ⟨none, false, false⟩
        (World.sample 1 [] (some [9, 9]) none)).2.2.wire = [[]] := by
  refine ⟨?_, by decide, by decide, by decide⟩
  intro e m w
  unfold sapient_init
  simp only [sapient_tcp_client_create]
  split_ifs <;> simp
/-! ## ULID -/

theorem base32_indexOf (d : Fin 32) : base32_chars.indexOf (base32_chars.getD d.val '0') = d.val := by
  revert d
  decide

theorem base32_mem (d : Fin 32) : base32_chars.getD d.val '0' ∈ base32_chars := by
  revert d
  decide

theorem encode_base32_u64_length (count : Nat) :
    ∀ value, (encode_base32_u64 value count).length = count := by
  induction count with
  | zero => intro value; rfl
  | succ n ih => intro value; simp [encode_base32_u64, ih]

theorem encode_base32_u64_mem (count : Nat) :
    ∀ value, ∀ c ∈ encode_base32_u64 value count, c ∈ base32_chars := by
  induction count with
  | zero => intro value c hc; simp [encode_base32_u64] at hc
  | succ n ih =>
    intro value c hc
    simp only [encode_base32_u64, List.mem_append, List.mem_singleton] at hc
    rcases hc with hc | hc
    · exact ih _ c hc
    · rw [hc]
      exact base32_mem ⟨value % 32, Nat.mod_lt _ (by decide)⟩

theorem decode_base32_append (cs : List Char) (c : Char) :
    decode_base32 (cs ++ [c]) = decode_base32 cs * 32 + base32_chars.indexOf c := by
  simp [decode_base32, List.foldl_append]

theorem decode_encode_base32 (count : Nat) :
    ∀ value, decode_base32 (encode_base32_u64 value count) = value % 32 ^ count := by
  induction count with
  | zero => intro value; simp [encode_base32_u64, decode_base32, Nat.mod_one]
  | succ n ih =>
    intro value
    rw [encode_base32_u64, decode_base32_append, ih,
      base32_indexOf ⟨value % 32, Nat.mod_lt _ (by decide)⟩]
    simp only
    rw [pow_succ, Nat.mul_comm (32 ^ n) 32, Nat.mod_mul]
    ring


theorem encode_base32_u64_digit (count : Nat) :
    ∀ value i, i < count →
      (encode_base32_u64 value count).getD i '0'
        = base32_chars.getD (value / 32 ^ (count - 1 - i) % 32) '0' := by
  induction count with
  | zero => intro value i hi; omega
  | succ n ih =>
    intro value i hi
    rw [encode_base32_u64]
    by_cases hin : i < n
    · rw [List.getD_append _ _ _ _ (by rw [encode_base32_u64_length]; exact hin), ih _ _ hin]
      have : n + 1 - 1 - i = (n - 1 - i) + 1 := by omega
      rw [this, pow_succ, Nat.mul_comm, Nat.div_div_eq_div_mul]
    · have hi2 : i = n := by omega
      subst hi2
      rw [List.getD_append_right _ _ _ _ (by rw [encode_base32_u64_length])]
      simp [encode_base32_u64_length]

theorem getD_of_lt {α : Type} (l : List α) (i : Nat) (h : i < l.length) (d e : α) :
    l.getD i d = l.getD i e := by
  rw [List.getD_eq_getElem _ _ h, List.getD_eq_getElem _ _ h]

theorem generate_ulid_stamp (millis : Nat) (dist : Nat → Fin 32) (drawn : Nat) :
    (generate_ulid millis dist drawn).take 10 = encode_base32_u64 (millis % 2 ^ 64) 10 := by
  unfold generate_ulid
  rw [List.append_assoc, List.take_append_of_le_length (by rw [encode_base32_u64_length])]
  rw [List.take_of_length_le (by rw [encode_base32_u64_length])]

/-- C24. ULID structure: for every millisecond timestamp `t < 2^48` and every outcome of the
random generator, `generate_ulid` writes 26 characters of the Crockford alphabet followed by
a NUL; character `i < 10` is the digit of weight `32^(9 - i)` of `t`, so the first 10
characters are `t` in base 32, most significant digit first, and decoding them gives `t`. -/
theorem ulid_structure (t : Nat) (dist : Nat → Fin 32) (drawn : Nat) (ht : t < 2 ^ 48) :
    (generate_ulid t dist drawn).length = 27 ∧
    (generate_ulid t dist drawn).getD 26 'x' = Char.ofNat 0 ∧
    (∀ c ∈ (generate_ulid t dist drawn).take 26, c ∈ base32_chars) ∧
    (∀ i, i < 10 →
      (generate_ulid t dist drawn).getD i 'x' = base32_chars.getD (t / 32 ^ (9 - i) % 32) 'x') ∧
    decode_base32 ((generate_ulid t dist drawn).take 10) = t := by
  have h64 : t % 2 ^ 64 = t := Nat.mod_eq_of_lt (by omega)
  have hlen : (encode_base32_u64 (t % 2 ^ 64) 10
      ++ (List.range 16).map (fun i => base32_chars.getD (dist (drawn + i)).val '0')).length
      = 26 := by
    simp [encode_base32_u64_length]
  refine ⟨?_, ?_, ?_, ?_, ?_⟩
  · simp [generate_ulid, encode_base32_u64_length]
  · unfold generate_ulid
    rw [List.getD_append_right _ _ _ _ (by rw [hlen]), hlen]
    rfl
  · intro c hc
    unfold generate_ulid at hc
    rw [List.take_left' hlen] at hc
    simp only [List.mem_append, List.mem_map, List.mem_range] at hc
    rcases hc with hc | ⟨i, _, hi⟩
    · exact encode_base32_u64_mem _ _ c hc
    · rw [← hi]
      exact base32_mem _
  · intro i hi
    have hl : i < (encode_base32_u64 (t % 2 ^ 64) 10).length := by
      rw [encode_base32_u64_length]; exact hi
    unfold generate_ulid
    rw [List.append_assoc, List.getD_append _ _ _ _ hl, getD_of_lt _ _ hl 'x' '0',
      encode_base32_u64_digit _ _ _ hi, h64]
    exact getD_of_lt _ _ (Nat.mod_lt _ (by decide)) _ _
  · rw [generate_ulid_stamp, h64, decode_encode_base32]
    exact Nat.mod_eq_of_lt (by omega)

/-- A timestamp of November 2023 and a generator that always draws 7. -/
theorem ulid_structure_witness :
    (generate_ulid 1700000000000 (fun _ => 7) 0).length = 27 ∧
    decode_base32 ((generate_ulid 1700000000000 (fun _ => 7) 0).take 10) = 1700000000000 :=
  ⟨(ulid_structure 1700000000000 (fun _ => 7) 0 (by decide)).1,
    (ulid_structure 1700000000000 (fun _ => 7) 0 (by decide)).2.2.2.2⟩

/-- C25 (evaluation of the code). Two ULIDs generated one after the other on one thread
within the same millisecond (`t1 = t2 = 1700000000000`), the generator drawing 31 sixteen
times and then 0 sixteen times: the first is `01HF7YAT00ZZZZZZZZZZZZZZZZ`, the second
`01HF7YAT000000000000000000`, and the second is lexicographically smaller than the
first. -/
theorem ulid_same_millisecond_not_monotonic :
    generate_ulid 1700000000000 (fun i => if i < 16 then 31 else 0) 0
      = "01HF7YAT00ZZZZZZZZZZZZZZZZ".toList ++ [Char.ofNat 0] ∧
    generate_ulid 1700000000000 (fun i => if i < 16 then 31 else 0) 16
      = "01HF7YAT000000000000000000".toList ++ [Char.ofNat 0] ∧
    generate_ulid 1700000000000 (fun i => if i < 16 then 31 else 0) 16
      < generate_ulid 1700000000000 (fun i => if i < 16 then 31 else 0) 0 := by
  decide
/-! ## StatusReport blocks -/

theorem platform_entries_type (rs : RadarState) :
    ∀ s ∈ platform_entries rs, s.status_type = StatusType.STATUS_TYPE_PLATFORM := by
  intro s hs
  unfold platform_entries at hs
  split_ifs at hs
  · simp only [List.mem_cons, List.mem_singleton, List.not_mem_nil, or_false] at hs
    rcases hs with hs | hs <;> rw [hs]
  · simp at hs

theorem reading_entries_type (x : StatusInputs) :
    ∀ s ∈ reading_entries x, s.status_type ≠ StatusType.STATUS_TYPE_INTERNAL_FAULT := by
  intro s hs
  unfold reading_entries at hs
  simp only [List.mem_append, List.mem_singleton] at hs
  rcases hs with (hs | hs) | hs
  · subst hs
    simp
  · by_cases hc : x.clutter_ok = true
    · rw [if_pos hc] at hs
      simp only [List.mem_cons, List.mem_singleton, List.not_mem_nil, or_false] at hs
      rcases hs with hs | hs <;> subst hs <;> simp
    · rw [if_neg hc] at hs
      simp at hs
  · by_cases ht : x.temperature > 0
    · rw [if_pos ht] at hs
      simp only [List.mem_singleton] at hs
      subst hs
      simp
    · rw [if_neg ht] at hs
      simp at hs

theorem fault_entries_eq (rs : RadarState) :
    fault_entries rs
      = (List.range (min rs.faultCount 64)).map (fun i => fault_status (rs.fault i)) := by
  unfold fault_entries
  split_ifs with h
  · rfl
  · have : rs.faultCount = 0 := by omega
    simp [this]

/-- C26 (as stated, refuted). One fault of level `0x04`: the INTERNAL_FAULT entry emitted
for it has level INFORMATION, not WARNING; likewise for a fault of level `0x00`. -/
theorem fault_level_other_is_information :
    fault_entries { RadarState.zero with faultCount := 1, fault := fun _ => ⟨0x12AB, 0x04⟩ }
      = [⟨StatusLevel.STATUS_LEVEL_INFORMATION_STATUS, StatusType.STATUS_TYPE_INTERNAL_FAULT,
          "Fault_Code=0x12AB, Level=0x04"⟩] ∧
    fault_entries { RadarState.zero with faultCount := 1, fault := fun _ => ⟨0x12AB, 0x00⟩ }
      = [⟨StatusLevel.STATUS_LEVEL_INFORMATION_STATUS, StatusType.STATUS_TYPE_INTERNAL_FAULT,
          "Fault_Code=0x12AB, Level=0x00"⟩] := by
  decide

/-- C26 (amended). Fault status entries: the INTERNAL_FAULT entries of the status list are,
in order, one entry for each of the first `min(faultCount, 64)` faults of the RadarState,
and the level of a fault's entry is ERROR if the fault's level is `0x03`, WARNING if it is
`0x01` or `0x02`, and INFORMATION for every other fault level. -/
theorem fault_status_entries (rs : RadarState) (x : StatusInputs) :
    (status_entries rs x).filter
        (fun s => decide (s.status_type = StatusType.STATUS_TYPE_INTERNAL_FAULT))
      = (List.range (min rs.faultCount 64)).map (fun i => fault_status (rs.fault i)) ∧
    (∀ f : Fault,
      (fault_status f).status_type = StatusType.STATUS_TYPE_INTERNAL_FAULT ∧
      ((fault_status f).status_level = StatusLevel.STATUS_LEVEL_ERROR_STATUS
        ↔ f.faultLevel = 0x03) ∧
      ((fault_status f).status_level = StatusLevel.STATUS_LEVEL_WARNING_STATUS
        ↔ f.faultLevel = 0x01 ∨ f.faultLevel = 0x02) ∧
      ((fault_status f).status_level = StatusLevel.STATUS_LEVEL_INFORMATION_STATUS
        ↔ f.faultLevel ≠ 0x01 ∧ f.faultLevel ≠ 0x02 ∧ f.faultLevel ≠ 0x03)) := by
  constructor
  · unfold status_entries
    rw [List.filter_append, List.filter_append, fault_entries_eq]
    have h1 : (platform_entries rs).filter
        (fun s => decide (s.status_type = StatusType.STATUS_TYPE_INTERNAL_FAULT)) = [] := by
      rw [List.filter_eq_nil_iff]
      intro s hs
      rw [platform_entries_type rs s hs]
      decide
    have h2 : (reading_entries x).filter
        (fun s => decide (s.status_type = StatusType.STATUS_TYPE_INTERNAL_FAULT)) = [] := by
      rw [List.filter_eq_nil_iff]
      intro s hs
      simpa using reading_entries_type x s hs
    rw [h1, h2, List.nil_append, List.nil_append, List.filter_eq_self]
    intro s hs
    simp only [List.mem_map] at hs
    obtain ⟨i, _, hi⟩ := hs
    rw [← hi]
    rfl
  · intro f
    refine ⟨rfl, ?_, ?_, ?_⟩
    all_goals
      simp only [fault_status, fault_level]
      split_ifs <;> simp <;> omega

/-- C27 (evaluation of the code). On battery (status bits B9..B10 = `0x01`) with a charge of
exactly 20 % the power status is FAULT, where a charge of 20 % is not below 20 %: the
status is FAULT exactly when the radar is on battery, the charge is known and it is at
most 20.  The source is MAINS for bits `0x00` and without a status word,
INTERNAL_BATTERY for `0x01` and UNSPECIFIED otherwise, and the level is set exactly when
on battery with a known charge. -/
theorem power_block_battery_at_20 :
    power_block { RadarState.zero with has_status := true, status := 0x200,
                                       has_electricity := true, electricity := 20 }
      = ⟨PowerSource.POWERSOURCE_INTERNAL_BATTERY, PowerStatus.POWERSTATUS_FAULT, some 20⟩ ∧
    power_block { RadarState.zero with has_status := true, status := 0x200,
                                       has_electricity := true, electricity := 21 }
      = ⟨PowerSource.POWERSOURCE_INTERNAL_BATTERY, PowerStatus.POWERSTATUS_OK, some 21⟩ ∧
    (∀ rs : RadarState,
      ((power_block rs).status = PowerStatus.POWERSTATUS_FAULT ↔
        rs.has_status = true ∧ (parse_radar_status rs.status).power_type = 0x01 ∧
          rs.has_electricity = true ∧ rs.electricity ≤ 20) ∧
      ((power_block rs).level.isSome = true ↔
        rs.has_status = true ∧ (parse_radar_status rs.status).power_type = 0x01 ∧
          rs.has_electricity = true) ∧
      ((power_block rs).source = PowerSource.POWERSOURCE_INTERNAL_BATTERY ↔
        rs.has_status = true ∧ (parse_radar_status rs.status).power_type = 0x01) ∧
      ((power_block rs).source = PowerSource.POWERSOURCE_MAINS ↔
        rs.has_status = false ∨ (parse_radar_status rs.status).power_type = 0x00) ∧
      (parse_radar_status rs.status).power_type = rs.status / 2 ^ 9 % 4) := by
  refine ⟨by decide, by decide, ?_⟩
  intro rs
  refine ⟨?_, ?_, ?_, ?_, ?_⟩
  · unfold power_block
    by_cases h : rs.has_status = true ∧ (parse_radar_status rs.status).power_type = 0x01 ∧
        rs.has_electricity = true
    · simp only [h, and_self, if_true, true_and]
      split_ifs with he
      · simp; omega
      · simp; omega
    · rw [if_neg h]
      simp only [reduceCtorEq, false_iff]
      intro h2
      exact h ⟨h2.1, h2.2.1, h2.2.2.1⟩
  · unfold power_block
    by_cases h : rs.has_status = true ∧ (parse_radar_status rs.status).power_type = 0x01 ∧
        rs.has_electricity = true
    · simp [h]
    · rw [if_neg h]
      simpa using h
  · have hs : (power_block rs).source = power_source rs := by
      unfold power_block
      split_ifs <;> rfl
    rw [hs]
    unfold power_source
    cases rs.has_status <;> simp
    split_ifs <;> simp_all
  · have hs : (power_block rs).source = power_source rs := by
      unfold power_block
      split_ifs <;> rfl
    rw [hs]
    unfold power_source
    cases rs.has_status <;> simp
    split_ifs <;> simp_all
  · simp only [parse_radar_status]
    rw [Nat.shiftRight_eq_div_pow, show (3 : ℕ) = 2 ^ 2 - 1 by rfl,
      Nat.and_pow_two_sub_one_eq_mod]
    have : rs.status % 2 ^ 32 / 2 ^ 9 % 2 ^ 2 = rs.status / 2 ^ 9 % 2 ^ 2 := by omega
    simpa using this

theorem double_add_intCast (M N : ℤ) (h : |M + N| < 2 ^ 53) :
    double_add (M : ℚ) (N : ℚ) = ((M + N : ℤ) : ℚ) := by
  have := round_to_double_exact (M + N) 0 h (by decide)
  unfold double_add
  simpa using this

theorem double_sub_intCast (M N : ℤ) (h : |M - N| < 2 ^ 53) :
    double_sub (M : ℚ) (N : ℚ) = ((M - N : ℤ) : ℚ) := by
  have := round_to_double_exact (M - N) 0 h (by decide)
  unfold double_sub
  simpa using this

/-- C28 (evaluation of the code). A RadarState carrying the scan geometry with
`aziScanCenter = 0`: for the platform heading 720 the emitted field-of-view azimuth is
360, which is not below 360, and for the platform heading -400 it is -40, which is
negative; one subtraction or addition of 360 is all the block does. -/
theorem fov_azimuth_single_step :
    (field_of_view (RadarState.scanning 0 720)).map (fun f => f.azimuth) = some 360 ∧
    (field_of_view (RadarState.scanning 0 (-400))).map (fun f => f.azimuth) = some (-40) := by
  have a1 : double_add 0 720 = 720 := by
    have := double_add_intCast 0 720 (by decide)
    simpa using this
  have a2 : double_sub 720 360 = 360 := by
    have := double_sub_intCast 720 360 (by decide)
    norm_num at this
    exact this
  have b1 : double_add 0 (-400) = -400 := by
    have := double_add_intCast 0 (-400) (by decide)
    simpa using this
  have b2 : double_add (-400) 360 = -40 := by
    have := double_add_intCast (-400) 360 (by decide)
    norm_num at this
    exact this
  constructor
  · simp only [field_of_view, RadarState.scanning, and_self, if_true, Option.map_some', a1,
      fov_normalize]
    norm_num [a2]
  · simp only [field_of_view, RadarState.scanning, and_self, if_true, Option.map_some', b1,
      fov_normalize]
    norm_num [b2]

/-! ## Receive timeout -/

/-- C29 (evaluation of the code). The frames of the bodies `[1, 2, 3]` and `[4]` are on the
way; two bytes of the first prefix arrive, then nothing for a second, then the rest.  The
first `receive_once` returns 0 having consumed the two bytes; the second reads the bytes
`00 00 01 02` as a prefix and returns -1; the third reads `03 01 00 00` as a prefix,
consumes what is left and returns 0.  No body is handed to the callback.  Without the
silence the two calls deliver `[1, 2, 3]` and `[4]`. -/
theorem receive_timeout_mid_frame :
    (receive_once Client.online true true 65536
        ⟨frame [1, 2, 3] ++ frame [4],
          [RecvEv.data 2, RecvEv.timeout, RecvEv.data 64, RecvEv.data 64, RecvEv.data 64]⟩)
      = ⟨0, none, [], ⟨[0, 0, 1, 2, 3, 1, 0, 0, 0, 4],
          [RecvEv.data 64, RecvEv.data 64, RecvEv.data 64]⟩⟩ ∧
    (receive_once Client.online true true 65536
        ⟨[0, 0, 1, 2, 3, 1, 0, 0, 0, 4], [RecvEv.data 64, RecvEv.data 64, RecvEv.data 64]⟩)
      = ⟨-1, none, [], ⟨[3, 1, 0, 0, 0, 4], [RecvEv.data 64, RecvEv.data 64]⟩⟩ ∧
    (receive_once Client.online true true 65536
        ⟨[3, 1, 0, 0, 0, 4], [RecvEv.data 64, RecvEv.data 64]⟩)
      = ⟨0, none, [], ⟨[], []⟩⟩ ∧
    (receive_once Client.online true true 65536
        ⟨frame [1, 2, 3] ++ frame [4],
          [RecvEv.data 2, RecvEv.data 64, RecvEv.data 64, RecvEv.data 64, RecvEv.data 64]⟩)
      = ⟨3, some [1, 2, 3], [1, 2, 3], ⟨frame [4], [RecvEv.data 64, RecvEv.data 64]⟩⟩ ∧
    (receive_once Client.online true true 65536
        ⟨frame [4], [RecvEv.data 64, RecvEv.data 64]⟩)
      = ⟨1, some [4], [4], ⟨[], []⟩⟩ := by
  decide

/-! ## SHA-1 -/

set_option maxRecDepth 100000 in
theorem sha1_fips_abc :
    sha1_fips [0x61, 0x62, 0x63]
      = [0xa9, 0x99, 0x3e, 0x36, 0x47, 0x06, 0x81, 0x6a, 0xba, 0x3e, 0x25, 0x71, 0x78, 0x50,
          0xc2, 0x6c, 0x9c, 0xd0, 0xd8, 0x9d] := by
  decide

set_option maxRecDepth 100000 in
theorem sha1_finalize_abc :
    SHA1.finalize (SHA1.update SHA1.reset [0x61, 0x62, 0x63])
      = [0xe6, 0xcd, 0x2b, 0xce, 0xe4, 0x60, 0xc4, 0x5d, 0x41, 0x56, 0x5a, 0xc8, 0x77, 0xd8,
          0x66, 0xa1, 0x59, 0xa1, 0x6e, 0x19] := by
  decide

set_option maxRecDepth 100000 in
theorem sha1_finalize_empty : SHA1.finalize (SHA1.update SHA1.reset []) = sha1_fips [] := by
  decide

/-- C30 (evaluation of the code). For the 3-byte message "abc" FIPS 180 gives the digest
a9993e36 4706816a ba3e2571 7850c26c 9cd0d89d, while `reset(); update(m); finalize(d)`
leaves e6cd2bce e460c45d 41565ac8 77d866a1 59a16e19 in `d`: `finalize` stores the bit
length 24 with its least significant byte first (`buffer[56] = 0x18`), where the padding of
FIPS 180 has the most significant byte first (`0x18` in the last byte of the block).  The
empty message, of length 0, gets its FIPS 180 digest. -/
theorem sha1_length_bytes_reversed :
    sha1_fips [0x61, 0x62, 0x63]
      = [0xa9, 0x99, 0x3e, 0x36, 0x47, 0x06, 0x81, 0x6a, 0xba, 0x3e, 0x25, 0x71, 0x78, 0x50,
          0xc2, 0x6c, 0x9c, 0xd0, 0xd8, 0x9d] ∧
    SHA1.finalize (SHA1.update SHA1.reset [0x61, 0x62, 0x63])
      = [0xe6, 0xcd, 0x2b, 0xce, 0xe4, 0x60, 0xc4, 0x5d, 0x41, 0x56, 0x5a, 0xc8, 0x77, 0xd8,
          0x66, 0xa1, 0x59, 0xa1, 0x6e, 0x19] ∧
    SHA1.length_bytes 24 = [0x18, 0, 0, 0, 0, 0, 0, 0] ∧
    (sha1_fips_padding [0x61, 0x62, 0x63]).drop 53 = [0, 0, 0, 0, 0, 0, 0, 0x18] ∧
    SHA1.finalize (SHA1.update SHA1.reset []) = sha1_fips [] :=
  ⟨sha1_fips_abc, sha1_finalize_abc, by decide, by decide, sha1_finalize_empty⟩

end Sapient
